import Mathlib

/-!
# Control plane of the directory server (`ldap/servers/slapd/main.c`)

A shallow embedding of the orchestration code of `main.c`: the suffix
resolver, the signal handlers, the identity drop, the offline task functions
and the sequencing of `main`.

Conventions of the embedding.

* A C string is a `String`; a `char **` array is a `List String`, the NULL
  array and the array holding only its terminator both being `[]`.
* A C `int` is an `Int`; an `int` used as a set of flag bits is a `Nat`.
* A call into a collaborator that is not part of `main.c` is answered by an
  oracle (a field of a `structure` passed as first argument); the calls a
  function makes are recorded, in order, in a trace of `Event`s.
* `slapi_pblock_new` never returns NULL (its allocator terminates the process
  instead), so the `pb == NULL` branches are not represented.
-/

namespace Slapd

/-! ## Suffix resolver -/

/-- Result code of a successful LDAP operation (`LDAP_SUCCESS` of `ldap.h`). -/
def LDAP_SUCCESS : Int := 0

/-- A configuration entry as the resolver reads it: the values returned by
`slapi_entry_attr_get_charptr` for `cn` and `nsslapd-backend` (`none` = NULL). -/
structure Slapi_Entry where
  cn : Option String
  nsslapd_backend : Option String
deriving DecidableEq, Repr

/-- What `slapi_search_internal_pb` leaves in the parameter block:
`SLAPI_PLUGIN_INTOP_RESULT` and `SLAPI_PLUGIN_INTOP_SEARCH_ENTRIES`
(`[]` when the entry array is NULL or holds no entry). -/
structure SearchResult where
  rc : Int
  entries : List Slapi_Entry
deriving DecidableEq, Repr

/-- The directory configuration as seen by `lookup_instance_name_by_suffix`.
`slapi_filter_sprintf isexact s` is the filter text built for `s` (`none` when
the call returns NULL); `slapi_search_internal q` is the outcome of the
subtree search of `cn=mapping tree,cn=config` with filter `q`. -/
structure MappingTree where
  slapi_filter_sprintf : Bool → String → Option String
  slapi_search_internal : String → SearchResult

/-- The statement pair `suffixp = strchr(suffixp, ','); if (NULL != suffixp) suffixp++;`. -/
def parent_dn (suffixp : String) : Option String :=
  match suffixp.toList.dropWhile (fun c => c != ',') with
  | [] => none
  | _ :: rest => some (String.mk rest)

/-- How the body of `lookup_instance_name_by_suffix` leaves its search part:
by `goto done` with the current `rval`, or by falling through to the entry
loop with the current `entries`. -/
inductive SearchExit where
  | gotoDone (rval : Int)
  | fallThrough (entries : List Slapi_Entry)
deriving DecidableEq, Repr

/-- The `while (NULL != suffixp && strlen(suffixp) > 0)` loop of the non-exact
branch. The first argument bounds the number of iterations (each iteration
continues with a strictly shorter string, so `strlen(suffix) + 1` is enough);
the next ones are the loop variables `suffixp`, `rval` and `entries`. The
second component lists the strings for which a search was issued, in order. -/
def hierarchy_walk (mt : MappingTree) :
    Nat → Option String → Int → List Slapi_Entry → SearchExit × List String
  | 0, _, _, entries => (.fallThrough entries, [])
  | fuel + 1, suffixp, rval, entries =>
    match suffixp with
    | none => (.fallThrough entries, [])
    | some s =>
      if s.length = 0 then (.fallThrough entries, [])
      else
        match mt.slapi_filter_sprintf false s with
        | none => (.gotoDone rval, [])
        | some query =>
          let r := mt.slapi_search_internal query
          if r.rc != LDAP_SUCCESS then (.gotoDone r.rc, [s])
          else if r.entries.isEmpty then
            let rest := hierarchy_walk mt fuel (parent_dn s) r.rc r.entries
            (rest.1, s :: rest.2)
          else (.fallThrough r.entries, [s])

/-- The search part of `lookup_instance_name_by_suffix`, both branches. The
loop of the non-exact branch runs at most `strlen(suffix) + 1` times. -/
def search_part (mt : MappingTree) (suffix : String) (isexact : Bool) :
    SearchExit × List String :=
  if isexact then
    match mt.slapi_filter_sprintf true suffix with
    | none => (.gotoDone (-1), [])
    | some query =>
      let r := mt.slapi_search_internal query
      if r.rc != LDAP_SUCCESS then (.gotoDone r.rc, [suffix])
      else if r.entries.isEmpty then (.gotoDone r.rc, [suffix])
      else (.fallThrough r.entries, [suffix])
  else
    hierarchy_walk mt (suffix.length + 1) (some suffix) (-1) []

/-- The loop `for (ep = entries; ep && *ep; ep++)`: every entry that has an
`nsslapd-backend` value adds it to `instances` and, when `suffixes` is
requested, adds its `cn` (possibly NULL) to `suffixes`. -/
def collect_backends :
    List Slapi_Entry → Option (List (Option String)) → List String →
      Option (List (Option String)) × List String
  | [], suffixes, instances => (suffixes, instances)
  | e :: rest, suffixes, instances =>
    match e.nsslapd_backend with
    | some backend =>
      collect_backends rest (suffixes.map (fun l => l ++ [e.cn])) (instances ++ [backend])
    | none => collect_backends rest suffixes instances

/-- Outcome of `lookup_instance_name_by_suffix`: return value and the two
output arrays. -/
structure LookupResult where
  rval : Int
  suffixes : Option (List (Option String))
  instances : List String
deriving DecidableEq, Repr

/-- Embedding of `lookup_instance_name_by_suffix`. `suffixes` is `none` when the caller passes
NULL for `char ***suffixes`. -/
def lookup_instance_name_by_suffix (mt : MappingTree) (suffix : String)
    (suffixes : Option (List (Option String))) (instances : List String)
    (isexact : Bool) : LookupResult :=
  match (search_part mt suffix isexact).1 with
  | .gotoDone rval => { rval := rval, suffixes := suffixes, instances := instances }
  | .fallThrough entries =>
    let c := collect_backends entries suffixes instances
    { rval := 0, suffixes := c.1, instances := c.2 }

/-- Modelled from the spec: `charray_subtract(a, b, NULL)` is not part of
`main.c`; the specification describes it as set subtraction by
instance-identifier equality that otherwise preserves the order of `a`. -/
def charray_subtract (a b : List String) : List String :=
  a.filter (fun x => !(b.contains x))

/-- One of the two `for (p = ...; p && *p; p++)` loops of
`lookup_instance_name_by_suffixes`: `none` when a lookup returned a negative
value (the function returns at once), otherwise the accumulated array. -/
def lookup_all (mt : MappingTree) : List String → List String → Option (List String)
  | [], acc => some acc
  | p :: rest, acc =>
    let r := lookup_instance_name_by_suffix mt p none acc false
    if r.rval < 0 then none else lookup_all mt rest r.instances

/-- Embedding of `lookup_instance_name_by_suffixes`: the return value and `*instances`
(`none` when the function returns before assigning it). -/
def lookup_instance_name_by_suffixes (mt : MappingTree)
    (included excluded : List String) : Int × Option (List String) :=
  match lookup_all mt included [] with
  | none => (-1, none)
  | some incl_instances =>
    match lookup_all mt excluded [] with
    | none => (-1, none)
    | some excl_instances => (0, some (charray_subtract incl_instances excl_instances))

/-! ### Specification-side vocabulary of the resolver -/

/-- The texts that follow a comma of `l`, leftmost comma first. -/
def comma_tails : List Char → List String
  | [] => []
  | c :: cs => if c = ',' then String.mk cs :: comma_tails cs else comma_tails cs

/-- The suffix followed by its successive ancestors (the text after the first
comma, then after the second, ...), up to the first empty text. -/
def ancestors (suffix : String) : List String :=
  (suffix :: comma_tails suffix.toList).takeWhile (fun s => s.length != 0)

/-- The mapping entries the configuration holds for `s` (non-exact filter). -/
def entries_for (mt : MappingTree) (s : String) : List Slapi_Entry :=
  match mt.slapi_filter_sprintf false s with
  | some q => (mt.slapi_search_internal q).entries
  | none => []

/-- The entries of the nearest ancestor of `suffix` (itself included) that has any. -/
def nearest_entries (mt : MappingTree) (suffix : String) : List Slapi_Entry :=
  match (ancestors suffix).find? (fun s => !(entries_for mt s).isEmpty) with
  | some s => entries_for mt s
  | none => []

/-- The `nsslapd-backend` values of a list of entries, in entry order. -/
def backends_of (es : List Slapi_Entry) : List String :=
  es.filterMap (fun e => e.nsslapd_backend)

/-- The ancestors up to and including the first one that has entries. -/
def searched_of (mt : MappingTree) (suffix : String) : List String :=
  (ancestors suffix).takeWhile (fun s => (entries_for mt s).isEmpty) ++
    ((ancestors suffix).dropWhile (fun s => (entries_for mt s).isEmpty)).take 1

/-- The instances resolved from a list of suffixes: the concatenation of what
`lookup_instance_name_by_suffix` resolves for each of them. -/
def resolved (mt : MappingTree) (suffixes : List String) : List String :=
  suffixes.flatMap (fun s => (lookup_instance_name_by_suffix mt s none [] false).instances)

/-! ### Example configurations -/

/-- Filter text of the non-exact search for `s`. -/
def nonexact_filter (s : String) : String :=
  "(&(objectclass=nsmappingtree)(|(cn=*" ++ s ++ "\")(cn=*" ++ s ++ ")))"

/-- A configuration with one mapping entry, for `dc=example,dc=com`, backed by
instance `userRoot`; every search succeeds. -/
def exampleTree : MappingTree where
  slapi_filter_sprintf := fun _ s => some (nonexact_filter s)
  slapi_search_internal := fun q =>
    if q = nonexact_filter "dc=example,dc=com" then
      { rc := 0,
        entries := [{ cn := some "dc=example,dc=com", nsslapd_backend := some "userRoot" }] }
    else { rc := 0, entries := [] }

/-- The configuration of `exampleTree`, except that the search for any other
suffix fails with result code 1 (`LDAP_OPERATIONS_ERROR`). -/
def failingTree : MappingTree where
  slapi_filter_sprintf := fun _ s => some (nonexact_filter s)
  slapi_search_internal := fun q =>
    if q = nonexact_filter "dc=example,dc=com" then
      { rc := 0,
        entries := [{ cn := some "dc=example,dc=com", nsslapd_backend := some "userRoot" }] }
    else { rc := 1, entries := [] }

/-! ## Shared vocabulary: constants, modes, events -/

/-- Values of the constants that `main.c` takes from the headers of the server
(`slap.h`, `slapi-plugin.h`, `slapi-private.h`, `ldaplog.h`) and from
`sys/param.h` and `limits.h`. -/
structure Consts where
  SLAPI_SHUTDOWN_SIGNAL : Int
  LDAP_DEBUG_BACKLDBM : Nat
  LDAP_DEBUG_ANY : Nat
  EXPORT_APPENDMODE : Nat
  EXPORT_APPENDMODE_1 : Nat
  SLAPI_UPGRADEDNFORMAT : Nat
  SLAPI_DRYRUN : Nat
  MAXPATHLEN : Nat
  LDAP_PORT_MAX : Int
  LDAP_DEBUG_TRACE : Nat
  LDAP_DEBUG_PACKETS : Nat
  LDAP_DEBUG_ARGS : Nat
  LDAP_DEBUG_CONNS : Nat
  LDAP_DEBUG_BER : Nat
  LDAP_DEBUG_FILTER : Nat
  LDAP_DEBUG_CONFIG : Nat
  LDAP_DEBUG_ACL : Nat
  LDAP_DEBUG_STATS : Nat
  LDAP_DEBUG_STATS2 : Nat
  LDAP_DEBUG_SHELL : Nat
  LDAP_DEBUG_PARSE : Nat
  LDAP_DEBUG_HOUSE : Nat
  LDAP_DEBUG_REPL : Nat
  LDAP_DEBUG_CACHE : Nat
  LDAP_DEBUG_PLUGIN : Nat
  LDAP_DEBUG_TIMING : Nat
  LDAP_DEBUG_ACLSUMMARY : Nat
  LDAP_DEBUG_ALL_LEVELS : Nat

/-- The C expression `a & ~m` on flag words (which are never negative): the
bits of `a` that are not bits of `m`. -/
def clear_bits (a m : Nat) : Nat :=
  a ^^^ (a &&& m)

/-- Modelled from the spec: the constants `SLAPD_EXEMODE_*` are defined in
`slap.h`, which is not part of the source; the specification describes the
execution mode as a closed set of mutually exclusive variants, so the modes
are the constructors of an enumeration. -/
inductive ExeMode where
  | SLAPD_EXEMODE_UNKNOWN
  | SLAPD_EXEMODE_SLAPD
  | SLAPD_EXEMODE_DB2LDIF
  | SLAPD_EXEMODE_LDIF2DB
  | SLAPD_EXEMODE_ARCHIVE2DB
  | SLAPD_EXEMODE_DB2ARCHIVE
  | SLAPD_EXEMODE_DB2INDEX
  | SLAPD_EXEMODE_REFERRAL
  | SLAPD_EXEMODE_SUFFIX2INSTANCE
  | SLAPD_EXEMODE_PRINTVERSION
  | SLAPD_EXEMODE_UPGRADEDB
  | SLAPD_EXEMODE_DBVERIFY
  | SLAPD_EXEMODE_UPGRADEDNFORMAT
deriving DecidableEq, Repr

open ExeMode

/-- Severity argument of `slapi_log_err`. -/
inductive LogLevel where
  | SLAPI_LOG_EMERG
  | SLAPI_LOG_ALERT
  | SLAPI_LOG_CRIT
  | SLAPI_LOG_ERR
  | SLAPI_LOG_INFO
  | SLAPI_LOG_PLUGIN
deriving DecidableEq, Repr

open LogLevel

/-- The signals for which `main_create_ns` registers a job. -/
inductive Signal where
  | SIGINT
  | SIGTERM
  | SIGTSTP
  | SIGHUP
  | SIGUSR1
  | SIGUSR2
deriving DecidableEq, Repr

/-- The two job callbacks of `main.c`. -/
inductive JobCallback where
  | set_shutdown
  | set_user
deriving DecidableEq, Repr

/-- The backend capability reached through a function pointer of
`struct slapdplugin`. -/
inductive Capability where
  | plg_ldif2db
  | plg_db2ldif
  | plg_db2index
  | plg_db2archive
  | plg_archive2db
  | plg_upgradedb
  | plg_upgradednformat
  | plg_dbverify
deriving DecidableEq, Repr

/-- The entries of the parameter block that a task function computes before it
calls the backend (`none` = not set, or set to NULL). -/
structure PBlock where
  plugin : String
  instance_name : Option String := none
  ldif2db_file : List String := []
  db2ldif_file : Option String := none
  db2ldif_printkey : Option Nat := none
  db2ldif_server_running : Option Int := none
  db2index_attrs : List String := []
  seq_val : Option String := none
  seq_type : Option Nat := none
  dbverify_dbdir : Option String := none
deriving DecidableEq, Repr

/-- A call made by the code of `main.c`, with the arguments and the result
that matter to its control flow. `call f` is a call of `f` where nothing more
is recorded: a collaborator whose result the caller does not use or whose
result is given by the event that follows, or a function of `main.c` itself,
whose own calls follow. -/
inductive Event where
  | call (f : String)
  | slapi_log_err (level : LogLevel) (subsystem : String)
  | usage
  | fprintf_stderr (text : String)
  | ns_thrpool_new (ok : Bool)
  | ns_add_signal_job (sig : Signal) (persist : Bool) (cb : JobCallback) (slot : Nat)
  | ns_thrpool_shutdown
  | ns_thrpool_wait
  | ns_job_done (slot : Nat)
  | ns_thrpool_destroy
  | getpwnam (name : String) (found : Bool)
  | slapd_chown_if_not_owner (file : String) (uid gid : Int) (result : Int)
  | PR_OpenDir (dir : String) (ok : Bool)
  | PR_CloseDir
  | setgid (gid : Int) (result : Int)
  | setuid (uid : Int) (result : Int)
  | add_new_slapd_process (mode : ExeMode) (dump_replica skip : Int) (result : Int)
  | g_set_detached
  | is_slapd_running (result : Bool)
  | backend (cap : Capability) (pb : PBlock) (result : Int)
  | daemon_pre_setuid_init (result : Int)
  | detach (result : Int)
  | slapd_daemon (pool : Bool)
deriving DecidableEq, Repr

/-- How a function of `main.c` ends: it returns a value, it terminates the
process through `exit`, or its behaviour is undefined (it calls through a NULL
function pointer). -/
inductive Outcome where
  | ret (value : Int)
  | exit (code : Int)
  | crash
deriving DecidableEq, Repr

/-! ## Worker pool and signal coordinator -/

/-- Embedding of `ns_set_user`: does nothing. The argument and the first component of the
result are the shutdown flag read by `g_get_shutdown`. -/
def ns_set_user (flag : Int) : Int × List Event :=
  (flag, [])

/-- Embedding of `ns_set_shutdown`: sets the flag when it reads 0, then
calls `ns_thrpool_shutdown`. -/
def ns_set_shutdown (k : Consts) (flag : Int) : Int × List Event :=
  let flag1 := if flag == 0 then k.SLAPI_SHUTDOWN_SIGNAL else flag
  (flag1, [Event.ns_thrpool_shutdown])

/-- One run of a signal job. -/
def run_job (k : Consts) (cb : JobCallback) (flag : Int) : Int × List Event :=
  match cb with
  | .set_shutdown => ns_set_shutdown k flag
  | .set_user => ns_set_user flag

/-- A sequence of signal jobs run one after the other (the pool runs one
signal job at a time): the final flag and the calls made. -/
def run_jobs (k : Consts) : List JobCallback → Int → Int × List Event
  | [], flag => (flag, [])
  | cb :: rest, flag =>
    let r := run_job k cb flag
    let r2 := run_jobs k rest r.1
    (r2.1, r.2 ++ r2.2)

/-- Embedding of `main_create_ns`: the return value, whether `*tp_in` is non-NULL afterwards
(given its value before), and the calls made. `enable` is
`config_get_enable_nunc_stans()`, `new_ok` tells whether `ns_thrpool_new`
returns a pool. -/
def main_create_ns (enable new_ok : Bool) (tp : Bool) : Int × Bool × List Event :=
  if !enable then (1, tp, [])
  else
    (0, new_ok,
      [ .call "ns_thrpool_config_init",
        .ns_thrpool_new new_ok,
        .ns_add_signal_job .SIGINT true .set_shutdown 0,
        .ns_add_signal_job .SIGTERM true .set_shutdown 1,
        .ns_add_signal_job .SIGTSTP true .set_shutdown 3,
        .ns_add_signal_job .SIGHUP true .set_user 2,
        .ns_add_signal_job .SIGUSR1 true .set_user 4,
        .ns_add_signal_job .SIGUSR2 true .set_user 5 ])

/-- Embedding of `main_stop_ns`; `tp` tells whether the pool pointer is non-NULL. -/
def main_stop_ns (tp : Bool) : Int × List Event :=
  if !tp then (0, [])
  else
    (0,
      [ .ns_thrpool_shutdown, .ns_thrpool_wait,
        .ns_job_done 0, .ns_job_done 1, .ns_job_done 2,
        .ns_job_done 3, .ns_job_done 4, .ns_job_done 5,
        .ns_thrpool_destroy ])

/-! ## Privilege transition -/

/-- The fields of `struct passwd` that `main.c` reads. -/
structure passwd where
  pw_name : String
  pw_uid : Int
  pw_gid : Int
deriving DecidableEq, Repr

/-- The operating system as the privilege transition sees it. `PR_OpenDir d`
is the list of entry names that `PR_ReadDir(dir, PR_SKIP_BOTH)` goes through,
`none` when the directory cannot be opened. -/
structure Os where
  getpwnam : String → Option passwd
  setgid : Int → Int
  setuid : Int → Int
  PR_OpenDir : String → Option (List String)
  slapd_chown_if_not_owner : String → Int → Int → Int

/-- The fields of the front-end configuration used by `fix_ownership`. -/
structure FrontendConfig where
  localuser : Option String
  localuserinfo : Option passwd
  configdir : Option String
  accesslog : Option String
  auditlog : Option String
  errorlog : Option String

/-- Embedding of `strrchr(s, c)`: the text before the last `c` and the text after
it, `none` when `s` has no `c`. -/
def strrchr_split (s : String) (c : Char) : Option (String × String) :=
  match s.toList.reverse.dropWhile (fun x => x != c) with
  | [] => none
  | _ :: before =>
    some (String.mk before.reverse,
      String.mk (s.toList.reverse.takeWhile (fun x => x != c)).reverse)

/-- One ownership change and the error log that follows its failure. -/
def chown_and_log (os : Os) (file : String) (uid gid : Int) : List Event :=
  let rc := os.slapd_chown_if_not_owner file uid gid
  if rc != 0 then
    [.slapd_chown_if_not_owner file uid gid rc, .slapi_log_err SLAPI_LOG_ERR "chown_dir_files"]
  else [.slapd_chown_if_not_owner file uid gid rc]

/-- Embedding of `chown_dir_files`. -/
def chown_dir_files (k : Consts) (os : Os) (name : String) (pw : passwd)
    (strip_fn both : Bool) : List Event :=
  let pre : String × Bool × List Event :=
    if strip_fn then
      match strrchr_split name '/' with
      | none =>
        (name, true,
          Event.slapi_log_err SLAPI_LOG_ERR "chown_dir_files" ::
            chown_and_log os name pw.pw_uid (-1))
      | some (dir, _) =>
        if dir.length = 0 then
          ("/", false, [Event.slapi_log_err SLAPI_LOG_ERR "chown_dir_files"])
        else (dir, false, [])
    else (name, false, [])
  let log := pre.1
  let rc := pre.2.1
  if rc then pre.2.2
  else
    match os.PR_OpenDir log with
    | none => pre.2.2 ++ [Event.PR_OpenDir log false]
    | some entries =>
      pre.2.2 ++ [Event.PR_OpenDir log true] ++
        entries.flatMap (fun entry =>
          chown_and_log os ((log ++ "/" ++ entry).take k.MAXPATHLEN) pw.pw_uid
            (if both then pw.pw_gid else -1)) ++
        [Event.PR_CloseDir]

/-- The calls of `chown_dir_files` that `fix_ownership` makes for an optional path. -/
def chown_opt (k : Consts) (os : Os) (path : Option String) (pw : passwd)
    (strip_fn both : Bool) : List Event :=
  match path with
  | some p => chown_dir_files k os p pw strip_fn both
  | none => []

/-- Embedding of `fix_ownership`: the configuration afterwards and the calls made. -/
def fix_ownership (k : Consts) (os : Os) (cfg : FrontendConfig) :
    FrontendConfig × List Event :=
  match cfg.localuser with
  | none => (cfg, [Event.slapi_log_err SLAPI_LOG_ERR "fix_ownership"])
  | some localuser =>
    let looked : Option (passwd × FrontendConfig × List Event) :=
      match cfg.localuserinfo with
      | some pw => some (pw, cfg, [])
      | none =>
        match os.getpwnam localuser with
        | none => none
        | some pw =>
          some (pw, { cfg with localuserinfo := some pw }, [Event.getpwnam localuser true])
    match looked with
    | none =>
      (cfg, [Event.getpwnam localuser false, Event.slapi_log_err SLAPI_LOG_ERR "fix_ownership"])
    | some (pw, cfg1, ev) =>
      (cfg1,
        ev ++ chown_opt k os cfg1.configdir pw false false ++
          chown_opt k os cfg1.accesslog pw true true ++
          chown_opt k os cfg1.auditlog pw true true ++
          chown_opt k os cfg1.errorlog pw true true)

/-- Outcome of `main_setuid`. -/
structure SetuidResult where
  rc : Int
  cfg : FrontendConfig
  trace : List Event

/-- Embedding of `main_setuid`. -/
def main_setuid (k : Consts) (os : Os) (cfg : FrontendConfig) (username : Option String) :
    SetuidResult :=
  match username with
  | none => { rc := 0, cfg := cfg, trace := [] }
  | some name =>
    let f := fix_ownership k os cfg
    match os.getpwnam name with
    | none =>
      { rc := 0, cfg := f.1,
        trace := f.2 ++ [Event.getpwnam name false,
          Event.slapi_log_err SLAPI_LOG_ERR "main_setuid"] }
    | some pw =>
      let tr1 := f.2 ++ [Event.getpwnam name true]
      let g := os.setgid pw.pw_gid
      if g != 0 then
        { rc := -1, cfg := f.1,
          trace := tr1 ++ [Event.setgid pw.pw_gid g,
            Event.slapi_log_err SLAPI_LOG_ERR "main_setuid"] }
      else
        let u := os.setuid pw.pw_uid
        if u != 0 then
          { rc := -1, cfg := f.1,
            trace := tr1 ++ [Event.setgid pw.pw_gid g, Event.setuid pw.pw_uid u,
              Event.slapi_log_err SLAPI_LOG_ERR "main_setuid"] }
        else
          { rc := 0, cfg := f.1,
            trace := tr1 ++ [Event.setgid pw.pw_gid g, Event.setuid pw.pw_uid u] }

/-- Whether an event is one of the calls that `fix_ownership` can make. -/
def is_ownership_event : Event → Bool
  | .slapi_log_err _ _ => true
  | .getpwnam _ _ => true
  | .slapd_chown_if_not_owner _ _ _ _ => true
  | .PR_OpenDir _ _ => true
  | .PR_CloseDir => true
  | _ => false

/-- Whether an event is a call of `setgid` or `setuid`. -/
def is_identity_call : Event → Bool
  | .setgid _ _ => true
  | .setuid _ _ => true
  | _ => false

/-- The calls of a trace that change the identity of the process. -/
def identity_calls (tr : List Event) : List Event :=
  tr.filter is_identity_call

/-- A choice of values for the constants: a non-zero shutdown value, distinct
single bits for the flags, the path limit of Linux. -/
def exampleConsts : Consts where
  SLAPI_SHUTDOWN_SIGNAL := 1
  LDAP_DEBUG_BACKLDBM := 524288
  LDAP_DEBUG_ANY := 16384
  EXPORT_APPENDMODE := 4
  EXPORT_APPENDMODE_1 := 64
  SLAPI_UPGRADEDNFORMAT := 1
  SLAPI_DRYRUN := 2
  MAXPATHLEN := 4096
  LDAP_PORT_MAX := 65535
  LDAP_DEBUG_TRACE := 1
  LDAP_DEBUG_PACKETS := 2
  LDAP_DEBUG_ARGS := 4
  LDAP_DEBUG_CONNS := 8
  LDAP_DEBUG_BER := 16
  LDAP_DEBUG_FILTER := 32
  LDAP_DEBUG_CONFIG := 64
  LDAP_DEBUG_ACL := 128
  LDAP_DEBUG_STATS := 256
  LDAP_DEBUG_STATS2 := 512
  LDAP_DEBUG_SHELL := 1024
  LDAP_DEBUG_PARSE := 2048
  LDAP_DEBUG_HOUSE := 4096
  LDAP_DEBUG_REPL := 8192
  LDAP_DEBUG_CACHE := 32768
  LDAP_DEBUG_PLUGIN := 65536
  LDAP_DEBUG_TIMING := 131072
  LDAP_DEBUG_ACLSUMMARY := 262144
  LDAP_DEBUG_ALL_LEVELS := 16777215

/-- An operating system in which the account `dirsrv` (uid 389, gid 389) is
the only one, every directory is empty, and every call succeeds. -/
def exampleOs : Os where
  getpwnam := fun n =>
    if n = "dirsrv" then some { pw_name := "dirsrv", pw_uid := 389, pw_gid := 389 } else none
  setgid := fun _ => 0
  setuid := fun _ => 0
  PR_OpenDir := fun _ => some []
  slapd_chown_if_not_owner := fun _ _ _ => 0

/-- A front-end configuration with a run-as user and a configuration directory. -/
def exampleConfig : FrontendConfig where
  localuser := some "dirsrv"
  localuserinfo := none
  configdir := some "/etc/dirsrv/slapd-example"
  accesslog := some "/var/log/dirsrv/slapd-example/access"
  auditlog := none
  errorlog := some "/var/log/dirsrv/slapd-example/errors"

/-! ## Maintenance task dispatcher -/

/-- The fields of `struct slapdplugin` read by the task functions. `is_v2` is
the value of the macro `SLAPI_PLUGIN_IS_V2(plugin)`; `capabilities` lists the
capability function pointers that are not NULL. -/
structure slapdplugin where
  plg_name : String
  is_v2 : Bool
  capabilities : List Capability
deriving DecidableEq, Repr

/-- The configuration and plugin registry as seen by
`lookup_plugin_by_instance_name`: the filter built for an instance name, the
subtree search of `cn=plugins,cn=config` (result code and DNs of the entries),
`slapi_dn_parent`, the base search of the parent (result code and `cn` of the
entries) and `plugin_get_by_name`. -/
structure PluginRegistry where
  instance_filter : String → Option String
  search_plugins : String → Int × List String
  slapi_dn_parent : String → Option String
  search_base : Option String → Int × List (Option String)
  plugin_get_by_name : Option String → Option slapdplugin

/-- Embedding of `lookup_plugin_by_instance_name` (`none` = NULL). -/
def lookup_plugin_by_instance_name (pr : PluginRegistry) (name : String) :
    Option slapdplugin :=
  match pr.instance_filter name with
  | none => none
  | some query =>
    let r := pr.search_plugins query
    if r.1 != LDAP_SUCCESS then none
    else
      match r.2 with
      | [] => none
      | dn0 :: _ =>
        let r2 := pr.search_base (pr.slapi_dn_parent dn0)
        if r2.1 != LDAP_SUCCESS then none
        else
          match r2.2 with
          | [] => none
          | cn :: _ => pr.plugin_get_by_name cn

/-- The collaborators of the task functions. The process registry
(`add_new_slapd_process`), `is_slapd_running` and the backend capability
functions answer as a function of the calls made so far. -/
structure TaskWorld where
  mt : MappingTree
  pr : PluginRegistry
  add_new_slapd_process : List Event → ExeMode → Int → Int → Int
  is_slapd_running : List Event → Bool
  backend : List Event → Capability → PBlock → Int

/-- The settings that `process_command_line` leaves in the static variables of
`main.c`. -/
structure Globals where
  slapd_exemode : ExeMode
  ldif_file : List String := []
  cmd_line_instance_name : Option String := none
  cmd_line_instance_names : List String := []
  skip_db_protect_check : Int := 0
  db2ldif_include : List String := []
  db2ldif_exclude : List String := []
  db2index_attrs : List String := []
  ldif_printkey : Nat
  archive_name : Option String := none
  db2ldif_dump_replica : Int := 0
  upgradedb_flags : Nat := 0
  upgradednformat_dryrun : Int := 0
  is_quiet : Int := 0
  dbverify_verbose : Nat := 0
  dbverify_dbdir : Option String := none
  slapd_ldap_debug : Nat := 0

/-- The statements `if (!is_quiet) slapd_ldap_debug |= LDAP_DEBUG_BACKLDBM;
if (!(slapd_ldap_debug & LDAP_DEBUG_BACKLDBM)) g_set_detached(1);`: the new
debug level and the call made. -/
def quiet_detach (k : Consts) (is_quiet : Int) (debug : Nat) : Nat × List Event :=
  let debug1 := if is_quiet == 0 then debug ||| k.LDAP_DEBUG_BACKLDBM else debug
  if debug1 &&& k.LDAP_DEBUG_BACKLDBM == 0 then (debug1, [Event.g_set_detached])
  else (debug1, [])

/-- The block shared by `slapd_exemode_ldif2db` and `slapd_exemode_db2index`
that runs when no instance name was given: the instance is resolved from the
include and exclude suffixes and must be unique. `fn` is the name of the
calling function, `multi` the subsystem of the log line written for each of
several instances. The result is the instance name, or `none` when the caller
returns 1, and the calls made. -/
def single_instance_from_suffixes (w : TaskWorld) (g : Globals) (fn multi : String) :
    Option String × List Event :=
  let r := lookup_instance_name_by_suffixes w.mt g.db2ldif_include g.db2ldif_exclude
  if r.1 < 0 then (none, [Event.slapi_log_err SLAPI_LOG_ERR fn])
  else
    match r.2 with
    | none => (none, [Event.slapi_log_err SLAPI_LOG_ERR fn])
    | some [] => (none, [Event.slapi_log_err SLAPI_LOG_ERR fn])
    | some [inst] => (some inst, [Event.slapi_log_err SLAPI_LOG_INFO fn])
    | some (i1 :: i2 :: rest) =>
      (none,
        Event.slapi_log_err SLAPI_LOG_ERR fn ::
          (i1 :: i2 :: rest).map (fun _ => Event.slapi_log_err SLAPI_LOG_ERR multi))

/-- Embedding of `slapd_exemode_ldif2db`. -/
def slapd_exemode_ldif2db (k : Consts) (w : TaskWorld) (g : Globals) :
    Outcome × List Event :=
  if g.ldif_file.isEmpty then
    (.ret 1, [Event.slapi_log_err SLAPI_LOG_ERR "slapd_exemode_ldif2db", Event.usage])
  else
    let tr0 := [Event.call "mapping_tree_init"]
    let res : Option String × List Event :=
      match g.cmd_line_instance_name with
      | some n => (some n, [])
      | none => single_instance_from_suffixes w g "slapd_exemode_ldif2db" "     : %s\n"
    match res.1 with
    | none => (.ret 1, tr0 ++ res.2)
    | some inst =>
      let tr1 := tr0 ++ res.2
      match lookup_plugin_by_instance_name w.pr inst with
      | none => (.ret 1, tr1 ++ [Event.slapi_log_err SLAPI_LOG_ERR "slapd_exemode_ldif2db"])
      | some plugin =>
        let a := w.add_new_slapd_process tr1 g.slapd_exemode g.db2ldif_dump_replica
          g.skip_db_protect_check
        let tr2 := tr1 ++ [Event.add_new_slapd_process g.slapd_exemode
          g.db2ldif_dump_replica g.skip_db_protect_check a]
        if a == -1 then
          (.ret 1, tr2 ++ [Event.slapi_log_err SLAPI_LOG_ERR "slapd_exemode_ldif2db"])
        else if !plugin.is_v2 then
          (.ret 1, tr2 ++ [Event.slapi_log_err SLAPI_LOG_ERR "slapd_exemode_ldif2db"])
        else
          let tr3 := tr2 ++ (quiet_detach k g.is_quiet g.slapd_ldap_debug).2
          let pb : PBlock :=
            { plugin := plugin.plg_name, instance_name := some inst,
              ldif2db_file := g.ldif_file }
          if plugin.capabilities.contains Capability.plg_ldif2db then
            let rv := w.backend tr3 Capability.plg_ldif2db pb
            (.ret rv, tr3 ++ [Event.backend Capability.plg_ldif2db pb rv])
          else
            (.ret (-1), tr3 ++ [Event.slapi_log_err SLAPI_LOG_ERR "slapd_exemode_ldif2db"])

/-- The file name and print key that one iteration of the export loop puts in
the parameter block when `archive_name` is set; `first` tells whether
`instp == cmd_line_instance_names`. -/
def db2ldif_file (k : Consts) (archive_name inst : String) (first : Bool) (printkey : Nat) :
    String × Nat :=
  if printkey &&& k.EXPORT_APPENDMODE != 0 then
    if first then (archive_name, printkey ||| k.EXPORT_APPENDMODE_1)
    else (archive_name, clear_bits printkey k.EXPORT_APPENDMODE_1)
  else if archive_name != "-" then
    match strrchr_split archive_name '/' with
    | none => (inst ++ "_" ++ archive_name, printkey)
    | some (dir, q) => (dir ++ "/" ++ inst ++ "_" ++ q, printkey)
  else (archive_name, printkey)

/-- The calls that start the plugin subset for `db2ldif -r`. -/
def start_replication_subset : List Event :=
  [ Event.call "plugin_get_plugin_dependencies", Event.call "eq_init",
    Event.call "ps_init_psearch_system", Event.call "plugin_startall",
    Event.call "eq_start" ]

/-- The loop `for (instp = cmd_line_instance_names; instp && *instp; instp++)`
of `slapd_exemode_db2ldif` followed by the statements after it. The arguments
after the list of remaining instances are `instp == cmd_line_instance_names`,
the variables `slapd_ldap_debug`, `ldif_printkey` and `return_value`, and the
calls made so far. -/
def db2ldif_loop (k : Consts) (w : TaskWorld) (g : Globals) :
    List String → Bool → Nat → Nat → Int → List Event → Outcome × List Event
  | [], _, _, _, return_value, tr =>
    if g.db2ldif_dump_replica != 0 then
      (.ret return_value, tr ++ [Event.call "eq_stop", Event.call "plugin_closeall"])
    else (.ret return_value, tr)
  | inst :: rest, first, debug, printkey, _, tr =>
    match lookup_plugin_by_instance_name w.pr inst with
    | none => (.ret 1, tr ++ [Event.slapi_log_err SLAPI_LOG_ERR "slapd_exemode_db2ldif"])
    | some plugin =>
      if !plugin.capabilities.contains Capability.plg_db2ldif then
        (.ret 1, tr ++ [Event.slapi_log_err SLAPI_LOG_ERR "slapd_exemode_db2ldif"])
      else
        let a := w.add_new_slapd_process tr g.slapd_exemode g.db2ldif_dump_replica
          g.skip_db_protect_check
        let tr1 := tr ++ [Event.add_new_slapd_process g.slapd_exemode
          g.db2ldif_dump_replica g.skip_db_protect_check a]
        if a == -1 then
          (.ret 1, tr1 ++ [Event.slapi_log_err SLAPI_LOG_ERR "slapd_exemode_db2ldif"])
        else if !plugin.is_v2 then
          (.ret 1, tr1 ++ [Event.slapi_log_err SLAPI_LOG_ERR "slapd_exemode_db2ldif"])
        else
          let qd := quiet_detach k g.is_quiet debug
          let tr2 := tr1 ++ qd.2
          let running := w.is_slapd_running tr2
          let tr3 := tr2 ++ [Event.is_slapd_running running]
          let tr4 := if g.db2ldif_dump_replica != 0 then tr3 ++ start_replication_subset else tr3
          let pb0 : PBlock :=
            { plugin := plugin.plg_name, instance_name := some inst,
              db2ldif_server_running := some (if running then 1 else 0) }
          let named : PBlock × Nat × List Event :=
            match g.archive_name with
            | none => (pb0, printkey, [])
            | some archive =>
              let f := db2ldif_file k archive inst first printkey
              ({ pb0 with db2ldif_file := some f.1, db2ldif_printkey := some f.2 }, f.2,
                if g.is_quiet == 0 then [Event.fprintf_stderr ("ldiffile: " ++ f.1 ++ "\n")]
                else [])
          let tr5 := tr4 ++ named.2.2
          let rv := w.backend tr5 Capability.plg_db2ldif named.1
          db2ldif_loop k w g rest false qd.1 named.2.1 rv
            (tr5 ++ [Event.backend Capability.plg_db2ldif named.1 rv])

/-- The first block of `slapd_exemode_db2ldif`: the value of
`cmd_line_instance_names` when the loop starts (the names given on the command
line, or else the instances resolved from the include and exclude suffixes),
`none` when the function returns 1 there, and the calls made. -/
def db2ldif_targets (w : TaskWorld) (g : Globals) : Option (List String) × List Event :=
  match g.cmd_line_instance_names with
  | n :: ns => (some (n :: ns), [])
  | [] =>
    let r := lookup_instance_name_by_suffixes w.mt g.db2ldif_include g.db2ldif_exclude
    if r.1 < 0 then (none, [Event.slapi_log_err SLAPI_LOG_ERR "slapd_exemode_db2ldif"])
    else
      match r.2 with
      | none => (none, [Event.slapi_log_err SLAPI_LOG_ERR "slapd_exemode_db2ldif"])
      | some [] => (none, [Event.slapi_log_err SLAPI_LOG_ERR "slapd_exemode_db2ldif"])
      | some (i :: is) =>
        (some (i :: is),
          Event.slapi_log_err SLAPI_LOG_INFO "slapd_exemode_db2ldif" ::
            (i :: is).map (fun _ => Event.slapi_log_err SLAPI_LOG_INFO "slapd_exemode_db2ldif"))

/-- Embedding of `slapd_exemode_db2ldif`. -/
def slapd_exemode_db2ldif (k : Consts) (w : TaskWorld) (g : Globals) :
    Outcome × List Event :=
  let tr0 := [Event.call "mapping_tree_init"]
  let res := db2ldif_targets w g
  match res.1 with
  | none => (.ret 1, tr0 ++ res.2)
  | some names =>
    db2ldif_loop k w g names true g.slapd_ldap_debug g.ldif_printkey 0 (tr0 ++ res.2)

/-- Embedding of `slapd_exemode_suffix2instance`. -/
def slapd_exemode_suffix2instance (w : TaskWorld) (g : Globals) : Outcome × List Event :=
  (.ret 0,
    Event.call "mapping_tree_init" ::
      g.db2ldif_include.flatMap (fun p =>
        let r := lookup_instance_name_by_suffix w.mt p (some []) [] false
        if r.rval < 0 then []
        else
          Event.fprintf_stderr ("Suffix, Instance name pair(s) under \"" ++ p ++ "\":\n") ::
            (if r.instances.isEmpty then [Event.fprintf_stderr "\tNo instance\n"]
             else
               (List.zip (r.suffixes.getD []) r.instances).map (fun qr =>
                 Event.fprintf_stderr
                   ("\tsuffix " ++ qr.1.getD "-" ++ "; instance name \"" ++ qr.2 ++ "\"\n")))))

/-- Embedding of `slapd_exemode_db2index`. The call through `plugin->plg_db2index` is not
guarded by a NULL test. -/
def slapd_exemode_db2index (w : TaskWorld) (g : Globals) : Outcome × List Event :=
  let tr0 := [Event.call "mapping_tree_init"]
  let res : Option String × List Event :=
    match g.cmd_line_instance_name with
    | some n => (some n, [])
    | none => single_instance_from_suffixes w g "slapd_exemode_db2index" "slapd_exemode_db2index"
  match res.1 with
  | none => (.ret 1, tr0 ++ res.2)
  | some inst =>
    let tr1 := tr0 ++ res.2
    match lookup_plugin_by_instance_name w.pr inst with
    | none => (.ret 1, tr1 ++ [Event.slapi_log_err SLAPI_LOG_ERR "slapd_exemode_db2index"])
    | some plugin =>
      let a := w.add_new_slapd_process tr1 g.slapd_exemode g.db2ldif_dump_replica
        g.skip_db_protect_check
      let tr2 := tr1 ++ [Event.add_new_slapd_process g.slapd_exemode
        g.db2ldif_dump_replica g.skip_db_protect_check a]
      if a == -1 then
        (.ret 1, tr2 ++ [Event.slapi_log_err SLAPI_LOG_ERR "slapd_exemode_db2index"])
      else if g.db2index_attrs.isEmpty then (.ret 1, tr2 ++ [Event.usage])
      else
        let pb : PBlock :=
          { plugin := plugin.plg_name, instance_name := some inst,
            db2index_attrs := g.db2index_attrs }
        if plugin.capabilities.contains Capability.plg_db2index then
          let rv := w.backend tr2 Capability.plg_db2index pb
          (.ret rv, tr2 ++ [Event.backend Capability.plg_db2index pb rv])
        else (.crash, tr2)

/-- The body shared, statement for statement, by `slapd_exemode_db2archive`
and `slapd_exemode_archive2db`; they differ in the name logged, in the
capability called and in that `archive2db` also sets the instance name. -/
def archive_task (k : Consts) (w : TaskWorld) (g : Globals) (fn : String) (cap : Capability)
    (instance_name : Option String) : Outcome × List Event :=
  match w.pr.plugin_get_by_name (some "ldbm database") with
  | none => (.ret 1, [Event.slapi_log_err SLAPI_LOG_CRIT fn])
  | some backend_plugin =>
    match g.archive_name with
    | none => (.ret 1, [Event.slapi_log_err SLAPI_LOG_ERR fn])
    | some archive =>
      let a := w.add_new_slapd_process [] g.slapd_exemode g.db2ldif_dump_replica
        g.skip_db_protect_check
      let tr1 := [Event.add_new_slapd_process g.slapd_exemode
        g.db2ldif_dump_replica g.skip_db_protect_check a]
      if a == -1 then (.ret 1, tr1 ++ [Event.slapi_log_err SLAPI_LOG_ERR fn])
      else
        let tr2 := tr1 ++ (quiet_detach k g.is_quiet g.slapd_ldap_debug).2
        let pb : PBlock :=
          { plugin := backend_plugin.plg_name, seq_val := some archive,
            instance_name := instance_name }
        if backend_plugin.capabilities.contains cap then
          let rv := w.backend tr2 cap pb
          (.ret rv, tr2 ++ [Event.backend cap pb rv])
        else (.crash, tr2)

/-- Embedding of `slapd_exemode_db2archive`. -/
def slapd_exemode_db2archive (k : Consts) (w : TaskWorld) (g : Globals) :
    Outcome × List Event :=
  archive_task k w g "slapd_exemode_db2archive" Capability.plg_db2archive none

/-- Embedding of `slapd_exemode_archive2db`. -/
def slapd_exemode_archive2db (k : Consts) (w : TaskWorld) (g : Globals) :
    Outcome × List Event :=
  archive_task k w g "slapd_exemode_archive2db" Capability.plg_archive2db
    g.cmd_line_instance_name

/-- Embedding of `slapd_exemode_upgradedb`. -/
def slapd_exemode_upgradedb (w : TaskWorld) (g : Globals) : Outcome × List Event :=
  match g.archive_name with
  | none => (.ret 1, [Event.slapi_log_err SLAPI_LOG_ERR "slapd_exemode_upgradedb", Event.usage])
  | some archive =>
    let tr0 := [Event.call "mapping_tree_init"]
    match w.pr.plugin_get_by_name (some "ldbm database") with
    | none => (.ret 1, tr0 ++ [Event.slapi_log_err SLAPI_LOG_ERR "slapd_exemode_upgradedb"])
    | some backend_plugin =>
      let a := w.add_new_slapd_process tr0 g.slapd_exemode 0 g.skip_db_protect_check
      let tr1 := tr0 ++ [Event.add_new_slapd_process g.slapd_exemode 0
        g.skip_db_protect_check a]
      if a == -1 then
        (.ret 1, tr1 ++ [Event.slapi_log_err SLAPI_LOG_ERR "slapd_exemode_upgradedb"])
      else if !backend_plugin.is_v2 then
        (.ret 1, tr1 ++ [Event.slapi_log_err SLAPI_LOG_ERR "slapd_exemode_upgradedb"])
      else
        let pb : PBlock :=
          { plugin := backend_plugin.plg_name, seq_val := some archive,
            seq_type := some g.upgradedb_flags }
        if backend_plugin.capabilities.contains Capability.plg_upgradedb then
          let rv := w.backend tr1 Capability.plg_upgradedb pb
          (.ret rv, tr1 ++ [Event.backend Capability.plg_upgradedb pb rv])
        else
          (.ret (-1), tr1 ++ [Event.slapi_log_err SLAPI_LOG_ERR "slapd_exemode_upgradedb"])

/-- Embedding of `slapd_exemode_upgradednformat`; `rc` starts at -1 and every `goto bail`
returns it. -/
def slapd_exemode_upgradednformat (k : Consts) (w : TaskWorld) (g : Globals) :
    Outcome × List Event :=
  match g.archive_name with
  | none =>
    (.ret (-1), [Event.slapi_log_err SLAPI_LOG_ERR "slapd_exemode_upgradednformat", Event.usage])
  | some archive =>
    let tr0 := [Event.call "mapping_tree_init"]
    match w.pr.plugin_get_by_name (some "ldbm database") with
    | none =>
      (.ret (-1), tr0 ++ [Event.slapi_log_err SLAPI_LOG_ERR "slapd_exemode_upgradednformat"])
    | some backend_plugin =>
      let a := w.add_new_slapd_process tr0 g.slapd_exemode 0 g.skip_db_protect_check
      let tr1 := tr0 ++ [Event.add_new_slapd_process g.slapd_exemode 0
        g.skip_db_protect_check a]
      if a == -1 then
        (.ret (-1), tr1 ++ [Event.slapi_log_err SLAPI_LOG_ERR "slapd_exemode_upgradednformat"])
      else if !backend_plugin.is_v2 then
        (.ret (-1), tr1 ++ [Event.slapi_log_err SLAPI_LOG_ERR "slapd_exemode_upgradednformat"])
      else
        let seq_type :=
          if g.upgradednformat_dryrun != 0 then k.SLAPI_UPGRADEDNFORMAT ||| k.SLAPI_DRYRUN
          else k.SLAPI_UPGRADEDNFORMAT
        let pb : PBlock :=
          { plugin := backend_plugin.plg_name, instance_name := g.cmd_line_instance_name,
            seq_type := some seq_type, seq_val := some archive }
        if backend_plugin.capabilities.contains Capability.plg_upgradednformat then
          let rv := w.backend tr1 Capability.plg_upgradednformat pb
          (.ret rv, tr1 ++ [Event.backend Capability.plg_upgradednformat pb rv])
        else
          (.ret (-1),
            tr1 ++ [Event.slapi_log_err SLAPI_LOG_ERR "slapd_exemode_upgradednformat"])

/-- Embedding of `slapd_exemode_dbverify`. -/
def slapd_exemode_dbverify (w : TaskWorld) (g : Globals) : Outcome × List Event :=
  let tr0 := [Event.call "mapping_tree_init"]
  match w.pr.plugin_get_by_name (some "ldbm database") with
  | none => (.ret 1, tr0 ++ [Event.slapi_log_err SLAPI_LOG_CRIT "slapd_exemode_dbverify"])
  | some backend_plugin =>
    if !backend_plugin.is_v2 then
      (.ret 1, tr0 ++ [Event.slapi_log_err SLAPI_LOG_ERR "slapd_exemode_dbverify"])
    else
      let pb : PBlock :=
        { plugin := backend_plugin.plg_name, seq_type := some g.dbverify_verbose,
          instance_name := g.cmd_line_instance_name, dbverify_dbdir := g.dbverify_dbdir }
      if backend_plugin.capabilities.contains Capability.plg_dbverify then
        let rv := w.backend tr0 Capability.plg_dbverify pb
        (.ret rv, tr0 ++ [Event.backend Capability.plg_dbverify pb rv])
      else (.ret (-1), tr0 ++ [Event.slapi_log_err SLAPI_LOG_ERR "slapd_exemode_dbverify"])

/-- Whether an event is a call of a backend capability function. -/
def is_backend_call : Event → Bool
  | .backend _ _ _ => true
  | _ => false

/-- The backend calls of a trace. -/
def backend_calls (tr : List Event) : List Event :=
  tr.filter is_backend_call

/-- The instances for which a trace calls the backend, in order. -/
def exported_instances (tr : List Event) : List (Option String) :=
  tr.filterMap (fun e =>
    match e with
    | .backend _ pb _ => some pb.instance_name
    | _ => none)

/-- The result of the last backend call of a trace, `dflt` when there is none. -/
def last_backend_result (dflt : Int) : List Event → Int
  | [] => dflt
  | .backend _ _ rv :: rest => last_backend_result rv rest
  | _ :: rest => last_backend_result dflt rest


/-! ### Example worlds for the task functions -/

/-- A backend plugin that supports the versioned protocol and defines every
capability. -/
def ldbmPlugin : slapdplugin where
  plg_name := "ldbm database"
  is_v2 := true
  capabilities :=
    [ .plg_ldif2db, .plg_db2ldif, .plg_db2index, .plg_db2archive, .plg_archive2db,
      .plg_upgradedb, .plg_upgradednformat, .plg_dbverify ]

/-- A backend plugin that defines every capability but does not satisfy
`SLAPI_PLUGIN_IS_V2`. -/
def oldPlugin : slapdplugin where
  plg_name := "ldbm database"
  is_v2 := false
  capabilities :=
    [ .plg_ldif2db, .plg_db2ldif, .plg_db2index, .plg_db2archive, .plg_archive2db,
      .plg_upgradedb, .plg_upgradednformat, .plg_dbverify ]

/-- A registry in which every instance name has a configuration entry below
the plugin entry `cn=ldbm database,cn=plugins,cn=config`, registered as `p`. -/
def registryOf (p : slapdplugin) : PluginRegistry where
  instance_filter := fun n => some ("(&(cn=" ++ n ++ ")(objectclass=nsBackendInstance))")
  search_plugins := fun _ => (0, ["cn=instance,cn=ldbm database,cn=plugins,cn=config"])
  slapi_dn_parent := fun _ => some "cn=ldbm database,cn=plugins,cn=config"
  search_base := fun _ => (0, [some "ldbm database"])
  plugin_get_by_name := fun n => if n = some "ldbm database" then some p else none

/-- A world with the plugin `p` in which no other process conflicts, the server
is not running, and every backend call succeeds except that the export of the
instance `second` returns 5. -/
def worldOf (p : slapdplugin) : TaskWorld where
  mt := exampleTree
  pr := registryOf p
  add_new_slapd_process := fun _ _ _ _ => 0
  is_slapd_running := fun _ => false
  backend := fun _ cap pb =>
    if cap = Capability.plg_db2ldif ∧ pb.instance_name = some "second" then 5 else 0

/-- Settings of `db2ldif -n first -n second -n third`. -/
def batchExport : Globals where
  slapd_exemode := SLAPD_EXEMODE_DB2LDIF
  ldif_printkey := 5
  cmd_line_instance_names := ["first", "second", "third"]

/-- Settings of `db2index -n userRoot -t cn`. -/
def reindexSettings : Globals where
  slapd_exemode := SLAPD_EXEMODE_DB2INDEX
  ldif_printkey := 5
  cmd_line_instance_name := some "userRoot"
  db2index_attrs := ["tcn"]

/-- Settings of `db2archive -a /backup` and `archive2db -a /backup`. -/
def archiveSettings (mode : ExeMode) : Globals where
  slapd_exemode := mode
  ldif_printkey := 5
  archive_name := some "/backup"

/-- The world of `worldOf ldbmPlugin` on the configuration `failingTree`. -/
def failingSearchWorld : TaskWorld :=
  { worldOf ldbmPlugin with mt := failingTree }

/-- Settings of `db2ldif -s dc=example,dc=com -s o=broken`. -/
def partialExport : Globals where
  slapd_exemode := SLAPD_EXEMODE_DB2LDIF
  ldif_printkey := 5
  db2ldif_include := ["dc=example,dc=com", "o=broken"]

/-! ## Lifecycle orchestrator

`main` as built on Linux with `ENABLE_LDAPI` and `LDAP_ERROR_LOGGING`. The
environment variables (`SLAPD_MXFAST`, `NOTIFY_SOCKET`) only change settings
read by collaborators and are not represented. -/

/-- The outcomes of the calls that `main` makes to its collaborators. Each of
them is called at most once on an execution of `main`, except the process
registry, which is part of `w`. `process_command_line` is `none` when that
function terminates the process (usage error, `-v`), otherwise the settings it
leaves; `n_listenaddr_ok` tells whether `slapd_listenhost2addr` returned 0
with a non-NULL address, `ldapi` whether `config_get_ldapi_switch()` and
`config_get_ldapi_filename()` are both non-zero. -/
structure MainEnv where
  process_command_line : Option Globals
  debug_sleep : Bool
  cfg : FrontendConfig
  os : Os
  w : TaskWorld
  slapd_bootstrap_config : Int
  compute_init : Int
  setup_internal_backends : Int
  config_get_port : Int
  config_get_secureport : Int
  n_listenaddr_ok : Bool
  s_listenaddr_ok : Bool
  ldapi : Bool
  daemon_pre_setuid_init : Int
  detach : Int
  enable_nunc_stans : Bool
  ns_thrpool_new_ok : Bool
  config_check_referral_mode : Int
  access_rundir : Int
  config_get_slapi_counters : Int
  mapping_tree_init : Int
  uniqueIDGenInit_ok : Bool
  security_library_is_initialized : Bool
  housekeeping_start_ok : Bool
  config_get_security : Int
  sasl_map_init : Int
  search_register_reslimits_ok : Bool
  daemon_register_reslimits_ok : Bool

/-- The statements of `main` up to and including the call of
`process_command_line`. -/
def main_prologue (env : MainEnv) : List Event :=
  [Event.call "PR_Init", Event.call "FrontendConfig_init"] ++
    (if env.debug_sleep then [Event.call "printf", Event.call "sleep"] else []) ++
    [Event.call "process_command_line"]

/-- The statements of `main` from the display of the debug level to the
reading of the ports: `false` when the process exits with code 1 there. -/
def main_load_config (k : Consts) (env : MainEnv) (g : Globals) : Bool × List Event :=
  let tr0 :=
    (if clear_bits g.slapd_ldap_debug k.LDAP_DEBUG_ANY != 0 then
      [Event.call "slapd_debug_level_log"] else []) ++
    [Event.call "slapd_init", Event.call "g_log_init", Event.call "vattr_init"]
  if g.slapd_exemode = SLAPD_EXEMODE_REFERRAL then
    let tr1 := tr0 ++ [Event.call "referral_set_defaults", Event.call "slapd_bootstrap_config"]
    if env.slapd_bootstrap_config == 0 then
      (false, tr1 ++ [Event.slapi_log_err SLAPI_LOG_EMERG "main"])
    else
      (true, tr1 ++ [Event.call "config_get_port", Event.call "config_get_secureport",
        Event.call "register_objects"])
  else
    let tr1 := tr0 ++
      [ Event.call "ldapi_init_extended_ops", Event.call "defbackend_init",
        Event.call "register_objects", Event.call "init_controls", Event.call "init_features",
        Event.call "global_plugin_init", Event.call "slapd_bootstrap_config" ]
    if env.slapd_bootstrap_config == 0 then
      (false, tr1 ++ [Event.slapi_log_err SLAPI_LOG_EMERG "main"])
    else
      let tr2 := tr1 ++ [Event.call "init_saslmechanisms", Event.call "compute_init"]
      if env.compute_init != 0 then
        (false, tr2 ++ [Event.slapi_log_err SLAPI_LOG_EMERG "main"])
      else
        let tr3 := tr2 ++
          [Event.call "entry_computed_attr_init", Event.call "setup_internal_backends"]
        if env.setup_internal_backends == 0 then
          (false, tr3 ++ [Event.slapi_log_err SLAPI_LOG_EMERG "main"])
        else (true, tr3 ++ [Event.call "config_get_port", Event.call "config_get_secureport"])

/-- How the block of `main` that opens the listen sockets ends. -/
inductive BindExit where
  | proceed (i_port : Int)
  | returned
  | exited
deriving DecidableEq, Repr

/-- The block `if ((slapd_exemode == SLAPD_EXEMODE_SLAPD) || (slapd_exemode ==
SLAPD_EXEMODE_REFERRAL)) { ... }` of `main`, which ends with the call of
`daemon_pre_setuid_init`. -/
def main_bind (env : MainEnv) (g : Globals) : BindExit × List Event :=
  if g.slapd_exemode = SLAPD_EXEMODE_SLAPD ∨ g.slapd_exemode = SLAPD_EXEMODE_REFERRAL then
    let tr0 := [Event.call "config_get_listenhost", Event.call "config_get_securelistenhost",
      Event.call "slapd_listenhost2addr"]
    if !env.n_listenaddr_ok then (.returned, tr0)
    else
      let tr1 := tr0 ++ [Event.call "slapd_listenhost2addr"]
      if !env.s_listenaddr_ok then (.returned, tr1)
      else
        let tr2 := tr1 ++ [Event.call "config_get_ldapi_switch"] ++
          (if env.ldapi then [Event.call "unlink"] else [])
        let i_port : Int := if env.ldapi then 1 else 0
        let tr3 := tr2 ++ [Event.daemon_pre_setuid_init env.daemon_pre_setuid_init]
        if env.daemon_pre_setuid_init != 0 then
          (.exited, tr3 ++ [Event.slapi_log_err SLAPI_LOG_ERR "main"])
        else (.proceed i_port, tr3)
  else (.proceed 0, [])

/-- The statements after the label `cleanup` of `main`; `tp` tells whether the
pool pointer is non-NULL. -/
def main_cleanup (tp : Bool) (return_value : Int) : Outcome × List Event :=
  (.ret return_value,
    [ Event.call "compute_terminate", Event.call "SSL_ShutdownServerSessionIDCache",
      Event.call "SSL_ClearSessionCache", Event.call "ndn_cache_destroy",
      Event.call "NSS_Shutdown", Event.call "main_stop_ns" ] ++
      (main_stop_ns tp).2 ++ [Event.call "PR_Cleanup"])

/-- A `case` of the `switch` of `main` that runs a task function: the task
function is called, then `goto cleanup` with its result. -/
def main_task (tp : Bool) (fn : String) (r : Outcome × List Event) : Outcome × List Event :=
  match r.1 with
  | .ret v => (.ret v, [Event.call fn] ++ r.2 ++ (main_cleanup tp v).2)
  | .exit c => (.exit c, [Event.call fn] ++ r.2)
  | .crash => (.crash, [Event.call fn] ++ r.2)

/-- The block `if (slapd_exemode != SLAPD_EXEMODE_REFERRAL) { ... }` of `main`
that starts the plugins and checks the ports: `false` when it ends with
`return_value = 1; goto cleanup`. -/
def main_start_plugins (env : MainEnv) (i_port : Int) : Bool × List Event :=
  let tr0 := [Event.call "fedse_create_startOK", Event.call "eq_init"] ++
    (if env.config_get_slapi_counters != 0 then [Event.call "snmp_collator_start"] else []) ++
    [Event.call "ps_init_psearch_system", Event.call "mapping_tree_init"]
  if env.mapping_tree_init != 0 then (false, tr0 ++ [Event.slapi_log_err SLAPI_LOG_EMERG "main"])
  else
    let tr1 := tr0 ++ [Event.call "uniqueIDGenInit"]
    if !env.uniqueIDGenInit_ok then
      (false, tr1 ++ [Event.slapi_log_err SLAPI_LOG_EMERG "main"])
    else
      let tr2 := tr1 ++
        (if env.security_library_is_initialized then
          [Event.call "start_tls_register_plugin", Event.slapi_log_err SLAPI_LOG_PLUGIN "main"]
         else []) ++
        [ Event.call "passwd_modify_register_plugin", Event.slapi_log_err SLAPI_LOG_PLUGIN "main",
          Event.call "task_cleanup", Event.call "slapi_td_dn_init",
          Event.call "slapi_td_plugin_lock_init", Event.call "pw_exp_init",
          Event.call "plugin_print_lists", Event.call "plugin_startall",
          Event.call "compute_plugins_started", Event.call "housekeeping_start" ]
      if !env.housekeeping_start_ok then (false, tr2)
      else
        let tr3 := tr2 ++ [Event.call "eq_start", Event.call "normalize_oc"]
        if env.config_get_port != 0 then (true, tr3)
        else if i_port != 0 then (true, tr3)
        else if env.config_get_security != 0 then (true, tr3 ++ [Event.call "config_get_security"])
        else
          (false, tr3 ++ [Event.call "config_get_security",
            Event.slapi_log_err SLAPI_LOG_EMERG "main"])

/-- The statements of `main` that follow the `switch`, down to its `return`.
`hist` holds the calls made before them; the result holds the calls they make. -/
def main_server (env : MainEnv) (g : Globals) (i_port : Int) (tp : Bool) (hist : List Event) :
    Outcome × List Event :=
  let tr0 := [Event.call "ndn_cache_init", Event.call "global_backend_lock_init",
    Event.call "write_start_pid_file"]
  let guard : Bool × List Event :=
    if g.slapd_exemode ≠ SLAPD_EXEMODE_REFERRAL then
      let a := env.w.add_new_slapd_process (hist ++ tr0) g.slapd_exemode g.db2ldif_dump_replica
        g.skip_db_protect_check
      (a == -1, [Event.add_new_slapd_process g.slapd_exemode g.db2ldif_dump_replica
        g.skip_db_protect_check a])
    else (false, [])
  let tr1 := tr0 ++ guard.2
  if guard.1 then
    (.ret 1, tr1 ++ [Event.slapi_log_err SLAPI_LOG_CRIT "main"] ++ (main_cleanup tp 1).2)
  else
    let tr2 := tr1 ++ [Event.slapi_log_err SLAPI_LOG_INFO "main"]
    let started : Bool × List Event :=
      if g.slapd_exemode ≠ SLAPD_EXEMODE_REFERRAL then main_start_plugins env i_port
      else (true, [])
    let tr3 := tr2 ++ started.2
    if !started.1 then (.ret 1, tr3 ++ (main_cleanup tp 1).2)
    else
      let tr4 := tr3 ++
        (if g.slapd_exemode ≠ SLAPD_EXEMODE_REFERRAL then
          [Event.call "task_init", Event.call "pw_init", Event.call "sasl_map_init"] ++
            (if env.sasl_map_init != 0 then [Event.slapi_log_err SLAPI_LOG_CRIT "main"] else [])
         else [])
      let tr5 := tr4 ++ [Event.call "search_register_reslimits"]
      if !env.search_register_reslimits_ok then (.ret 1, tr5 ++ (main_cleanup tp 1).2)
      else
        let tr6 := tr5 ++ [Event.call "daemon_register_reslimits"]
        if !env.daemon_register_reslimits_ok then (.ret 1, tr6 ++ (main_cleanup tp 1).2)
        else
          (.ret 0,
            tr6 ++ [ Event.call "time", Event.slapd_daemon tp,
                     Event.slapi_log_err SLAPI_LOG_INFO "main", Event.call "reslimit_cleanup",
                     Event.call "vattr_cleanup", Event.call "sasl_map_done" ] ++
              (main_cleanup tp 0).2)

/-- The part of a result that continues another: the same outcome, with the
calls `pre` made before it. -/
def after (pre : List Event) (r : Outcome × List Event) : Outcome × List Event :=
  (r.1, pre ++ r.2)

/-- The statements of `main` from the call of `detach` through the `switch`
on the execution mode, and what follows them. `hist` holds the calls made
before them; the result holds the calls they make. -/
def main_run (k : Consts) (env : MainEnv) (g : Globals) (i_port : Int) (hist : List Event) :
    Outcome × List Event :=
  let tr0 := [Event.detach env.detach]
  if env.detach != 0 then after tr0 (main_cleanup false 1)
  else
    let c := main_create_ns env.enable_nunc_stans env.ns_thrpool_new_ok false
    let tp := c.2.1
    let tr1 := tr0 ++ [Event.call "main_create_ns"] ++ c.2.2
    match g.slapd_exemode with
    | SLAPD_EXEMODE_LDIF2DB =>
      after tr1 (main_task tp "slapd_exemode_ldif2db" (slapd_exemode_ldif2db k env.w g))
    | SLAPD_EXEMODE_DB2LDIF =>
      after tr1 (main_task tp "slapd_exemode_db2ldif" (slapd_exemode_db2ldif k env.w g))
    | SLAPD_EXEMODE_DB2INDEX =>
      after tr1 (main_task tp "slapd_exemode_db2index" (slapd_exemode_db2index env.w g))
    | SLAPD_EXEMODE_ARCHIVE2DB =>
      after tr1 (main_task tp "slapd_exemode_archive2db" (slapd_exemode_archive2db k env.w g))
    | SLAPD_EXEMODE_DB2ARCHIVE =>
      after tr1 (main_task tp "slapd_exemode_db2archive" (slapd_exemode_db2archive k env.w g))
    | SLAPD_EXEMODE_REFERRAL =>
      let tr2 := tr1 ++ [Event.call "config_check_referral_mode"]
      if env.config_check_referral_mode == 0 then
        (.exit 1, tr2 ++ [Event.slapi_log_err SLAPI_LOG_ALERT "main", Event.usage])
      else after tr2 (main_server env g i_port tp (hist ++ tr2))
    | SLAPD_EXEMODE_SUFFIX2INSTANCE =>
      after tr1
        (main_task tp "slapd_exemode_suffix2instance" (slapd_exemode_suffix2instance env.w g))
    | SLAPD_EXEMODE_UPGRADEDB =>
      after tr1 (main_task tp "slapd_exemode_upgradedb" (slapd_exemode_upgradedb env.w g))
    | SLAPD_EXEMODE_UPGRADEDNFORMAT =>
      after tr1
        (main_task tp "slapd_exemode_upgradednformat" (slapd_exemode_upgradednformat k env.w g))
    | SLAPD_EXEMODE_DBVERIFY =>
      after tr1 (main_task tp "slapd_exemode_dbverify" (slapd_exemode_dbverify env.w g))
    | SLAPD_EXEMODE_PRINTVERSION =>
      after (tr1 ++ [Event.call "slapd_print_version"]) (main_cleanup tp 1)
    | _ =>
      let tr2 := tr1 ++ [Event.call "config_get_rundir", Event.call "access"]
      if env.access_rundir != 0 then
        after
          (tr2 ++ [ Event.slapi_log_err SLAPI_LOG_EMERG "main",
                    Event.slapi_log_err SLAPI_LOG_EMERG "main",
                    Event.slapi_log_err SLAPI_LOG_EMERG "main" ])
          (main_cleanup tp 1)
      else after tr2 (main_server env g i_port tp (hist ++ tr2))

/-- Embedding of `main`: how the process ends and the calls it made. -/
def main (k : Consts) (env : MainEnv) : Outcome × List Event :=
  let tr0 := main_prologue env
  match env.process_command_line with
  | none => (.exit 1, tr0)
  | some g =>
    match env.cfg.configdir with
    | none => (.exit 1, tr0 ++ [Event.usage])
    | some _ =>
      let c := main_load_config k env g
      let tr1 := tr0 ++ c.2
      if !c.1 then (.exit 1, tr1)
      else
        let tr2 := tr1 ++ [Event.call "raise_process_limits", Event.call "set_entry_points"]
        let b := main_bind env g
        let tr3 := tr2 ++ b.2
        match b.1 with
        | .returned => (.ret 1, tr3)
        | .exited => (.exit 1, tr3)
        | .proceed i_port =>
          let s := main_setuid k env.os env.cfg env.cfg.localuser
          let tr4 := tr3 ++ Event.call "main_setuid" :: s.trace
          if s.rc != 0 then (.exit 1, tr4 ++ [Event.slapi_log_err SLAPI_LOG_ERR "main"])
          else after tr4 (main_run k env g i_port tr4)

/-- Whether an event is a call of the listener binding step
`daemon_pre_setuid_init`. -/
def is_bind_call : Event → Bool
  | .daemon_pre_setuid_init _ => true
  | _ => false

/-- Whether an event is neither a call of the binding step nor the call of
`main_setuid`. -/
def is_neutral : Event → Bool
  | .daemon_pre_setuid_init _ => false
  | .call f => f != "main_setuid"
  | _ => true

/-- The settings left by a command line that only selects the mode. -/
def modeSettings (mode : ExeMode) : Globals where
  slapd_exemode := mode
  ldif_printkey := 5

/-- An environment in which every collaborator succeeds: a server started with
a plain port, no conflicting process, the worker pool enabled. -/
def serverEnv (mode : ExeMode) : MainEnv where
  process_command_line := some (modeSettings mode)
  debug_sleep := false
  cfg := exampleConfig
  os := exampleOs
  w := worldOf ldbmPlugin
  slapd_bootstrap_config := 1
  compute_init := 0
  setup_internal_backends := 1
  config_get_port := 389
  config_get_secureport := 636
  n_listenaddr_ok := true
  s_listenaddr_ok := true
  ldapi := false
  daemon_pre_setuid_init := 0
  detach := 0
  enable_nunc_stans := true
  ns_thrpool_new_ok := true
  config_check_referral_mode := 1
  access_rundir := 0
  config_get_slapi_counters := 0
  mapping_tree_init := 0
  uniqueIDGenInit_ok := true
  security_library_is_initialized := true
  housekeeping_start_ok := true
  config_get_security := 0
  sasl_map_init := 0
  search_register_reslimits_ok := true
  daemon_register_reslimits_ok := true

/-- The environment of `serverEnv` in Referral mode, except that the binding
step fails. -/
def failedBindEnv : MainEnv :=
  { serverEnv SLAPD_EXEMODE_REFERRAL with daemon_pre_setuid_init := -1 }

/-- The environment of `serverEnv` in Server mode, except that the configured
run-as user `nosuchuser` is not an account of the system. -/
def unknownUserEnv : MainEnv :=
  { serverEnv SLAPD_EXEMODE_SLAPD with
    cfg := { exampleConfig with localuser := some "nosuchuser" } }

/-! ## Vocabulary of traces -/

/-- Whether an event is a call of the process registry `add_new_slapd_process`. -/
def is_guard_call : Event → Bool
  | .add_new_slapd_process _ _ _ _ => true
  | _ => false

/-- Whether an event is an operation on the worker pool or on a signal job. -/
def is_pool_event : Event → Bool
  | .ns_thrpool_new _ => true
  | .ns_add_signal_job _ _ _ _ => true
  | .ns_thrpool_shutdown => true
  | .ns_thrpool_wait => true
  | .ns_job_done _ => true
  | .ns_thrpool_destroy => true
  | _ => false

/-- Whether an event is the entry into the daemon loop `slapd_daemon`. -/
def is_daemon_call : Event → Bool
  | .slapd_daemon _ => true
  | _ => false

/-- Whether an event is one that `main` can record before it calls `detach`:
a log, a print, an ownership or identity call, the binding step, or a call
recorded by name only other than `main_create_ns` and `main_stop_ns`. -/
def is_startup_event : Event → Bool
  | .call f => f != "main_create_ns" && f != "main_stop_ns"
  | .slapi_log_err _ _ => true
  | .usage => true
  | .fprintf_stderr _ => true
  | .getpwnam _ _ => true
  | .slapd_chown_if_not_owner _ _ _ _ => true
  | .PR_OpenDir _ _ => true
  | .PR_CloseDir => true
  | .setgid _ _ => true
  | .setuid _ _ => true
  | .daemon_pre_setuid_init _ => true
  | _ => false

/-- Whether an event agrees with the pool pointer, `tp` telling whether it is
non-NULL: the daemon loop is entered with that pointer, and an operation on
the pool is made only when the pointer is non-NULL. -/
def respects_pool (tp : Bool) : Event → Bool
  | .slapd_daemon t => t == tp
  | e => tp || !is_pool_event e

/-- Whether an event is one of the calls that a task function can make. -/
def is_task_event : Event → Bool
  | .call f =>
    f == "mapping_tree_init" || f == "plugin_get_plugin_dependencies" || f == "eq_init" ||
      f == "ps_init_psearch_system" || f == "plugin_startall" || f == "eq_start" ||
      f == "eq_stop" || f == "plugin_closeall"
  | .slapi_log_err _ _ => true
  | .usage => true
  | .fprintf_stderr _ => true
  | .add_new_slapd_process _ _ _ _ => true
  | .g_set_detached => true
  | .is_slapd_running _ => true
  | .backend _ _ _ => true
  | _ => false

/-- The signal jobs registered in a trace: signal, persistence, callback, slot
of `ns_signal_job`, in order of registration. -/
def registered_jobs (tr : List Event) : List (Signal × Bool × JobCallback × Nat) :=
  tr.filterMap (fun e =>
    match e with
    | .ns_add_signal_job sig persist cb slot => some (sig, persist, cb, slot)
    | _ => none)

/-- The slots of `ns_signal_job` released in a trace, in order. -/
def released_slots (tr : List Event) : List Nat :=
  tr.filterMap (fun e =>
    match e with
    | .ns_job_done slot => some slot
    | _ => none)

/-- The number of times the plugin subset of `db2ldif -r` is started in a trace
(calls of `plugin_startall`). -/
def subset_starts (tr : List Event) : Nat :=
  tr.count (Event.call "plugin_startall")

/-- The number of times the plugin subset is stopped in a trace (calls of
`plugin_closeall`). -/
def subset_stops (tr : List Event) : Nat :=
  tr.count (Event.call "plugin_closeall")

/-! ## Security subsystem initializer -/

/-- The fields of `daemon_ports_t` written by `force_to_disable_security`:
the secure port and the array of secure listen sockets (`[]` for
`SLAPD_INVALID_SOCKET`). -/
structure daemon_ports_t where
  s_port : Int
  s_socket : List Nat
deriving DecidableEq, Repr

/-- The collaborators of `slapd_do_all_nss_ssl_init`: the results of
`config_get_security`, `slapd_nss_init`, `slapd_ssl_init`, of `slapd_ssl_init2`
for each socket, and of `config_set_security(CONFIG_SECURITY_ATTRIBUTE, "off",
...)` as a function of the calls made so far. -/
structure SecurityEnv where
  config_get_security : Int
  slapd_nss_init : Int
  slapd_ssl_init : Int
  slapd_ssl_init2 : Nat → Int
  config_set_security : List Event → Int

/-- Embedding of `force_to_disable_security`: the return value, `*ports_info`
afterwards and the calls made; the caller's `*init_ssl` is set to 0. `hist`
holds the calls made before. -/
def force_to_disable_security (se : SecurityEnv) (hist : List Event) :
    Int × daemon_ports_t × List Event :=
  let ev := [Event.slapi_log_err SLAPI_LOG_ERR "force_to_disable_security",
    Event.call "config_set_security"]
  if se.config_set_security (hist ++ ev) != 0 then
    (1, { s_port := 0, s_socket := [] },
      ev ++ [Event.slapi_log_err SLAPI_LOG_ERR "force_to_disable_security"])
  else (0, { s_port := 0, s_socket := [] }, ev)

/-- The loop `for (sock = ports_info->s_socket; sock && *sock; sock++)` of
`slapd_do_all_nss_ssl_init`, over the sockets that remain. The first component
is `true` when the function returns 1 from inside the loop. The loop tests
neither `init_ssl` nor `ports_info->s_socket` again after a failure. -/
def ssl_init2_loop (se : SecurityEnv) :
    List Nat → daemon_ports_t → List Event → Bool × daemon_ports_t × List Event
  | [], ports, _ => (false, ports, [])
  | sock :: rest, ports, hist =>
    let ev := [Event.call "slapd_ssl_init2"]
    if se.slapd_ssl_init2 sock != 0 then
      let f := force_to_disable_security se (hist ++ ev)
      if f.1 != 0 then (true, f.2.1, ev ++ f.2.2)
      else
        let r := ssl_init2_loop se rest f.2.1 (hist ++ ev ++ f.2.2)
        (r.1, r.2.1, ev ++ f.2.2 ++ r.2.2)
    else
      let r := ssl_init2_loop se rest ports (hist ++ ev)
      (r.1, r.2.1, ev ++ r.2.2)

/-- The value of `init_ssl` that `slapd_do_all_nss_ssl_init` computes before it
initialises NSS. -/
def init_ssl_intent (k : Consts) (se : SecurityEnv) (slapd_exemode : ExeMode)
    (importexport_encrypt s_port : Int) : Bool :=
  if slapd_exemode = SLAPD_EXEMODE_SLAPD then
    se.config_get_security != 0 && s_port != 0 && decide (s_port ≤ k.LDAP_PORT_MAX)
  else se.config_get_security != 0 && importexport_encrypt != 0

/-- Outcome of `slapd_do_all_nss_ssl_init`: return value, `*ports_info`
afterwards, calls made. -/
structure SslInitResult where
  rc : Int
  ports : daemon_ports_t
  trace : List Event
deriving DecidableEq, Repr

/-- The local state of `slapd_do_all_nss_ssl_init` between two of its steps:
the variable `init_ssl`, `*ports_info`, and the calls made so far. -/
structure SslState where
  init_ssl : Bool
  ports : daemon_ports_t
  trace : List Event
deriving DecidableEq, Repr

/-- First step of `slapd_do_all_nss_ssl_init`: `init_ssl` is computed, then
`if (slapd_nss_init(...)) { if (force_to_disable_security("NSS", &init_ssl,
ports_info)) return 1; }`. The result is on the left when the function
returns there. -/
def nss_step (k : Consts) (se : SecurityEnv) (slapd_exemode : ExeMode)
    (importexport_encrypt s_port : Int) (ports_info : daemon_ports_t) :
    Except SslInitResult SslState :=
  let tr0 := [Event.call "config_get_security", Event.call "slapd_nss_init"]
  if se.slapd_nss_init != 0 then
    let f := force_to_disable_security se tr0
    if f.1 != 0 then .error { rc := 1, ports := f.2.1, trace := tr0 ++ f.2.2 }
    else .ok { init_ssl := false, ports := f.2.1, trace := tr0 ++ f.2.2 }
  else
    .ok { init_ssl := init_ssl_intent k se slapd_exemode importexport_encrypt s_port,
          ports := ports_info, trace := tr0 }

/-- Second step: `client_auth_init()` in Server mode, then `if (init_ssl &&
slapd_ssl_init()) { if (force_to_disable_security("SSL", &init_ssl,
ports_info)) return 1; }`. -/
def ssl_step (se : SecurityEnv) (slapd_exemode : ExeMode) (st : SslState) :
    Except SslInitResult SslState :=
  let tr2 :=
    if slapd_exemode = SLAPD_EXEMODE_SLAPD then st.trace ++ [Event.call "client_auth_init"]
    else st.trace
  if st.init_ssl then
    let tr3 := tr2 ++ [Event.call "slapd_ssl_init"]
    if se.slapd_ssl_init != 0 then
      let f := force_to_disable_security se tr3
      if f.1 != 0 then .error { rc := 1, ports := f.2.1, trace := tr3 ++ f.2.2 }
      else .ok { init_ssl := false, ports := f.2.1, trace := tr3 ++ f.2.2 }
    else .ok { st with trace := tr3 }
  else .ok { st with trace := tr2 }

/-- Third step: in Server and Referral mode, when `init_ssl` is still set, the
loop over the secure sockets; then `return 0`. -/
def ssl2_step (se : SecurityEnv) (slapd_exemode : ExeMode) (st : SslState) : SslInitResult :=
  if (slapd_exemode = SLAPD_EXEMODE_SLAPD ∨ slapd_exemode = SLAPD_EXEMODE_REFERRAL) ∧
      st.init_ssl = true then
    let l := ssl_init2_loop se st.ports.s_socket st.ports st.trace
    { rc := if l.1 then 1 else 0, ports := l.2.1, trace := st.trace ++ l.2.2 }
  else { rc := 0, ports := st.ports, trace := st.trace }

/-- Embedding of `slapd_do_all_nss_ssl_init`: its three steps in sequence, each of the
first two possibly ending the function with `return 1`. -/
def slapd_do_all_nss_ssl_init (k : Consts) (se : SecurityEnv) (slapd_exemode : ExeMode)
    (importexport_encrypt s_port : Int) (ports_info : daemon_ports_t) : SslInitResult :=
  match nss_step k se slapd_exemode importexport_encrypt s_port ports_info with
  | .error r => r
  | .ok st1 =>
    match ssl_step se slapd_exemode st1 with
    | .error r => r
    | .ok st2 => ssl2_step se slapd_exemode st2

/-- A security configuration in which security is on and every initialisation
succeeds. -/
def secureEnv : SecurityEnv where
  config_get_security := 1
  slapd_nss_init := 0
  slapd_ssl_init := 0
  slapd_ssl_init2 := fun _ => 0
  config_set_security := fun _ => 0

/-- Secure listeners on port 636 with two sockets. -/
def examplePorts : daemon_ports_t where
  s_port := 636
  s_socket := [1, 2]

/-! ### Further example worlds -/

/-- The world of `worldOf ldbmPlugin`, except that the process registry refuses
every request. -/
def refusingWorld : TaskWorld :=
  { worldOf ldbmPlugin with add_new_slapd_process := fun _ _ _ _ => -1 }

/-- Settings of `ldif2db -n userRoot -i /tmp/in.ldif`. -/
def importSettings : Globals where
  slapd_exemode := SLAPD_EXEMODE_LDIF2DB
  ldif_printkey := 5
  cmd_line_instance_name := some "userRoot"
  ldif_file := ["/tmp/in.ldif"]

/-- A registry that knows the instance `first` only: the configuration search
for any other instance name finds no entry. -/
def oneInstanceRegistry : PluginRegistry :=
  { registryOf ldbmPlugin with
    search_plugins := fun q =>
      if q = "(&(cn=first)(objectclass=nsBackendInstance))" then
        (0, ["cn=first,cn=ldbm database,cn=plugins,cn=config"])
      else (0, []) }

/-- The world of `worldOf ldbmPlugin` with the registry `oneInstanceRegistry`. -/
def oneInstanceWorld : TaskWorld :=
  { worldOf ldbmPlugin with pr := oneInstanceRegistry }

/-- Settings of `db2ldif -r -n first -n second`. -/
def replicaExport : Globals where
  slapd_exemode := SLAPD_EXEMODE_DB2LDIF
  ldif_printkey := 5
  cmd_line_instance_names := ["first", "second"]
  db2ldif_dump_replica := 1

/-- The environment of `serverEnv` in Referral mode, except that no referral
URL was given (`config_check_referral_mode()` returns 0). -/
def referralNoUrlEnv : MainEnv :=
  { serverEnv SLAPD_EXEMODE_REFERRAL with config_check_referral_mode := 0 }

/-- The environment of `serverEnv` in Server mode, except that the run
directory cannot be accessed. -/
def noRundirEnv : MainEnv :=
  { serverEnv SLAPD_EXEMODE_SLAPD with access_rundir := -1 }

/-- The environment of `serverEnv` in Server mode, except that the process
registry refuses. -/
def conflictEnv : MainEnv :=
  { serverEnv SLAPD_EXEMODE_SLAPD with w := refusingWorld }

/-! ## Mode vocabulary -/

/-- How `name2exemode` ends: it returns a mode, or it terminates the process
through `exit`. -/
inductive ModeResult where
  | returned (exemode : ExeMode)
  | exited (code : Int)
deriving DecidableEq, Repr

/-- Embedding of `name2exemode`: how it ends and what it prints. The
comparisons are those of `strcmp`; `progname` only appears in the usage line. -/
def name2exemode (progname s : String) (exit_if_unknown : Int) : ModeResult × List Event :=
  if s = "db2ldif" then (.returned SLAPD_EXEMODE_DB2LDIF, [])
  else if s = "ldif2db" then (.returned SLAPD_EXEMODE_LDIF2DB, [])
  else if s = "archive2db" then (.returned SLAPD_EXEMODE_ARCHIVE2DB, [])
  else if s = "db2archive" then (.returned SLAPD_EXEMODE_DB2ARCHIVE, [])
  else if s = "server" then (.returned SLAPD_EXEMODE_SLAPD, [])
  else if s = "db2index" then (.returned SLAPD_EXEMODE_DB2INDEX, [])
  else if s = "refer" then (.returned SLAPD_EXEMODE_REFERRAL, [])
  else if s = "suffix2instance" then (.returned SLAPD_EXEMODE_SUFFIX2INSTANCE, [])
  else if s = "upgradedb" then (.returned SLAPD_EXEMODE_UPGRADEDB, [])
  else if s = "upgradednformat" then (.returned SLAPD_EXEMODE_UPGRADEDNFORMAT, [])
  else if s = "dbverify" then (.returned SLAPD_EXEMODE_DBVERIFY, [])
  else if exit_if_unknown != 0 then
    (.exited 1,
      [Event.fprintf_stderr
        ("usage: " ++ progname ++ " -D configdir " ++
          "[ldif2db | db2ldif | archive2db " ++
          "| db2archive | db2index | refer | suffix2instance " ++
          "| upgradedb | upgradednformat | dbverify] " ++
          "[options]\n")])
  else (.returned SLAPD_EXEMODE_UNKNOWN, [])

/-- The tokens that `name2exemode` recognises, in the order in which the
specification lists them. -/
def mode_tokens : List String :=
  ["ldif2db", "db2ldif", "archive2db", "db2archive", "server", "db2index", "refer",
    "suffix2instance", "upgradedb", "upgradednformat", "dbverify"]

/-! ## Specification-side vocabulary of the ownership fixing -/

/-- The ownership changes attempted in a trace: file, user id and group id of
each call of `slapd_chown_if_not_owner`, in order, whatever it returned. -/
def chown_attempts (tr : List Event) : List (String × Int × Int) :=
  tr.filterMap (fun e =>
    match e with
    | .slapd_chown_if_not_owner file uid gid _ => some (file, uid, gid)
    | _ => none)

/-- The directories that a trace passes to `PR_OpenDir`, in order. -/
def opened_dirs (tr : List Event) : List String :=
  tr.filterMap (fun e =>
    match e with
    | .PR_OpenDir dir _ => some dir
    | _ => none)

/-- The ownership changes that the scan of the directory `log` has to attempt:
one for each entry that `PR_ReadDir` returns, on the path `log/entry`, with the
group id only when `both` is set; none when the directory cannot be opened. -/
def scan_attempts (k : Consts) (os : Os) (log : String) (pw : passwd) (both : Bool) :
    List (String × Int × Int) :=
  match os.PR_OpenDir log with
  | none => []
  | some entries =>
    entries.map (fun entry =>
      ((log ++ "/" ++ entry).take k.MAXPATHLEN, pw.pw_uid, if both then pw.pw_gid else -1))

/-- The ownership changes that `fix_ownership` has to attempt for an optional
path. -/
def path_attempts (k : Consts) (os : Os) (path : Option String) (pw : passwd)
    (strip_fn both : Bool) : List (String × Int × Int) :=
  match path with
  | none => []
  | some name =>
    if strip_fn then
      match strrchr_split name '/' with
      | none => [(name, pw.pw_uid, -1)]
      | some (dir, _) => scan_attempts k os (if dir.length = 0 then "/" else dir) pw both
    else scan_attempts k os name pw both

/-- The ownership changes that `fix_ownership` has to attempt: none without a
run-as user or without its account; otherwise those of the configuration
directory, then of the access, audit and error log paths. -/
def ownership_attempts (k : Consts) (os : Os) (cfg : FrontendConfig) :
    List (String × Int × Int) :=
  match cfg.localuser with
  | none => []
  | some localuser =>
    match (match cfg.localuserinfo with
           | some pw => some pw
           | none => os.getpwnam localuser) with
    | none => []
    | some pw =>
      path_attempts k os cfg.configdir pw false false ++
        path_attempts k os cfg.accesslog pw true true ++
        path_attempts k os cfg.auditlog pw true true ++
        path_attempts k os cfg.errorlog pw true true

/-- The operating system `os` with other results of the ownership changes. -/
def with_chown (os : Os) (chown : String → Int → Int → Int) : Os :=
  { os with slapd_chown_if_not_owner := chown }

/-- An operating system in which the directory `/var/log/dirsrv` holds the
files `access`, `audit` and `errors`, every other directory is empty, and
every ownership change fails. -/
def failingChownOs : Os :=
  { exampleOs with
    PR_OpenDir := fun d => if d = "/var/log/dirsrv" then some ["access", "audit", "errors"]
      else some []
    slapd_chown_if_not_owner := fun _ _ _ => -1 }

/-- A front-end configuration whose three logs are in `/var/log/dirsrv`. -/
def logsConfig : FrontendConfig where
  localuser := some "dirsrv"
  localuserinfo := none
  configdir := some "/etc/dirsrv"
  accesslog := some "/var/log/dirsrv/access"
  auditlog := some "/var/log/dirsrv/audit"
  errorlog := some "/var/log/dirsrv/errors"

/-- The file names that a trace passes to the backend, in order (`none` for a
call without `SLAPI_DB2LDIF_FILE`). -/
def exported_files (tr : List Event) : List (Option String) :=
  tr.filterMap (fun e =>
    match e with
    | .backend _ pb _ => some pb.db2ldif_file
    | _ => none)

/-- Settings of `db2ldif -n first -n second -a /tmp/out.ldif`. -/
def namedExport : Globals where
  slapd_exemode := SLAPD_EXEMODE_DB2LDIF
  ldif_printkey := 1
  cmd_line_instance_names := ["first", "second"]
  archive_name := some "/tmp/out.ldif"

/-- A backend plugin that supports the versioned protocol but defines no
capability function. -/
def bareV2Plugin : slapdplugin where
  plg_name := "ldbm database"
  is_v2 := true
  capabilities := []

/-- The environment of `serverEnv`, except that no plain port and no secure
port is configured; the local socket and the security switch are off as in
`serverEnv`. -/
def noListenerEnv (mode : ExeMode) : MainEnv :=
  { serverEnv mode with config_get_port := 0, config_get_secureport := 0 }

/-- The environment of `noListenerEnv` in Server mode, except that the
security switch is on (the secure port remains 0). -/
def securityOnEnv : MainEnv :=
  { noListenerEnv SLAPD_EXEMODE_SLAPD with config_get_security := 1 }

/-! ## Debug level parsing -/

/-- An entry of the table `slapd_debug_level_map`. -/
structure slapd_debug_level_entry where
  dle_level : Nat
  dle_string : String
  dle_hide : Bool
deriving DecidableEq, Repr

/-- The table `slapd_debug_level_map`, without the entry that marks its end. -/
def slapd_debug_level_map (k : Consts) : List slapd_debug_level_entry :=
  [ { dle_level := k.LDAP_DEBUG_TRACE, dle_string := "trace", dle_hide := false },
    { dle_level := k.LDAP_DEBUG_PACKETS, dle_string := "packets", dle_hide := false },
    { dle_level := k.LDAP_DEBUG_ARGS, dle_string := "arguments", dle_hide := false },
    { dle_level := k.LDAP_DEBUG_ARGS, dle_string := "args", dle_hide := true },
    { dle_level := k.LDAP_DEBUG_CONNS, dle_string := "connections", dle_hide := false },
    { dle_level := k.LDAP_DEBUG_CONNS, dle_string := "conn", dle_hide := true },
    { dle_level := k.LDAP_DEBUG_CONNS, dle_string := "conns", dle_hide := true },
    { dle_level := k.LDAP_DEBUG_BER, dle_string := "ber", dle_hide := false },
    { dle_level := k.LDAP_DEBUG_FILTER, dle_string := "filters", dle_hide := false },
    { dle_level := k.LDAP_DEBUG_CONFIG, dle_string := "config", dle_hide := false },
    { dle_level := k.LDAP_DEBUG_ACL, dle_string := "accesscontrol", dle_hide := false },
    { dle_level := k.LDAP_DEBUG_ACL, dle_string := "acl", dle_hide := true },
    { dle_level := k.LDAP_DEBUG_ACL, dle_string := "acls", dle_hide := true },
    { dle_level := k.LDAP_DEBUG_STATS, dle_string := "stats", dle_hide := false },
    { dle_level := k.LDAP_DEBUG_STATS2, dle_string := "stats2", dle_hide := false },
    { dle_level := k.LDAP_DEBUG_SHELL, dle_string := "shell", dle_hide := true },
    { dle_level := k.LDAP_DEBUG_PARSE, dle_string := "parsing", dle_hide := false },
    { dle_level := k.LDAP_DEBUG_HOUSE, dle_string := "housekeeping", dle_hide := false },
    { dle_level := k.LDAP_DEBUG_REPL, dle_string := "replication", dle_hide := false },
    { dle_level := k.LDAP_DEBUG_REPL, dle_string := "repl", dle_hide := true },
    { dle_level := k.LDAP_DEBUG_ANY, dle_string := "errors", dle_hide := false },
    { dle_level := k.LDAP_DEBUG_ANY, dle_string := "ANY", dle_hide := true },
    { dle_level := k.LDAP_DEBUG_ANY, dle_string := "error", dle_hide := true },
    { dle_level := k.LDAP_DEBUG_CACHE, dle_string := "caches", dle_hide := false },
    { dle_level := k.LDAP_DEBUG_CACHE, dle_string := "cache", dle_hide := true },
    { dle_level := k.LDAP_DEBUG_PLUGIN, dle_string := "plugins", dle_hide := false },
    { dle_level := k.LDAP_DEBUG_PLUGIN, dle_string := "plugin", dle_hide := true },
    { dle_level := k.LDAP_DEBUG_TIMING, dle_string := "timing", dle_hide := false },
    { dle_level := k.LDAP_DEBUG_ACLSUMMARY, dle_string := "accesscontrolsummary",
      dle_hide := false },
    { dle_level := k.LDAP_DEBUG_BACKLDBM, dle_string := "backend", dle_hide := false },
    { dle_level := k.LDAP_DEBUG_ALL_LEVELS, dle_string := "ALL", dle_hide := false } ]

/-- Whether `strcasecmp(a, b) == 0`. -/
def strcasecmp_eq (a b : List Char) : Bool :=
  a.map Char.toLower == b.map Char.toLower

/-- The number written by the run of decimal digits that starts `cur`. -/
def digits_value (cur : List Char) : Nat :=
  (cur.takeWhile Char.isDigit).foldl (fun n c => 10 * n + (c.toNat - 48)) 0

/-- The largest value of the type `int`, which has 32 bits. -/
def INT_MAX : Nat := 2147483647

/-- The largest value of the type `long`, which has 64 bits. -/
def LONG_MAX : Nat := 9223372036854775807

/-- The value of the `int` whose 32 bits are those of `n`, in two's
complement. -/
def int_of_bits (n : Nat) : Int :=
  if n % 2 ^ 32 ≤ INT_MAX then ((n % 2 ^ 32 : Nat) : Int)
  else ((n % 2 ^ 32 : Nat) : Int) - 2 ^ 32

/-- Embedding of `atoi` on a string that starts with a digit, as the C library
computes it, `(int) strtol(cur, NULL, 10)`: `strtol` gives the value of the
run of digits, or `LONG_MAX` when the value is larger, and the conversion to
`int` keeps the 32 low-order bits. The result is the bit pattern of the `int`,
whose value `int_of_bits` gives: on `2147483648` it is the pattern of
-2147483648. -/
def atoi (cur : List Char) : Nat :=
  (min (digits_value cur) LONG_MAX) % 2 ^ 32

/-- The loop `for (i = 0; NULL != slapd_debug_level_map[i].dle_string; ++i)`
of `slapd_debug_level_string2level`: the level of the first entry whose name
equals `cur` without regard to case, `none` when the loop reaches the end of
the table. -/
def level_of_name (k : Consts) (cur : List Char) : Option Nat :=
  ((slapd_debug_level_map k).find? (fun e => strcasecmp_eq cur e.dle_string.toList)).map
    (fun e => e.dle_level)

/-- The `if ( isdigit( *cur )) { ... } else { ... }` of an iteration of the loop
of `slapd_debug_level_string2level`: the bits that it puts into `level`, those
of the result of `atoi` when `cur` starts with a digit and otherwise the level
of the table entry found; `none` when no entry is found. -/
def iteration_value (k : Consts) (cur : List Char) : Option Nat :=
  if (match cur with
      | c :: _ => c.isDigit
      | [] => false) then some (atoi cur)
  else level_of_name k cur

/-- The loop `for (cur = scopy; cur != NULL; cur = next)` of
`slapd_debug_level_string2level`. The first argument bounds the number of
iterations (each one continues after a `+` of the string, so `strlen(s) + 1`
is enough); the next ones are `cur` and the bit pattern of the `int` variable
`level`, into which `|=` puts the bits of the result of `atoi` or of the
level of a table entry (a non-negative `int` constant). -/
def string2level_loop (k : Consts) : Nat → List Char → Nat → Outcome × List Event
  | 0, _, level => (.ret (int_of_bits level), [])
  | fuel + 1, cur, level =>
    let tok := cur.takeWhile (fun c => c != '+')
    let next : Option (List Char) :=
      match cur.dropWhile (fun c => c != '+') with
      | [] => none
      | _ :: rest => some rest
    match iteration_value k tok with
    | none =>
      (.ret (-1),
        [Event.fprintf_stderr ("Unrecognized debug level \"" ++ String.mk tok ++ "\"\n")])
    | some v =>
      match next with
      | none => (.ret (int_of_bits (level ||| v)), [])
      | some rest => string2level_loop k fuel rest (level ||| v)

/-- Embedding of `slapd_debug_level_string2level`. -/
def slapd_debug_level_string2level (k : Consts) (s : String) : Outcome × List Event :=
  string2level_loop k (s.length + 1) s.toList 0

/-! ### Specification-side vocabulary of the debug level parsing -/

/-- The tokens of a string: its parts between `+` characters. -/
def plus_tokens : List Char → List (List Char)
  | [] => [[]]
  | c :: cs =>
    if c = '+' then [] :: plus_tokens cs
    else
      match plus_tokens cs with
      | t :: ts => (c :: t) :: ts
      | [] => [[c]]

/-- The decimal value of a token that starts with a digit: the number whose
decimal digits, the most significant first, are the leading digits of the
token. -/
def decimal_value (tok : List Char) : Nat :=
  Nat.ofDigits 10 (((tok.takeWhile Char.isDigit).map (fun c => c.toNat - '0'.toNat)).reverse)

/-- The names of the table, in lower case, each with the level of its entry. -/
def level_names (k : Consts) : List (List Char × Nat) :=
  (slapd_debug_level_map k).map (fun e => (e.dle_string.toList.map Char.toLower, e.dle_level))

/-- The value of a token: its decimal value when it starts with a digit,
otherwise the level of the table entry whose name equals it without regard to
case; `none` when it is neither. -/
def token_level (k : Consts) (tok : List Char) : Option Nat :=
  match tok with
  | c :: _ =>
    if c.isDigit then some (decimal_value tok)
    else (level_names k).lookup (tok.map Char.toLower)
  | [] => none

/-- Whether the value of a token, when it has one, fits an `int`. -/
def token_fits (k : Consts) (tok : List Char) : Bool :=
  decide ((token_level k tok).getD 0 ≤ 2147483647)

/-- The bitwise OR of the values of a list of tokens. -/
def or_of_tokens (k : Consts) (toks : List (List Char)) : Nat :=
  toks.foldl (fun level tok => level ||| (token_level k tok).getD 0) 0

/-! ## Theorems: suffix resolver -/

theorem comma_tails_dropWhile (l : List Char) :
    comma_tails l =
      match l.dropWhile (fun c => c != ',') with
      | [] => []
      | _ :: rest => String.mk rest :: comma_tails rest := by
  induction l with
  | nil => rfl
  | cons c cs ih =>
    by_cases h : c = ','
    · subst h
      simp [comma_tails, List.dropWhile]
    · have hne : (c != ',') = true := by simpa using h
      simp only [comma_tails, h, if_false, List.dropWhile, hne]
      exact ih

theorem length_dropWhile_le_self (p : Char → Bool) (l : List Char) :
    (l.dropWhile p).length ≤ l.length := by
  induction l with
  | nil => simp
  | cons c cs ih =>
    simp only [List.dropWhile]
    split
    · simp only [List.length_cons]; omega
    · simp

theorem parent_dn_none {s : String} (h : parent_dn s = none) :
    comma_tails s.toList = [] := by
  rw [comma_tails_dropWhile]
  unfold parent_dn at h
  split at h
  · rfl
  · simp at h

theorem parent_dn_some {s p : String} (h : parent_dn s = some p) :
    comma_tails s.toList = p :: comma_tails p.toList ∧ p.length < s.length := by
  unfold parent_dn at h
  split at h
  · simp at h
  · next c rest heq =>
    have hp : p = String.mk rest := by simpa using h.symm
    subst hp
    constructor
    · rw [comma_tails_dropWhile, heq]
      try rfl
    · have := length_dropWhile_le_self (fun c => c != ',') s.toList
      rw [heq] at this
      simp only [List.length_cons] at this
      show rest.length < s.toList.length
      omega

theorem ancestors_unfold (s : String) :
    ancestors s =
      if s.length = 0 then []
      else s :: (match parent_dn s with
                 | none => []
                 | some p => ancestors p) := by
  unfold ancestors
  by_cases h0 : s.length = 0
  · simp [h0, List.takeWhile]
  · rw [if_neg h0]
    have hne : (s.length != 0) = true := by simpa using h0
    rw [List.takeWhile_cons, if_pos hne]
    congr 1
    cases hp : parent_dn s with
    | none => rw [parent_dn_none hp]; rfl
    | some p => rw [(parent_dn_some hp).1]

theorem hierarchy_walk_none (mt : MappingTree) (fuel : Nat) (rv : Int)
    (es : List Slapi_Entry) :
    hierarchy_walk mt fuel none rv es = (.fallThrough es, []) := by
  cases fuel <;> rfl

/-- The fuel given by `search_part` is enough whatever the searches answer:
any fuel above the length of the suffix gives the same result, so the loop
model never stops for lack of fuel. -/
theorem hierarchy_walk_fuel (mt : MappingTree) :
    ∀ (n m : Nat) (s : String) (rv : Int) (es : List Slapi_Entry),
      s.length < n → s.length < m →
      hierarchy_walk mt n (some s) rv es = hierarchy_walk mt m (some s) rv es := by
  intro n
  induction n with
  | zero => intro m s rv es h; omega
  | succ n ih =>
    intro m s rv es hn hm
    cases m with
    | zero => omega
    | succ m =>
      simp only [hierarchy_walk]
      split
      · rfl
      · split
        · rfl
        · split
          · rfl
          · split
            · cases hp : parent_dn s with
              | none => simp [hierarchy_walk_none]
              | some p =>
                have hlt := (parent_dn_some hp).2
                rw [ih m p _ _ (by omega) (by omega)]
            · rfl

/-- With enough fuel for the length of the suffix, and when every search
succeeds, the loop falls through with the entries of the nearest ancestor that
has any, having searched the ancestors up to that one. -/
theorem hierarchy_walk_spec (mt : MappingTree)
    (hf : ∀ s, (mt.slapi_filter_sprintf false s).isSome = true)
    (hs : ∀ q, (mt.slapi_search_internal q).rc = LDAP_SUCCESS) :
    ∀ (fuel : Nat) (s : String) (rv : Int), s.length < fuel →
      hierarchy_walk mt fuel (some s) rv [] =
        (.fallThrough (nearest_entries mt s), searched_of mt s) := by
  intro fuel
  induction fuel with
  | zero => intro s rv h; omega
  | succ n ih =>
    intro s rv hlen
    unfold nearest_entries searched_of
    rw [ancestors_unfold s]
    by_cases h0 : s.length = 0
    · simp [hierarchy_walk, h0]
    · obtain ⟨q, hq⟩ := Option.isSome_iff_exists.mp (hf s)
      have hent : entries_for mt s = (mt.slapi_search_internal q).entries := by
        simp [entries_for, hq]
      simp only [hierarchy_walk, h0, if_false, hq, hs q, bne_self_eq_false, Bool.false_eq_true]
      by_cases he : (mt.slapi_search_internal q).entries.isEmpty = true
      · have he2 : (mt.slapi_search_internal q).entries = [] := by
          simpa using he
        simp only [he, if_true, List.find?_cons, hent, Bool.not_true, List.takeWhile_cons,
          List.dropWhile_cons]
        cases hp : parent_dn s with
        | none => simp [hierarchy_walk_none, he2]
        | some p =>
          have hlt := (parent_dn_some hp).2
          rw [he2, ih p LDAP_SUCCESS (by omega)]
          simp [nearest_entries, searched_of]
      · simp [he, hent, List.find?_cons, List.takeWhile_cons, List.dropWhile_cons]

theorem collect_backends_none (es : List Slapi_Entry) (acc : List String) :
    collect_backends es none acc = (none, acc ++ backends_of es) := by
  induction es generalizing acc with
  | nil => simp [collect_backends, backends_of]
  | cons e rest ih =>
    cases hb : e.nsslapd_backend with
    | none => simp [collect_backends, hb, ih, backends_of, List.filterMap_cons]
    | some b => simp [collect_backends, hb, ih, backends_of, List.filterMap_cons]

theorem lookup_nonexact_spec (mt : MappingTree)
    (hf : ∀ s, (mt.slapi_filter_sprintf false s).isSome = true)
    (hs : ∀ q, (mt.slapi_search_internal q).rc = LDAP_SUCCESS)
    (suffix : String) (acc : List String) :
    lookup_instance_name_by_suffix mt suffix none acc false =
      { rval := 0, suffixes := none,
        instances := acc ++ backends_of (nearest_entries mt suffix) } := by
  have h := hierarchy_walk_spec mt hf hs (suffix.length + 1) suffix (-1) (by omega)
  simp [lookup_instance_name_by_suffix, search_part, h, collect_backends_none]

theorem lookup_all_spec (mt : MappingTree)
    (hf : ∀ s, (mt.slapi_filter_sprintf false s).isSome = true)
    (hs : ∀ q, (mt.slapi_search_internal q).rc = LDAP_SUCCESS)
    (l : List String) (acc : List String) :
    lookup_all mt l acc = some (acc ++ resolved mt l) := by
  induction l generalizing acc with
  | nil => simp [lookup_all, resolved]
  | cons p rest ih =>
    have h1 := lookup_nonexact_spec mt hf hs p acc
    have h2 := lookup_nonexact_spec mt hf hs p []
    simp only [lookup_all, h1]
    rw [if_neg (by decide), ih]
    simp [resolved, List.flatMap_cons, h2] at *

/-- C2 (exclusion by subtraction). When every configuration search succeeds,
`lookup_instance_name_by_suffixes` returns 0 with the instances resolved from
the include suffixes, in their order, minus every one that equals an instance
resolved from an exclude suffix; no instance resolved from an exclude suffix
is in the result; and equal include and exclude lists give the empty list. -/
theorem exclusion_by_subtraction (mt : MappingTree) (included excluded : List String)
    (hf : ∀ s, (mt.slapi_filter_sprintf false s).isSome = true)
    (hs : ∀ q, (mt.slapi_search_internal q).rc = LDAP_SUCCESS) :
    lookup_instance_name_by_suffixes mt included excluded =
        (0, some ((resolved mt included).filter
          (fun i => decide (i ∉ resolved mt excluded)))) ∧
      (∀ r, (lookup_instance_name_by_suffixes mt included excluded).2 = some r →
        ∀ i, i ∈ resolved mt excluded → i ∉ r) ∧
      lookup_instance_name_by_suffixes mt included included = (0, some []) := by
  have key : ∀ a b, lookup_instance_name_by_suffixes mt a b =
      (0, some ((resolved mt a).filter (fun i => decide (i ∉ resolved mt b)))) := by
    intro a b
    simp only [lookup_instance_name_by_suffixes, lookup_all_spec mt hf hs, List.nil_append,
      charray_subtract]
    congr 2
    apply List.filter_congr
    intro x _
    simp
  refine ⟨key _ _, ?_, ?_⟩
  · intro r hr i hi hmem
    rw [key] at hr
    simp only [Option.some.injEq] at hr
    subst hr
    simp [List.mem_filter] at hmem
    exact hmem.2 hi
  · rw [key]
    congr 2
    simp [List.filter_eq_nil_iff]

/-- Witness of C2 on the example configuration: including and excluding
`dc=example,dc=com` gives the empty list, including it alone gives `userRoot`. -/
theorem exclusion_by_subtraction_witness :
    (∀ s, (exampleTree.slapi_filter_sprintf false s).isSome = true) ∧
    (∀ q, (exampleTree.slapi_search_internal q).rc = LDAP_SUCCESS) ∧
    resolved exampleTree ["dc=example,dc=com"] = ["userRoot"] ∧
    lookup_instance_name_by_suffixes exampleTree ["dc=example,dc=com"] [] =
      (0, some ["userRoot"]) ∧
    lookup_instance_name_by_suffixes exampleTree ["dc=example,dc=com"] ["dc=example,dc=com"] =
      (0, some []) := by
  have hf : ∀ s, (exampleTree.slapi_filter_sprintf false s).isSome = true := fun _ => rfl
  have hs : ∀ q, (exampleTree.slapi_search_internal q).rc = LDAP_SUCCESS := by
    intro q
    simp only [exampleTree]
    split <;> rfl
  refine ⟨hf, hs, by decide, ?_, ?_⟩
  · rw [(exclusion_by_subtraction exampleTree ["dc=example,dc=com"] [] hf hs).1]
    decide
  · exact (exclusion_by_subtraction exampleTree ["dc=example,dc=com"] ["dc=example,dc=com"]
      hf hs).2.2

/-- C3 (hierarchy walk). When every search succeeds, the non-exact lookup of
`suffix` returns 0 with the `nsslapd-backend` values, in entry order, of the
entries of the nearest ancestor of `suffix` that has any, and the strings it
searched are `suffix` and its successive texts after a comma, up to that
ancestor. -/
theorem hierarchy_walk_nearest_ancestor (mt : MappingTree) (suffix : String)
    (hf : ∀ s, (mt.slapi_filter_sprintf false s).isSome = true)
    (hs : ∀ q, (mt.slapi_search_internal q).rc = LDAP_SUCCESS) :
    lookup_instance_name_by_suffix mt suffix none [] false =
        { rval := 0, suffixes := none,
          instances := backends_of (nearest_entries mt suffix) } ∧
      (search_part mt suffix false).2 = searched_of mt suffix := by
  constructor
  · simpa using lookup_nonexact_spec mt hf hs suffix []
  · have h := hierarchy_walk_spec mt hf hs (suffix.length + 1) suffix (-1) (by omega)
    simp [search_part, h]

/-- Witness of C3: no mapping entry for `ou=people,dc=example,dc=com`, one for
`dc=example,dc=com`; the lookup of the former walks up one component and
returns the instance of the latter. -/
theorem hierarchy_walk_nearest_ancestor_witness :
    (∀ s, (exampleTree.slapi_filter_sprintf false s).isSome = true) ∧
    (∀ q, (exampleTree.slapi_search_internal q).rc = LDAP_SUCCESS) ∧
    entries_for exampleTree "ou=people,dc=example,dc=com" = [] ∧
    lookup_instance_name_by_suffix exampleTree "ou=people,dc=example,dc=com" none [] false =
      { rval := 0, suffixes := none, instances := ["userRoot"] } ∧
    (search_part exampleTree "ou=people,dc=example,dc=com" false).2 =
      ["ou=people,dc=example,dc=com", "dc=example,dc=com"] := by
  have hf : ∀ s, (exampleTree.slapi_filter_sprintf false s).isSome = true := fun _ => rfl
  have hs : ∀ q, (exampleTree.slapi_search_internal q).rc = LDAP_SUCCESS := by
    intro q
    simp only [exampleTree]
    split <;> rfl
  have h := hierarchy_walk_nearest_ancestor exampleTree "ou=people,dc=example,dc=com" hf hs
  refine ⟨hf, hs, by decide, ?_, ?_⟩
  · rw [h.1]; decide
  · rw [h.2]; decide

/-- C4 (a configuration-search error is not surfaced). The search for
`o=broken` fails with result code 1; `lookup_instance_name_by_suffix` returns
that positive code, which the test `< 0` of `lookup_instance_name_by_suffixes`
does not take for a failure: the resolution returns 0 with the instances
resolved so far, and the export started with these include suffixes goes on
with the partial list and returns 0. -/
theorem search_error_not_surfaced :
    (failingTree.slapi_search_internal (nonexact_filter "o=broken")).rc = 1 ∧
    (lookup_instance_name_by_suffix failingTree "o=broken" none [] false).rval = 1 ∧
    lookup_instance_name_by_suffixes failingTree ["dc=example,dc=com", "o=broken"] [] =
      (0, some ["userRoot"]) ∧
    lookup_instance_name_by_suffixes failingTree ["o=broken"] [] = (0, some []) ∧
    (slapd_exemode_db2ldif exampleConsts failingSearchWorld partialExport).1 = .ret 0 ∧
    exported_instances (slapd_exemode_db2ldif exampleConsts failingSearchWorld partialExport).2 =
      [some "userRoot"] := by
  decide

/-! ## Theorems: signal coordinator -/

theorem run_jobs_trace (k : Consts) (jobs : List JobCallback) (flag : Int) :
    (run_jobs k jobs flag).2 =
      List.replicate (jobs.count JobCallback.set_shutdown) Event.ns_thrpool_shutdown := by
  induction jobs generalizing flag with
  | nil => rfl
  | cons cb rest ih =>
    cases cb with
    | set_shutdown =>
      simp [run_jobs, run_job, ns_set_shutdown, ih, List.replicate_succ]
    | set_user =>
      simp [run_jobs, run_job, ns_set_user, ih]

theorem run_jobs_flag_nonzero (k : Consts) (jobs : List JobCallback) (flag : Int)
    (h : flag ≠ 0) : (run_jobs k jobs flag).1 = flag := by
  induction jobs with
  | nil => rfl
  | cons cb rest ih =>
    cases cb with
    | set_shutdown => simpa [run_jobs, run_job, ns_set_shutdown, h] using ih
    | set_user => simpa [run_jobs, run_job, ns_set_user] using ih

/-- C5 (pool shutdown requested by the transitioning caller only), the
code at the failing input. The comment of `ns_set_shutdown` places the signal
to the worker threads inside the branch that moves the flag from 0, but the
call of `ns_thrpool_shutdown` stands after the closing brace of that branch:
an invocation that finds the flag already set to `SLAPI_SHUTDOWN_SIGNAL`
leaves the flag as it is and still requests the pool shutdown, and two
invocations in a row starting from 0 request it twice. -/
theorem shutdown_request_not_only_by_transition :
    (ns_set_shutdown exampleConsts 1).1 = 1 ∧
    (ns_set_shutdown exampleConsts 1).2 = [Event.ns_thrpool_shutdown] ∧
    (run_jobs exampleConsts [JobCallback.set_shutdown, JobCallback.set_shutdown] 0).2 =
      [Event.ns_thrpool_shutdown, Event.ns_thrpool_shutdown] := by
  decide

/-- C6 (first writer wins). `ns_set_shutdown` sets the flag to
`SLAPI_SHUTDOWN_SIGNAL` when it was 0 and leaves it unchanged otherwise,
`ns_set_user` never changes it, and once the flag is non-zero no sequence of
signal jobs changes it. -/
theorem first_writer_wins (k : Consts) (flag : Int) :
    (ns_set_shutdown k 0).1 = k.SLAPI_SHUTDOWN_SIGNAL ∧
    (ns_set_user flag).1 = flag ∧
    (flag ≠ 0 →
      (ns_set_shutdown k flag).1 = flag ∧
      ∀ jobs : List JobCallback, (run_jobs k jobs flag).1 = flag) := by
  refine ⟨rfl, rfl, ?_⟩
  intro h
  refine ⟨?_, fun jobs => run_jobs_flag_nonzero k jobs flag h⟩
  simp [ns_set_shutdown, h]

/-- Witness of C6: from the flag value 2 a shutdown job, a user job and another
shutdown job leave the flag at 2; from 0 the first shutdown job sets it to 1
and the second leaves it. -/
theorem first_writer_wins_witness :
    (2 : Int) ≠ 0 ∧
    (run_jobs exampleConsts
      [JobCallback.set_shutdown, JobCallback.set_user, JobCallback.set_shutdown] 2).1 = 2 ∧
    (run_jobs exampleConsts [JobCallback.set_shutdown, JobCallback.set_shutdown] 0).1 = 1 := by
  refine ⟨by decide, ?_, by decide⟩
  exact ((first_writer_wins exampleConsts 2).2.2 (by decide)).2 _

/-! ## Theorems: privilege transition -/

theorem chown_and_log_vocabulary (os : Os) (file : String) (uid gid : Int) :
    ∀ e ∈ chown_and_log os file uid gid, is_ownership_event e = true := by
  intro e he
  simp only [chown_and_log] at he
  split at he
  · simp at he
    rcases he with h | h <;> subst h <;> rfl
  · simp at he
    subst he; rfl

theorem chown_dir_files_vocabulary (k : Consts) (os : Os) (name : String) (pw : passwd)
    (strip_fn both : Bool) :
    ∀ e ∈ chown_dir_files k os name pw strip_fn both, is_ownership_event e = true := by
  intro e he
  unfold chown_dir_files at he
  have hc := chown_and_log_vocabulary os
  cases strip_fn
  · simp only [Bool.false_eq_true, if_false] at he
    cases hd : os.PR_OpenDir name with
    | none =>
      simp [hd] at he
      subst he; rfl
    | some entries =>
      simp [hd, List.mem_flatMap] at he
      rcases he with h | ⟨a, _, h⟩ | h
      · subst h; rfl
      · exact hc _ _ _ e h
      · subst h; rfl
  · simp only [if_true] at he
    cases hs : strrchr_split name '/' with
    | none =>
      simp [hs] at he
      rcases he with h | h
      · subst h; rfl
      · exact hc _ _ _ e h
    | some p =>
      obtain ⟨dir, base⟩ := p
      simp only [hs] at he
      by_cases h0 : dir.length = 0
      · simp only [h0, if_true] at he
        cases hd : os.PR_OpenDir "/" with
        | none =>
          simp [hd] at he
          rcases he with h | h <;> subst h <;> rfl
        | some entries =>
          simp [hd, List.mem_flatMap] at he
          rcases he with h | h | ⟨a, _, h⟩ | h
          · subst h; rfl
          · subst h; rfl
          · exact hc _ _ _ e h
          · subst h; rfl
      · simp only [h0, if_false] at he
        cases hd : os.PR_OpenDir dir with
        | none =>
          simp [hd] at he
          subst he; rfl
        | some entries =>
          simp [hd, List.mem_flatMap] at he
          rcases he with h | ⟨a, _, h⟩ | h
          · subst h; rfl
          · exact hc _ _ _ e h
          · subst h; rfl

theorem chown_opt_vocabulary (k : Consts) (os : Os) (path : Option String) (pw : passwd)
    (strip_fn both : Bool) :
    ∀ e ∈ chown_opt k os path pw strip_fn both, is_ownership_event e = true := by
  intro e he
  cases path with
  | none => simp [chown_opt] at he
  | some p => exact chown_dir_files_vocabulary k os p pw strip_fn both e he

/-- Every call made by `fix_ownership` is a log, an account lookup, an
ownership change or a directory operation. -/
theorem fix_ownership_vocabulary (k : Consts) (os : Os) (cfg : FrontendConfig) :
    ∀ e ∈ (fix_ownership k os cfg).2, is_ownership_event e = true := by
  intro e he
  have hco := chown_opt_vocabulary k os
  unfold fix_ownership at he
  cases hl : cfg.localuser with
  | none =>
    simp [hl] at he
    subst he; rfl
  | some localuser =>
    simp only [hl] at he
    cases hi : cfg.localuserinfo with
    | some pw =>
      simp [hi] at he
      rcases he with h | h | h | h <;> exact hco _ _ _ _ e h
    | none =>
      cases hg : os.getpwnam localuser with
      | none =>
        simp [hi, hg] at he
        rcases he with h | h <;> subst h <;> rfl
      | some pw =>
        simp [hi, hg] at he
        rcases he with h | h | h | h | h
        · subst h; rfl
        all_goals exact hco _ _ _ _ e h

theorem fix_ownership_not_identity (k : Consts) (os : Os) (cfg : FrontendConfig) :
    identity_calls (fix_ownership k os cfg).2 = [] := by
  unfold identity_calls
  rw [List.filter_eq_nil_iff]
  intro e he
  have h := fix_ownership_vocabulary k os cfg e he
  cases e <;> simp_all [is_ownership_event, is_identity_call]

/-- C7 (the account lookup fails, the identity drop reports success). For the
user name `nosuchuser`, which `getpwnam` does not know, `main_setuid` logs the
failed lookup, calls neither `setgid` nor `setuid`, and returns 0; `main`,
started with that run-as user, goes on to the daemon loop under the original
identity and returns 0. -/
theorem main_setuid_unknown_account_returns_zero :
    exampleOs.getpwnam "nosuchuser" = none ∧
    (main_setuid exampleConsts exampleOs unknownUserEnv.cfg (some "nosuchuser")).rc = 0 ∧
    (main_setuid exampleConsts exampleOs unknownUserEnv.cfg (some "nosuchuser")).trace =
      [ Event.getpwnam "nosuchuser" false, Event.slapi_log_err SLAPI_LOG_ERR "fix_ownership",
        Event.getpwnam "nosuchuser" false, Event.slapi_log_err SLAPI_LOG_ERR "main_setuid" ] ∧
    (main exampleConsts unknownUserEnv).1 = .ret 0 ∧
    Event.slapd_daemon true ∈ (main exampleConsts unknownUserEnv).2 ∧
    identity_calls (main exampleConsts unknownUserEnv).2 = [] := by
  decide

/-- C8 (group before user, all or nothing). When the account lookup succeeds,
`main_setuid` calls `setgid` with the group id of the account first; when that
fails it returns -1 and `setuid` is not called; otherwise it calls `setuid`
with the user id and returns -1 when that fails; it returns 0 exactly when
both calls succeeded. -/
theorem group_before_user (k : Consts) (os : Os) (cfg : FrontendConfig) (name : String)
    (pw : passwd) (h : os.getpwnam name = some pw) :
    (os.setgid pw.pw_gid ≠ 0 →
      (main_setuid k os cfg (some name)).rc = -1 ∧
      identity_calls (main_setuid k os cfg (some name)).trace =
        [Event.setgid pw.pw_gid (os.setgid pw.pw_gid)]) ∧
    (os.setgid pw.pw_gid = 0 →
      identity_calls (main_setuid k os cfg (some name)).trace =
        [Event.setgid pw.pw_gid 0, Event.setuid pw.pw_uid (os.setuid pw.pw_uid)] ∧
      (os.setuid pw.pw_uid ≠ 0 → (main_setuid k os cfg (some name)).rc = -1)) ∧
    ((main_setuid k os cfg (some name)).rc = 0 ↔
      os.setgid pw.pw_gid = 0 ∧ os.setuid pw.pw_uid = 0) := by
  have hf := fix_ownership_not_identity k os cfg
  unfold identity_calls at hf
  by_cases hg : os.setgid pw.pw_gid = 0
  · by_cases hu : os.setuid pw.pw_uid = 0
    · simp [main_setuid, h, hg, hu, identity_calls, List.filter_append, hf, is_identity_call,
        List.filter_cons]
    · simp [main_setuid, h, hg, hu, identity_calls, List.filter_append, hf, is_identity_call,
        List.filter_cons]
  · simp [main_setuid, h, hg, identity_calls, List.filter_append, hf, is_identity_call,
      List.filter_cons]

/-- Witness of C8: for the account `dirsrv` both calls succeed; the group id is
set, then the user id, and the result is 0. -/
theorem group_before_user_witness :
    exampleOs.getpwnam "dirsrv" = some { pw_name := "dirsrv", pw_uid := 389, pw_gid := 389 } ∧
    identity_calls (main_setuid exampleConsts exampleOs exampleConfig (some "dirsrv")).trace =
      [Event.setgid 389 0, Event.setuid 389 (exampleOs.setuid 389)] ∧
    (main_setuid exampleConsts exampleOs exampleConfig (some "dirsrv")).rc = 0 := by
  have h := group_before_user exampleConsts exampleOs exampleConfig "dirsrv"
    { pw_name := "dirsrv", pw_uid := 389, pw_gid := 389 } (by decide)
  exact ⟨by decide, (h.2.1 (by decide)).1, h.2.2.mpr ⟨by decide, by decide⟩⟩

/-! ## Theorems: maintenance task dispatcher -/

theorem exported_instances_append (a b : List Event) :
    exported_instances (a ++ b) = exported_instances a ++ exported_instances b := by
  simp [exported_instances, List.filterMap_append]

theorem last_backend_result_append (d : Int) (a b : List Event) :
    last_backend_result d (a ++ b) = last_backend_result (last_backend_result d a) b := by
  induction a generalizing d with
  | nil => rfl
  | cons e rest ih =>
    cases e <;> simp [last_backend_result, ih]

theorem no_backend_calls (l : List Event) (h : ∀ e ∈ l, is_backend_call e = false) :
    exported_instances l = [] ∧ ∀ d, last_backend_result d l = d := by
  induction l with
  | nil => exact ⟨rfl, fun _ => rfl⟩
  | cons e rest ih =>
    have he := h e (List.mem_cons_self _ _)
    have hr := ih (fun x hx => h x (List.mem_cons_of_mem _ hx))
    have h1 : exported_instances (e :: rest) = exported_instances rest := by
      cases e <;> first | rfl | exact absurd he (by simp [is_backend_call])
    have h2 : ∀ d, last_backend_result d (e :: rest) = last_backend_result d rest := by
      intro d
      cases e <;> first | rfl | exact absurd he (by simp [is_backend_call])
    exact ⟨h1.trans hr.1, fun d => (h2 d).trans (hr.2 d)⟩

theorem quiet_detach_no_backend (k : Consts) (q : Int) (dbg : Nat) (d : Int) :
    exported_instances (quiet_detach k q dbg).2 = [] ∧
      last_backend_result d (quiet_detach k q dbg).2 = d := by
  simp only [quiet_detach]
  split <;> split <;> simp [exported_instances, last_backend_result]

/-- When no process conflicts and every remaining instance has a V2 plugin
that defines the export function, the export loop calls the backend for every
remaining instance, in order, and returns the result of the last call. -/
theorem db2ldif_loop_exports (k : Consts) (w : TaskWorld) (g : Globals)
    (ha : ∀ tr m d s, w.add_new_slapd_process tr m d s ≠ -1) :
    ∀ (names : List String),
      (∀ n ∈ names, ∃ p, lookup_plugin_by_instance_name w.pr n = some p ∧
        p.capabilities.contains Capability.plg_db2ldif = true ∧ p.is_v2 = true) →
      ∀ (first : Bool) (dbg pk : Nat) (rv : Int) (tr : List Event),
        rv = last_backend_result 0 tr →
        exported_instances (db2ldif_loop k w g names first dbg pk rv tr).2 =
            exported_instances tr ++ names.map some ∧
          (db2ldif_loop k w g names first dbg pk rv tr).1 =
            .ret (last_backend_result 0 (db2ldif_loop k w g names first dbg pk rv tr).2) := by
  intro names
  induction names with
  | nil =>
    intro _ first dbg pk rv tr hrv
    simp only [db2ldif_loop]
    split
    · simp [exported_instances_append, last_backend_result_append, exported_instances,
        last_backend_result, hrv]
    · simp [hrv]
  | cons inst rest ih =>
    intro hp first dbg pk rv tr hrv
    obtain ⟨p, hl, hc, hv⟩ := hp inst (List.mem_cons_self _ _)
    have hrest : ∀ n ∈ rest, ∃ p, lookup_plugin_by_instance_name w.pr n = some p ∧
        p.capabilities.contains Capability.plg_db2ldif = true ∧ p.is_v2 = true :=
      fun n hn => hp n (List.mem_cons_of_mem _ hn)
    have hqd := fun d => quiet_detach_no_backend k g.is_quiet dbg d
    simp only [db2ldif_loop, hl, hc, hv, Bool.not_true, Bool.false_eq_true, if_false,
      beq_iff_eq, ha]
    generalize quiet_detach k g.is_quiet dbg = qd at hqd ⊢
    have hqd1 := (hqd 0).1
    constructor
    · rw [(ih hrest _ _ _ _ _ _).1]
      · cases g.archive_name <;> simp only [] <;> split_ifs <;>
          simp only [exported_instances_append, hqd1, List.append_nil, List.nil_append,
            List.append_assoc] <;>
          simp [exported_instances, start_replication_subset]
      · simp [last_backend_result_append, last_backend_result]
    · refine (ih hrest _ _ _ _ _ ?_).2
      simp [last_backend_result_append, last_backend_result]

/-- C1, as stated, fails: with three instances on the command line of which
the second export returns 5, the export function is still called for the
third instance and `slapd_exemode_db2ldif` returns the result of the third
export, 0. -/
theorem db2ldif_batch_not_aborted :
    exported_instances
        (slapd_exemode_db2ldif exampleConsts (worldOf ldbmPlugin) batchExport).2 =
      [some "first", some "second", some "third"] ∧
    (backend_calls
        (slapd_exemode_db2ldif exampleConsts (worldOf ldbmPlugin) batchExport).2).map
        (fun e => match e with
          | .backend _ _ rv => rv
          | _ => 0) = [0, 5, 0] ∧
    (slapd_exemode_db2ldif exampleConsts (worldOf ldbmPlugin) batchExport).1 = .ret 0 := by
  decide

/-- C1, amended. A failing export does not stop the batch: when no process
conflicts and every target instance has a V2 plugin that defines the export
function, `slapd_exemode_db2ldif` calls the export function for every target
instance, in list order, whatever the earlier results, and returns the result
of the last call. -/
theorem db2ldif_exports_every_instance (k : Consts) (w : TaskWorld) (g : Globals)
    (names : List String)
    (ht : (db2ldif_targets w g).1 = some names)
    (ha : ∀ tr m d s, w.add_new_slapd_process tr m d s ≠ -1)
    (hp : ∀ n ∈ names, ∃ p, lookup_plugin_by_instance_name w.pr n = some p ∧
      p.capabilities.contains Capability.plg_db2ldif = true ∧ p.is_v2 = true) :
    exported_instances (slapd_exemode_db2ldif k w g).2 = names.map some ∧
      (slapd_exemode_db2ldif k w g).1 =
        .ret (last_backend_result 0 (slapd_exemode_db2ldif k w g).2) := by
  have hnb : exported_instances (db2ldif_targets w g).2 = [] ∧
      last_backend_result 0 (db2ldif_targets w g).2 = 0 := by
    have hall : ∀ e ∈ (db2ldif_targets w g).2, is_backend_call e = false := by
      intro e he
      unfold db2ldif_targets at he
      split at he
      · simp at he
      · simp only [] at he
        split at he
        · simp at he; subst he; rfl
        · split at he
          · simp at he; subst he; rfl
          · simp at he; subst he; rfl
          · simp only [List.mem_cons, List.mem_map] at he
            rcases he with h | ⟨_, _, h⟩
            · subst h; rfl
            · subst h; rfl
    exact ⟨(no_backend_calls _ hall).1, (no_backend_calls _ hall).2 0⟩
  have h := db2ldif_loop_exports k w g ha names hp true g.slapd_ldap_debug g.ldif_printkey 0
    ([Event.call "mapping_tree_init"] ++ (db2ldif_targets w g).2)
    (by simp [last_backend_result_append, last_backend_result, hnb.2])
  simp only [slapd_exemode_db2ldif, ht]
  refine ⟨?_, h.2⟩
  rw [h.1]
  simp only [exported_instances_append, hnb.1, List.append_nil]
  rfl

/-- Witness of C1 amended: the batch `first`, `second`, `third`, in which the
export of `second` returns 5. -/
theorem db2ldif_exports_every_instance_witness :
    (db2ldif_targets (worldOf ldbmPlugin) batchExport).1 = some ["first", "second", "third"] ∧
    exported_instances
        (slapd_exemode_db2ldif exampleConsts (worldOf ldbmPlugin) batchExport).2 =
      [some "first", some "second", some "third"] ∧
    (slapd_exemode_db2ldif exampleConsts (worldOf ldbmPlugin) batchExport).1 =
      .ret (last_backend_result 0
        (slapd_exemode_db2ldif exampleConsts (worldOf ldbmPlugin) batchExport).2) := by
  have h := db2ldif_exports_every_instance exampleConsts (worldOf ldbmPlugin) batchExport
    ["first", "second", "third"] (by decide) (by intro _ _ _ _; simp [worldOf])
    (by
      intro n _
      exact ⟨ldbmPlugin, by simp [lookup_plugin_by_instance_name, worldOf, registryOf,
        LDAP_SUCCESS], by decide, by decide⟩)
  exact ⟨by decide, h.1, h.2⟩

/-- C10 (no protocol-version check in three task functions). With a backend
plugin that does not satisfy `SLAPI_PLUGIN_IS_V2`, `slapd_exemode_db2index`,
`slapd_exemode_db2archive` and `slapd_exemode_archive2db` call the capability
function of the plugin and return its result, 0; `slapd_exemode_db2ldif`, on
the same plugin, returns 1 without calling the backend. -/
theorem old_plugin_still_invoked :
    oldPlugin.is_v2 = false ∧
    (slapd_exemode_db2index (worldOf oldPlugin) reindexSettings).1 = .ret 0 ∧
    (backend_calls (slapd_exemode_db2index (worldOf oldPlugin) reindexSettings).2).length = 1 ∧
    (slapd_exemode_db2archive exampleConsts (worldOf oldPlugin)
      (archiveSettings SLAPD_EXEMODE_DB2ARCHIVE)).1 = .ret 0 ∧
    (backend_calls (slapd_exemode_db2archive exampleConsts (worldOf oldPlugin)
      (archiveSettings SLAPD_EXEMODE_DB2ARCHIVE)).2).length = 1 ∧
    (slapd_exemode_archive2db exampleConsts (worldOf oldPlugin)
      (archiveSettings SLAPD_EXEMODE_ARCHIVE2DB)).1 = .ret 0 ∧
    (backend_calls (slapd_exemode_archive2db exampleConsts (worldOf oldPlugin)
      (archiveSettings SLAPD_EXEMODE_ARCHIVE2DB)).2).length = 1 ∧
    (slapd_exemode_db2ldif exampleConsts (worldOf oldPlugin) batchExport).1 = .ret 1 ∧
    backend_calls (slapd_exemode_db2ldif exampleConsts (worldOf oldPlugin) batchExport).2 = [] := by
  decide

/-! ## Theorems: lifecycle orchestrator -/

/-- A list splits in one way only around an element that occurs once. -/
theorem split_unique {α : Type} (x : α) :
    ∀ (A B a b : List α), x ∉ A → x ∉ B → A ++ x :: B = a ++ x :: b → a = A ∧ b = B := by
  intro A
  induction A with
  | nil =>
    intro B a b _ hB h
    cases a with
    | nil => simpa using h.symm
    | cons y a1 =>
      simp only [List.nil_append, List.cons_append, List.cons.injEq] at h
      exact absurd (by rw [h.2]; simp) hB
  | cons z A1 ih =>
    intro B a b hA hB h
    cases a with
    | nil =>
      simp only [List.nil_append, List.cons_append, List.cons.injEq] at h
      exact absurd (by rw [h.1]; simp) hA
    | cons y a1 =>
      simp only [List.cons_append, List.cons.injEq] at h
      have := ih B a1 b (fun hx => hA (List.mem_cons_of_mem _ hx)) hB h.2
      exact ⟨by rw [this.1, h.1], this.2⟩

theorem neutral_not_setuid_call {l : List Event} (h : ∀ e ∈ l, is_neutral e = true) :
    Event.call "main_setuid" ∉ l := by
  intro hm
  have := h _ hm
  simp [is_neutral] at this

theorem neutral_not_bind {l : List Event} (h : ∀ e ∈ l, is_neutral e = true) :
    ∀ e ∈ l, is_bind_call e = false := by
  intro e he
  have := h e he
  cases e <;> first | rfl | simp [is_neutral] at this

theorem all_neutral_iff (l : List Event) :
    l.all is_neutral = true ↔ ∀ e ∈ l, is_neutral e = true := by
  simp [List.all_eq_true]

theorem main_prologue_neutral (env : MainEnv) : (main_prologue env).all is_neutral = true := by
  unfold main_prologue
  split <;> rfl

theorem main_load_config_neutral (k : Consts) (env : MainEnv) (g : Globals) :
    (main_load_config k env g).2.all is_neutral = true := by
  unfold main_load_config
  simp only []
  split_ifs <;> rfl

theorem main_setuid_neutral (k : Consts) (os : Os) (cfg : FrontendConfig)
    (username : Option String) :
    ∀ e ∈ (main_setuid k os cfg username).trace, is_neutral e = true := by
  intro e he
  have hf : ∀ x ∈ (fix_ownership k os cfg).2, is_neutral x = true := by
    intro x hx
    have := fix_ownership_vocabulary k os cfg x hx
    cases x <;> first | rfl | simp [is_ownership_event] at this
  unfold main_setuid at he
  cases username with
  | none => simp at he
  | some name =>
    simp only [] at he
    split at he
    · simp only [List.mem_append, List.mem_cons, List.mem_singleton, List.not_mem_nil,
        or_false] at he
      rcases he with h | h | h
      · exact hf e h
      · subst h; rfl
      · subst h; rfl
    · split_ifs at he <;>
        simp only [List.mem_append, List.mem_cons, List.mem_singleton, List.not_mem_nil,
          or_false] at he
      · rcases he with (h | h) | h | h
        · exact hf e h
        all_goals subst h; rfl
      · rcases he with (h | h) | h | h | h
        · exact hf e h
        all_goals subst h; rfl
      · rcases he with (h | h) | h | h
        · exact hf e h
        all_goals subst h; rfl

theorem main_cleanup_neutral (tp : Bool) (rv : Int) :
    (main_cleanup tp rv).2.all is_neutral = true := by
  cases tp <;> rfl

theorem main_start_plugins_neutral (env : MainEnv) (i_port : Int) :
    (main_start_plugins env i_port).2.all is_neutral = true := by
  unfold main_start_plugins
  simp only []
  split_ifs <;> rfl

theorem main_server_neutral (env : MainEnv) (g : Globals) (i_port : Int) (tp : Bool)
    (hist : List Event) :
    (main_server env g i_port tp hist).2.all is_neutral = true := by
  have hc := main_cleanup_neutral tp
  have hp := main_start_plugins_neutral env i_port
  unfold main_server
  simp only []
  split_ifs <;> simp only [List.all_append, hc, hp, Bool.and_true, Bool.true_and] <;> rfl

theorem main_run_neutral (k : Consts) (env : MainEnv) (g : Globals) (i_port : Int)
    (hist : List Event)
    (hm : g.slapd_exemode = SLAPD_EXEMODE_SLAPD ∨ g.slapd_exemode = SLAPD_EXEMODE_REFERRAL) :
    (main_run k env g i_port hist).2.all is_neutral = true := by
  have hc := main_cleanup_neutral
  have hs := main_server_neutral env g i_port
  have hn : ∀ tp, (main_create_ns env.enable_nunc_stans env.ns_thrpool_new_ok tp).2.2.all
      is_neutral = true := by
    intro tp
    unfold main_create_ns
    split <;> rfl
  unfold main_run
  rcases hm with hm | hm <;> rw [hm] <;> simp only [after] <;>
    split_ifs <;> simp only [List.all_append, hc, hs, hn, Bool.and_true, Bool.true_and] <;> rfl

/-- The shape of the block that opens the listen sockets, in Server and
Referral mode: it leaves `main` without a binding call, or its last call but
one is a failed binding call and the process exits, or its last call is a
successful binding call. -/
theorem main_bind_shape (env : MainEnv) (g : Globals)
    (hm : g.slapd_exemode = SLAPD_EXEMODE_SLAPD ∨ g.slapd_exemode = SLAPD_EXEMODE_REFERRAL) :
    ((main_bind env g).1 = .returned ∧ (main_bind env g).2.all is_neutral = true) ∨
    ((main_bind env g).1 = .exited ∧ env.daemon_pre_setuid_init ≠ 0 ∧
      ∃ N, N.all is_neutral = true ∧
        (main_bind env g).2 = N ++ [Event.daemon_pre_setuid_init env.daemon_pre_setuid_init,
          Event.slapi_log_err SLAPI_LOG_ERR "main"]) ∨
    (env.daemon_pre_setuid_init = 0 ∧ (∃ i, (main_bind env g).1 = .proceed i) ∧
      ∃ N, N.all is_neutral = true ∧
        (main_bind env g).2 = N ++ [Event.daemon_pre_setuid_init 0]) := by
  unfold main_bind
  rw [if_pos hm]
  simp only []
  by_cases h1 : env.n_listenaddr_ok = true
  · by_cases h2 : env.s_listenaddr_ok = true
    · by_cases h3 : env.daemon_pre_setuid_init = 0
      · right; right
        simp only [h1, h2, h3, Bool.not_true, Bool.false_eq_true, if_false, bne_self_eq_false]
        refine ⟨trivial, ⟨_, rfl⟩, _, ?_, rfl⟩
        split <;> rfl
      · right; left
        have h3b : (env.daemon_pre_setuid_init != 0) = true := by simpa using h3
        simp only [h1, h2, h3b, Bool.not_true, Bool.false_eq_true, if_false, if_true]
        refine ⟨trivial, h3,
          [Event.call "config_get_listenhost", Event.call "config_get_securelistenhost",
            Event.call "slapd_listenhost2addr", Event.call "slapd_listenhost2addr",
            Event.call "config_get_ldapi_switch"] ++
            (if env.ldapi then [Event.call "unlink"] else []), ?_, by simp⟩
        split <;> rfl
    · left
      simp only [h1, h2, Bool.not_true, Bool.false_eq_true, if_false, Bool.not_eq_true,
        Bool.not_false, if_true]
      exact ⟨trivial, rfl⟩
  · left
    simp only [h1, Bool.not_eq_true, Bool.not_false, if_true]
    exact ⟨trivial, rfl⟩


/-- C9 (bind before drop). On every execution of `main` in Server or Referral
mode: wherever the trace holds the call of `main_setuid`, a binding step
`daemon_pre_setuid_init` that returned 0 precedes it and no binding step
follows it; and when a binding step returns non-zero the process exits with
code 1 and `main_setuid` is not called. -/
theorem bind_before_drop (k : Consts) (env : MainEnv) (g : Globals)
    (hg : env.process_command_line = some g)
    (hm : g.slapd_exemode = SLAPD_EXEMODE_SLAPD ∨ g.slapd_exemode = SLAPD_EXEMODE_REFERRAL) :
    (∀ a b, (main k env).2 = a ++ Event.call "main_setuid" :: b →
      Event.daemon_pre_setuid_init 0 ∈ a ∧ ∀ e ∈ b, is_bind_call e = false) ∧
    (∀ r, r ≠ 0 → Event.daemon_pre_setuid_init r ∈ (main k env).2 →
      (main k env).1 = .exit 1 ∧ Event.call "main_setuid" ∉ (main k env).2) := by
  have hpro := (all_neutral_iff _).mp (main_prologue_neutral env)
  have hcfg := (all_neutral_iff _).mp (main_load_config_neutral k env g)
  have hsu := main_setuid_neutral k env.os env.cfg env.cfg.localuser
  have hrun := fun i hist => (all_neutral_iff _).mp (main_run_neutral k env g i hist hm)
  -- a trace of neutral events satisfies both parts vacuously
  have vac : ∀ (P : Prop) (T : List Event), (∀ e ∈ T, is_neutral e = true) →
      (∀ a b, T = a ++ Event.call "main_setuid" :: b →
        Event.daemon_pre_setuid_init 0 ∈ a ∧ ∀ e ∈ b, is_bind_call e = false) ∧
      (∀ r, r ≠ 0 → Event.daemon_pre_setuid_init r ∈ T →
        P ∧ Event.call "main_setuid" ∉ T) := by
    intro P T hT
    constructor
    · intro a b hab
      exact absurd (by rw [hab]; simp) (neutral_not_setuid_call hT)
    · intro r _ hin
      have := hT _ hin
      simp [is_neutral] at this
  unfold main
  simp only [hg]
  cases hdir : env.cfg.configdir with
  | none =>
    apply vac
    intro e he
    simp only [List.mem_append, List.mem_singleton] at he
    rcases he with h | h
    · exact hpro e h
    · subst h; rfl
  | some dir =>
    simp only []
    by_cases hc : (main_load_config k env g).1 = true
    · simp only [hc, Bool.not_true, Bool.false_eq_true, if_false]
      have hpre : ∀ e ∈ main_prologue env ++ (main_load_config k env g).2 ++
          [Event.call "raise_process_limits", Event.call "set_entry_points"],
          is_neutral e = true := by
        intro e he
        simp only [List.mem_append, List.mem_cons, List.mem_singleton, List.not_mem_nil,
          or_false] at he
        rcases he with (h | h) | h | h
        · exact hpro e h
        · exact hcfg e h
        · subst h; rfl
        · subst h; rfl
      rcases main_bind_shape env g hm with ⟨hb1, hb2⟩ | ⟨hb1, hne, N, hN, hb2⟩ |
        ⟨hz, ⟨i, hb1⟩, N, hN, hb2⟩
      · -- the block returned 1 before the binding step
        simp only [hb1]
        apply vac
        intro e he
        rcases List.mem_append.mp he with h | h
        · exact hpre e h
        · exact (all_neutral_iff _).mp hb2 e h
      · -- the binding step failed
        simp only [hb1, hb2]
        have hN2 := (all_neutral_iff _).mp hN
        constructor
        · intro a b hab
          have hmem : Event.call "main_setuid" ∈
              main_prologue env ++ (main_load_config k env g).2 ++
                [Event.call "raise_process_limits", Event.call "set_entry_points"] ++
                (N ++ [Event.daemon_pre_setuid_init env.daemon_pre_setuid_init,
                  Event.slapi_log_err SLAPI_LOG_ERR "main"]) := by
            rw [hab]; simp
          rcases List.mem_append.mp hmem with h | h
          · exact absurd h (neutral_not_setuid_call hpre)
          · rcases List.mem_append.mp h with h | h
            · exact absurd h (neutral_not_setuid_call hN2)
            · simp at h
        · intro r _ _
          refine ⟨by trivial, ?_⟩
          intro hmem
          rcases List.mem_append.mp hmem with h | h
          · exact absurd h (neutral_not_setuid_call hpre)
          · rcases List.mem_append.mp h with h | h
            · exact absurd h (neutral_not_setuid_call hN2)
            · simp at h
      · -- the binding step succeeded and main_setuid is called
        simp only [hb1, hb2]
        have hN2 := (all_neutral_iff _).mp hN
        -- the calls before main_setuid, and the calls after it
        have key : ∀ (P : Prop) (R : List Event), (∀ e ∈ R, is_neutral e = true) →
            (∀ a b,
              main_prologue env ++ (main_load_config k env g).2 ++
                  [Event.call "raise_process_limits", Event.call "set_entry_points"] ++
                  (N ++ [Event.daemon_pre_setuid_init 0]) ++
                  Event.call "main_setuid" :: R = a ++ Event.call "main_setuid" :: b →
              Event.daemon_pre_setuid_init 0 ∈ a ∧ ∀ e ∈ b, is_bind_call e = false) ∧
            (∀ r, r ≠ 0 → Event.daemon_pre_setuid_init r ∈
                main_prologue env ++ (main_load_config k env g).2 ++
                  [Event.call "raise_process_limits", Event.call "set_entry_points"] ++
                  (N ++ [Event.daemon_pre_setuid_init 0]) ++
                  Event.call "main_setuid" :: R →
              P ∧ Event.call "main_setuid" ∉
                main_prologue env ++ (main_load_config k env g).2 ++
                  [Event.call "raise_process_limits", Event.call "set_entry_points"] ++
                  (N ++ [Event.daemon_pre_setuid_init 0]) ++
                  Event.call "main_setuid" :: R) := by
          intro P R hR
          have hA : Event.call "main_setuid" ∉
              main_prologue env ++ (main_load_config k env g).2 ++
                [Event.call "raise_process_limits", Event.call "set_entry_points"] ++
                (N ++ [Event.daemon_pre_setuid_init 0]) := by
            intro hmem
            rcases List.mem_append.mp hmem with h | h
            · exact absurd h (neutral_not_setuid_call hpre)
            · rcases List.mem_append.mp h with h | h
              · exact absurd h (neutral_not_setuid_call hN2)
              · simp at h
          constructor
          · intro a b hab
            obtain ⟨ha, hb⟩ := split_unique _ _ _ _ _ hA (neutral_not_setuid_call hR) hab
            subst ha; subst hb
            exact ⟨by simp, neutral_not_bind hR⟩
          · intro r hr hmem
            exfalso
            rcases List.mem_append.mp hmem with h | h
            · rcases List.mem_append.mp h with h | h
              · have := hpre _ h
                simp [is_neutral] at this
              · rcases List.mem_append.mp h with h | h
                · have := hN2 _ h
                  simp [is_neutral] at this
                · simp at h
                  exact hr h
            · rcases List.mem_cons.mp h with h | h
              · simp at h
              · have := hR _ h
                simp [is_neutral] at this
        by_cases hrc : (main_setuid k env.os env.cfg env.cfg.localuser).rc = 0
        · simp only [hrc, bne_self_eq_false, Bool.false_eq_true, if_false, after]
          have := key ((main_run k env g i
                (main_prologue env ++ (main_load_config k env g).2 ++
                  [Event.call "raise_process_limits", Event.call "set_entry_points"] ++
                  (N ++ [Event.daemon_pre_setuid_init 0]) ++
                  Event.call "main_setuid" ::
                    (main_setuid k env.os env.cfg env.cfg.localuser).trace)).1 = .exit 1)
            ((main_setuid k env.os env.cfg env.cfg.localuser).trace ++
              (main_run k env g i
                (main_prologue env ++ (main_load_config k env g).2 ++
                  [Event.call "raise_process_limits", Event.call "set_entry_points"] ++
                  (N ++ [Event.daemon_pre_setuid_init 0]) ++
                  Event.call "main_setuid" ::
                    (main_setuid k env.os env.cfg env.cfg.localuser).trace)).2)
            (by
              intro e he
              rcases List.mem_append.mp he with h | h
              · exact hsu e h
              · exact hrun _ _ e h)
          simpa [List.append_assoc] using this
        · have hrc2 : ((main_setuid k env.os env.cfg env.cfg.localuser).rc != 0) = true := by
            simpa using hrc
          simp only [hrc2, if_true]
          have := key True
            ((main_setuid k env.os env.cfg env.cfg.localuser).trace ++
              [Event.slapi_log_err SLAPI_LOG_ERR "main"])
            (by
              intro e he
              rcases List.mem_append.mp he with h | h
              · exact hsu e h
              · simp at h; subst h; rfl)
          simpa [List.append_assoc] using this
    · have hc2 : (main_load_config k env g).1 = false := by simpa using hc
      simp only [hc2, Bool.not_false, if_true]
      apply vac
      intro e he
      rcases List.mem_append.mp he with h | h
      · exact hpro e h
      · exact hcfg e h

/-- Witness of C9: in the server environment the call of `main_setuid` is in
the trace, preceded by the successful binding step; in the environment whose
binding step returns -1 the process exits with code 1 without calling
`main_setuid`. -/
theorem bind_before_drop_witness :
    (serverEnv SLAPD_EXEMODE_SLAPD).process_command_line =
      some (modeSettings SLAPD_EXEMODE_SLAPD) ∧
    Event.call "main_setuid" ∈ (main exampleConsts (serverEnv SLAPD_EXEMODE_SLAPD)).2 ∧
    (∀ a b, (main exampleConsts (serverEnv SLAPD_EXEMODE_SLAPD)).2 =
        a ++ Event.call "main_setuid" :: b →
      Event.daemon_pre_setuid_init 0 ∈ a ∧ ∀ e ∈ b, is_bind_call e = false) ∧
    Event.daemon_pre_setuid_init (-1) ∈ (main exampleConsts failedBindEnv).2 ∧
    (main exampleConsts failedBindEnv).1 = .exit 1 ∧
    Event.call "main_setuid" ∉ (main exampleConsts failedBindEnv).2 := by
  have h1 := bind_before_drop exampleConsts (serverEnv SLAPD_EXEMODE_SLAPD)
    (modeSettings SLAPD_EXEMODE_SLAPD) rfl (Or.inl rfl)
  have h2 := bind_before_drop exampleConsts failedBindEnv
    (modeSettings SLAPD_EXEMODE_REFERRAL) rfl (Or.inr rfl)
  have hin : Event.daemon_pre_setuid_init (-1) ∈ (main exampleConsts failedBindEnv).2 := by
    decide
  exact ⟨rfl, by decide, h1.1, hin, (h2.2 (-1) (by decide) hin).1,
    (h2.2 (-1) (by decide) hin).2⟩

/-! ## Theorems: conflict guard and required options of the task functions -/

/-- C11 (no conflict guard in `slapd_exemode_dbverify`). With a process
registry that refuses every request, `slapd_exemode_dbverify` never calls
`add_new_slapd_process`, calls the backend and returns its result, 0; each of
the seven other task functions calls the registry with the mode and the skip
flag, gets -1, and returns a non-zero value without calling the backend. -/
theorem dbverify_skips_conflict_guard :
    (slapd_exemode_dbverify refusingWorld (modeSettings SLAPD_EXEMODE_DBVERIFY)).1 = .ret 0 ∧
    (backend_calls
      (slapd_exemode_dbverify refusingWorld (modeSettings SLAPD_EXEMODE_DBVERIFY)).2).length
        = 1 ∧
    (slapd_exemode_dbverify refusingWorld (modeSettings SLAPD_EXEMODE_DBVERIFY)).2.filter
      is_guard_call = [] ∧
    slapd_exemode_ldif2db exampleConsts refusingWorld importSettings =
      (.ret 1, [ Event.call "mapping_tree_init",
                 Event.add_new_slapd_process SLAPD_EXEMODE_LDIF2DB 0 0 (-1),
                 Event.slapi_log_err SLAPI_LOG_ERR "slapd_exemode_ldif2db" ]) ∧
    slapd_exemode_db2ldif exampleConsts refusingWorld batchExport =
      (.ret 1, [ Event.call "mapping_tree_init",
                 Event.add_new_slapd_process SLAPD_EXEMODE_DB2LDIF 0 0 (-1),
                 Event.slapi_log_err SLAPI_LOG_ERR "slapd_exemode_db2ldif" ]) ∧
    slapd_exemode_db2index refusingWorld reindexSettings =
      (.ret 1, [ Event.call "mapping_tree_init",
                 Event.add_new_slapd_process SLAPD_EXEMODE_DB2INDEX 0 0 (-1),
                 Event.slapi_log_err SLAPI_LOG_ERR "slapd_exemode_db2index" ]) ∧
    slapd_exemode_db2archive exampleConsts refusingWorld
        (archiveSettings SLAPD_EXEMODE_DB2ARCHIVE) =
      (.ret 1, [ Event.add_new_slapd_process SLAPD_EXEMODE_DB2ARCHIVE 0 0 (-1),
                 Event.slapi_log_err SLAPI_LOG_ERR "slapd_exemode_db2archive" ]) ∧
    slapd_exemode_archive2db exampleConsts refusingWorld
        (archiveSettings SLAPD_EXEMODE_ARCHIVE2DB) =
      (.ret 1, [ Event.add_new_slapd_process SLAPD_EXEMODE_ARCHIVE2DB 0 0 (-1),
                 Event.slapi_log_err SLAPI_LOG_ERR "slapd_exemode_archive2db" ]) ∧
    slapd_exemode_upgradedb refusingWorld (archiveSettings SLAPD_EXEMODE_UPGRADEDB) =
      (.ret 1, [ Event.call "mapping_tree_init",
                 Event.add_new_slapd_process SLAPD_EXEMODE_UPGRADEDB 0 0 (-1),
                 Event.slapi_log_err SLAPI_LOG_ERR "slapd_exemode_upgradedb" ]) ∧
    slapd_exemode_upgradednformat exampleConsts refusingWorld
        (archiveSettings SLAPD_EXEMODE_UPGRADEDNFORMAT) =
      (.ret (-1), [ Event.call "mapping_tree_init",
                    Event.add_new_slapd_process SLAPD_EXEMODE_UPGRADEDNFORMAT 0 0 (-1),
                    Event.slapi_log_err SLAPI_LOG_ERR "slapd_exemode_upgradednformat" ]) := by
  decide

/-- C13 (required options fail fast). Without an LDIF input file
`slapd_exemode_ldif2db` returns 1, without an archive path
`slapd_exemode_db2archive`, `slapd_exemode_archive2db` and
`slapd_exemode_upgradedb` return 1 and `slapd_exemode_upgradednformat` returns
-1; none of them calls `add_new_slapd_process` or a backend capability
function on that path. -/
theorem required_options_fail_fast (k : Consts) (w : TaskWorld) (g : Globals) :
    (g.ldif_file = [] →
      (slapd_exemode_ldif2db k w g).1 = .ret 1 ∧
      ∀ e ∈ (slapd_exemode_ldif2db k w g).2, is_guard_call e = false ∧ is_backend_call e = false) ∧
    (g.archive_name = none →
      ((slapd_exemode_db2archive k w g).1 = .ret 1 ∧
        ∀ e ∈ (slapd_exemode_db2archive k w g).2,
          is_guard_call e = false ∧ is_backend_call e = false) ∧
      ((slapd_exemode_archive2db k w g).1 = .ret 1 ∧
        ∀ e ∈ (slapd_exemode_archive2db k w g).2,
          is_guard_call e = false ∧ is_backend_call e = false) ∧
      ((slapd_exemode_upgradedb w g).1 = .ret 1 ∧
        ∀ e ∈ (slapd_exemode_upgradedb w g).2,
          is_guard_call e = false ∧ is_backend_call e = false) ∧
      ((slapd_exemode_upgradednformat k w g).1 = .ret (-1) ∧
        ∀ e ∈ (slapd_exemode_upgradednformat k w g).2,
          is_guard_call e = false ∧ is_backend_call e = false)) := by
  constructor
  · intro h
    simp only [slapd_exemode_ldif2db, h, List.isEmpty_nil, if_true]
    refine ⟨trivial, ?_⟩
    intro e he
    simp only [List.mem_cons, List.mem_singleton, List.not_mem_nil, or_false] at he
    rcases he with h | h <;> subst h <;> exact ⟨rfl, rfl⟩
  · intro h
    have harch : ∀ fn cap inst,
        (archive_task k w g fn cap inst).1 = .ret 1 ∧
        ∀ e ∈ (archive_task k w g fn cap inst).2,
          is_guard_call e = false ∧ is_backend_call e = false := by
      intro fn cap inst
      unfold archive_task
      cases w.pr.plugin_get_by_name (some "ldbm database") with
      | none =>
        refine ⟨rfl, ?_⟩
        intro e he
        simp only [List.mem_singleton] at he
        subst he; exact ⟨rfl, rfl⟩
      | some p =>
        simp only [h]
        refine ⟨trivial, ?_⟩
        intro e he
        simp only [List.mem_singleton] at he
        subst he; exact ⟨rfl, rfl⟩
    refine ⟨harch _ _ _, harch _ _ _, ?_, ?_⟩
    · simp only [slapd_exemode_upgradedb, h]
      refine ⟨trivial, ?_⟩
      intro e he
      simp only [List.mem_cons, List.mem_singleton, List.not_mem_nil, or_false] at he
      rcases he with h | h <;> subst h <;> exact ⟨rfl, rfl⟩
    · simp only [slapd_exemode_upgradednformat, h]
      refine ⟨trivial, ?_⟩
      intro e he
      simp only [List.mem_cons, List.mem_singleton, List.not_mem_nil, or_false] at he
      rcases he with h | h <;> subst h <;> exact ⟨rfl, rfl⟩

/-- Witness of C13: the settings of a command line that names the mode only
(no `-i`, no `-a`), in the world where every later step would succeed. -/
theorem required_options_fail_fast_witness :
    (modeSettings SLAPD_EXEMODE_LDIF2DB).ldif_file = [] ∧
    (modeSettings SLAPD_EXEMODE_DB2ARCHIVE).archive_name = none ∧
    (slapd_exemode_ldif2db exampleConsts (worldOf ldbmPlugin)
      (modeSettings SLAPD_EXEMODE_LDIF2DB)).1 = .ret 1 ∧
    (slapd_exemode_db2archive exampleConsts (worldOf ldbmPlugin)
      (modeSettings SLAPD_EXEMODE_DB2ARCHIVE)).1 = .ret 1 ∧
    (slapd_exemode_upgradednformat exampleConsts (worldOf ldbmPlugin)
      (modeSettings SLAPD_EXEMODE_UPGRADEDNFORMAT)).1 = .ret (-1) ∧
    ∀ e ∈ (slapd_exemode_db2archive exampleConsts (worldOf ldbmPlugin)
      (modeSettings SLAPD_EXEMODE_DB2ARCHIVE)).2,
      is_guard_call e = false ∧ is_backend_call e = false := by
  have h1 := (required_options_fail_fast exampleConsts (worldOf ldbmPlugin)
    (modeSettings SLAPD_EXEMODE_LDIF2DB)).1 rfl
  have h2 := (required_options_fail_fast exampleConsts (worldOf ldbmPlugin)
    (modeSettings SLAPD_EXEMODE_DB2ARCHIVE)).2 rfl
  have h3 := (required_options_fail_fast exampleConsts (worldOf ldbmPlugin)
    (modeSettings SLAPD_EXEMODE_UPGRADEDNFORMAT)).2 rfl
  exact ⟨rfl, rfl, h1.1, h2.1.1, h3.2.2.2.1, h2.1.2⟩

/-! ## Theorems: worker pool -/

/-- C18 (order of pool stop). For a non-NULL pool `main_stop_ns` requests the
shutdown, waits, releases the signal jobs of slots 0 to 5, each once and in
that order, destroys the pool and returns 0; for a NULL pool it does nothing
and returns 0. -/
theorem main_stop_ns_order :
    main_stop_ns true =
      (0, [Event.ns_thrpool_shutdown, Event.ns_thrpool_wait] ++
        (List.range 6).map Event.ns_job_done ++ [Event.ns_thrpool_destroy]) ∧
    released_slots (main_stop_ns true).2 = [0, 1, 2, 3, 4, 5] ∧
    main_stop_ns false = (0, []) := by
  decide

/-- C19 (signal-job table). With the pool enabled `main_create_ns` registers
six signal jobs, all persistent: SIGINT, SIGTERM and SIGTSTP with
`ns_set_shutdown`, SIGHUP, SIGUSR1 and SIGUSR2 with `ns_set_user`; their slots
are pairwise distinct and are, up to order, the slots 0 to 5 that
`main_stop_ns` releases. -/
theorem signal_job_table (new_ok tp : Bool) :
    registered_jobs (main_create_ns true new_ok tp).2.2 =
      [ (Signal.SIGINT, true, JobCallback.set_shutdown, 0),
        (Signal.SIGTERM, true, JobCallback.set_shutdown, 1),
        (Signal.SIGTSTP, true, JobCallback.set_shutdown, 3),
        (Signal.SIGHUP, true, JobCallback.set_user, 2),
        (Signal.SIGUSR1, true, JobCallback.set_user, 4),
        (Signal.SIGUSR2, true, JobCallback.set_user, 5) ] ∧
    ((registered_jobs (main_create_ns true new_ok tp).2.2).map (fun j => j.2.2.2)).Nodup ∧
    ((registered_jobs (main_create_ns true new_ok tp).2.2).map (fun j => j.2.2.2)).Perm
      (released_slots (main_stop_ns true).2) := by
  cases new_ok <;> cases tp <;> decide

/-- C17 (an exit path that leaves the pool running). In Referral mode without
a referral URL, with the pool enabled, `main` creates the pool and registers
the signal jobs, then exits with code 1 without calling `main_stop_ns`; in
Server mode with an inaccessible run directory, the other fatal path of the
same `switch`, it goes through `cleanup` and calls `main_stop_ns` once. -/
theorem referral_exit_skips_pool_stop :
    (main exampleConsts referralNoUrlEnv).1 = .exit 1 ∧
    Event.ns_thrpool_new true ∈ (main exampleConsts referralNoUrlEnv).2 ∧
    (registered_jobs (main exampleConsts referralNoUrlEnv).2).length = 6 ∧
    (main exampleConsts referralNoUrlEnv).2.count (Event.call "main_stop_ns") = 0 ∧
    (main exampleConsts referralNoUrlEnv).2.count Event.ns_thrpool_destroy = 0 ∧
    (main exampleConsts noRundirEnv).1 = .ret 1 ∧
    Event.ns_thrpool_new true ∈ (main exampleConsts noRundirEnv).2 ∧
    (main exampleConsts noRundirEnv).2.count (Event.call "main_stop_ns") = 1 ∧
    (main exampleConsts noRundirEnv).2.count Event.ns_thrpool_destroy = 1 := by
  decide

/-- C20 (the replication subset is not torn down on an early return). For
`db2ldif -r` with the instances `first` and `second`, of which only `first`
has a backend: the subset is started for `first`, `first` is exported, the
lookup of `second` fails and the function returns 1 without `eq_stop` or
`plugin_closeall`. When both instances have a backend the subset is started
twice and stopped once. -/
theorem replication_subset_not_torn_down :
    (slapd_exemode_db2ldif exampleConsts oneInstanceWorld replicaExport).1 = .ret 1 ∧
    exported_instances (slapd_exemode_db2ldif exampleConsts oneInstanceWorld replicaExport).2 =
      [some "first"] ∧
    subset_starts (slapd_exemode_db2ldif exampleConsts oneInstanceWorld replicaExport).2 = 1 ∧
    subset_stops (slapd_exemode_db2ldif exampleConsts oneInstanceWorld replicaExport).2 = 0 ∧
    (slapd_exemode_db2ldif exampleConsts oneInstanceWorld replicaExport).2.count
      (Event.call "eq_stop") = 0 ∧
    (slapd_exemode_db2ldif exampleConsts (worldOf ldbmPlugin) replicaExport).1 = .ret 5 ∧
    subset_starts (slapd_exemode_db2ldif exampleConsts (worldOf ldbmPlugin) replicaExport).2
      = 2 ∧
    subset_stops (slapd_exemode_db2ldif exampleConsts (worldOf ldbmPlugin) replicaExport).2
      = 1 := by
  decide

/-! ## Theorems: security subsystem initializer -/

theorem force_to_disable_security_events (se : SecurityEnv) (hist : List Event) :
    ∀ e ∈ (force_to_disable_security se hist).2.2,
      e ≠ Event.call "slapd_ssl_init" ∧ e ≠ Event.call "slapd_ssl_init2" := by
  intro e he
  unfold force_to_disable_security at he
  simp only [] at he
  split at he <;>
    simp only [List.mem_append, List.mem_cons, List.mem_singleton, List.not_mem_nil,
      or_false] at he
  · rcases he with (h | h) | h <;> subst h <;> exact ⟨by simp, by simp⟩
  · rcases he with h | h <;> subst h <;> exact ⟨by simp, by simp⟩

theorem force_to_disable_security_ports (se : SecurityEnv) (hist : List Event) :
    (force_to_disable_security se hist).2.1 = { s_port := 0, s_socket := [] } := by
  unfold force_to_disable_security
  simp only []
  split <;> rfl

theorem force_to_disable_security_ok (se : SecurityEnv) (hist : List Event)
    (hcs : ∀ h, se.config_set_security h = 0) :
    (force_to_disable_security se hist).1 = 0 := by
  simp [force_to_disable_security, hcs]

theorem ssl_init2_loop_events (se : SecurityEnv) :
    ∀ (socks : List Nat) (ports : daemon_ports_t) (hist : List Event),
      ∀ e ∈ (ssl_init2_loop se socks ports hist).2.2, e ≠ Event.call "slapd_ssl_init" := by
  intro socks
  induction socks with
  | nil => intro ports hist e he; simp [ssl_init2_loop] at he
  | cons sock rest ih =>
    intro ports hist e he
    simp only [ssl_init2_loop] at he
    split at he
    · split at he
      · simp only [List.mem_append, List.mem_singleton] at he
        rcases he with h | h
        · subst h; simp
        · exact (force_to_disable_security_events se _ e h).1
      · simp only [List.mem_append, List.mem_singleton] at he
        rcases he with (h | h) | h
        · subst h; simp
        · exact (force_to_disable_security_events se _ e h).1
        · exact ih _ _ e h
    · simp only [List.mem_append, List.mem_singleton] at he
      rcases he with h | h
      · subst h; simp
      · exact ih _ _ e h

/-- What the first step leaves: it returns 1 only when NSS initialisation
failed, and then without a call of `slapd_ssl_init`; otherwise `init_ssl` is
set exactly when NSS initialisation succeeded and the intent is set, and no
call of `slapd_ssl_init` or `slapd_ssl_init2` has been made. -/
theorem nss_step_spec (k : Consts) (se : SecurityEnv) (mode : ExeMode)
    (encrypt s_port : Int) (ports : daemon_ports_t) :
    match nss_step k se mode encrypt s_port ports with
    | .error r =>
      se.slapd_nss_init ≠ 0 ∧ r.rc = 1 ∧ (∃ h, se.config_set_security h ≠ 0) ∧
        Event.call "slapd_ssl_init" ∉ r.trace
    | .ok st =>
      (st.init_ssl = true ↔
        se.slapd_nss_init = 0 ∧ init_ssl_intent k se mode encrypt s_port = true) ∧
      (se.slapd_nss_init ≠ 0 → st.ports = { s_port := 0, s_socket := [] }) ∧
      (se.slapd_nss_init = 0 → st.ports = ports) ∧
      Event.call "slapd_ssl_init" ∉ st.trace ∧ Event.call "slapd_ssl_init2" ∉ st.trace := by
  have hf := force_to_disable_security_events se
    [Event.call "config_get_security", Event.call "slapd_nss_init"]
  have hp := force_to_disable_security_ports se
    [Event.call "config_get_security", Event.call "slapd_nss_init"]
  have hnotin : ∀ c, (c = Event.call "slapd_ssl_init" ∨ c = Event.call "slapd_ssl_init2") →
      c ∉ [Event.call "config_get_security", Event.call "slapd_nss_init"] ++
        (force_to_disable_security se
          [Event.call "config_get_security", Event.call "slapd_nss_init"]).2.2 := by
    intro c hc hmem
    rcases List.mem_append.mp hmem with h | h
    · rcases hc with hc | hc <;> subst hc <;> simp at h
    · rcases hc with hc | hc
      · exact (hf c h).1 hc
      · exact (hf c h).2 hc
  unfold nss_step
  by_cases hn : se.slapd_nss_init = 0
  · simp [hn]
  · have hn2 : (se.slapd_nss_init != 0) = true := by simpa using hn
    simp only [hn2, if_true]
    by_cases hfail : (force_to_disable_security se
        [Event.call "config_get_security", Event.call "slapd_nss_init"]).1 = 0
    · simp only [hfail, bne_self_eq_false, Bool.false_eq_true, if_false]
      exact ⟨by simp [hn], fun _ => hp, fun h => absurd h hn, hnotin _ (Or.inl rfl),
        hnotin _ (Or.inr rfl)⟩
    · have hfail2 : ((force_to_disable_security se
          [Event.call "config_get_security", Event.call "slapd_nss_init"]).1 != 0) = true := by
        simpa using hfail
      simp only [hfail2, if_true]
      refine ⟨hn, trivial, ?_, hnotin _ (Or.inl rfl)⟩
      by_contra hall
      exact hfail (force_to_disable_security_ok se _ (fun h => by
        by_contra hne
        exact hall ⟨h, hne⟩))

/-- What the second step leaves, from a state whose trace holds no call of
`slapd_ssl_init`: the call is made exactly when `init_ssl` was set; the step
returns 1 only when the call failed; and after a failed call `init_ssl` is
cleared and `*ports_info` disabled. -/
theorem ssl_step_spec (se : SecurityEnv) (mode : ExeMode) (st : SslState)
    (h1 : Event.call "slapd_ssl_init" ∉ st.trace)
    (h2 : Event.call "slapd_ssl_init2" ∉ st.trace) :
    match ssl_step se mode st with
    | .error r =>
      st.init_ssl = true ∧ se.slapd_ssl_init ≠ 0 ∧ r.rc = 1 ∧
        (∃ h, se.config_set_security h ≠ 0) ∧ Event.call "slapd_ssl_init" ∈ r.trace
    | .ok st2 =>
      (Event.call "slapd_ssl_init" ∈ st2.trace ↔ st.init_ssl = true) ∧
      (st2.init_ssl = true ↔ st.init_ssl = true ∧ se.slapd_ssl_init = 0) ∧
      (st.init_ssl = true → se.slapd_ssl_init ≠ 0 →
        st2.ports = { s_port := 0, s_socket := [] }) ∧
      (st2.init_ssl = true ∨ st.init_ssl = false → st2.ports = st.ports) ∧
      Event.call "slapd_ssl_init2" ∉ st2.trace := by
  have hmid : ∀ c, (c = Event.call "slapd_ssl_init" ∨ c = Event.call "slapd_ssl_init2") →
      c ∉ (if mode = SLAPD_EXEMODE_SLAPD then st.trace ++ [Event.call "client_auth_init"]
        else st.trace) := by
    intro c hc hmem
    split at hmem
    · rcases List.mem_append.mp hmem with h | h
      · rcases hc with hc | hc <;> subst hc
        · exact h1 h
        · exact h2 h
      · rcases hc with hc | hc <;> subst hc <;> simp at h
    · rcases hc with hc | hc <;> subst hc
      · exact h1 hmem
      · exact h2 hmem
  unfold ssl_step
  simp only []
  generalize (if mode = SLAPD_EXEMODE_SLAPD then st.trace ++ [Event.call "client_auth_init"]
    else st.trace) = tr2 at hmid ⊢
  have hf := force_to_disable_security_events se (tr2 ++ [Event.call "slapd_ssl_init"])
  have hp := force_to_disable_security_ports se (tr2 ++ [Event.call "slapd_ssl_init"])
  by_cases hi : st.init_ssl = true
  · simp only [hi, if_true]
    by_cases hs : se.slapd_ssl_init = 0
    · simp only [hs, bne_self_eq_false, Bool.false_eq_true, if_false]
      refine ⟨by simp, by simp [hi], fun _ h => absurd rfl h, fun _ => by trivial, ?_⟩
      intro hmem
      rcases List.mem_append.mp hmem with h | h
      · exact hmid _ (Or.inr rfl) h
      · simp at h
    · have hs2 : (se.slapd_ssl_init != 0) = true := by simpa using hs
      simp only [hs2, if_true]
      by_cases hfail : (force_to_disable_security se
          (tr2 ++ [Event.call "slapd_ssl_init"])).1 = 0
      · simp only [hfail, bne_self_eq_false, Bool.false_eq_true, if_false]
        refine ⟨by simp, by simp [hs], fun _ _ => hp, ?_, ?_⟩
        · intro h
          rcases h with h | h
          · simp at h
          · simp [hi] at h
        · intro hmem
          rcases List.mem_append.mp hmem with h | h
          · rcases List.mem_append.mp h with h | h
            · exact hmid _ (Or.inr rfl) h
            · simp at h
          · exact (hf _ h).2 rfl
      · have hfail2 : ((force_to_disable_security se
            (tr2 ++ [Event.call "slapd_ssl_init"])).1 != 0) = true := by simpa using hfail
        simp only [hfail2, if_true]
        refine ⟨trivial, hs, trivial, ?_, by simp⟩
        by_contra hall
        exact hfail (force_to_disable_security_ok se _ (fun h => by
          by_contra hne
          exact hall ⟨h, hne⟩))
  · have hi2 : st.init_ssl = false := by simpa using hi
    simp only [hi2, Bool.false_eq_true, if_false]
    refine ⟨?_, by simp [hi2], fun h => absurd h (by simp), fun _ => by trivial,
      hmid _ (Or.inr rfl)⟩
    simp only [iff_false]
    exact hmid _ (Or.inl rfl)

/-- The call of `slapd_ssl_init` is in the trace exactly when NSS initialisation
succeeded and the intent computed from the configuration is set. -/
theorem ssl_init_attempted (k : Consts) (se : SecurityEnv) (mode : ExeMode)
    (encrypt s_port : Int) (ports : daemon_ports_t) :
    Event.call "slapd_ssl_init" ∈
        (slapd_do_all_nss_ssl_init k se mode encrypt s_port ports).trace ↔
      se.slapd_nss_init = 0 ∧ init_ssl_intent k se mode encrypt s_port = true := by
  have hn := nss_step_spec k se mode encrypt s_port ports
  unfold slapd_do_all_nss_ssl_init
  cases hst : nss_step k se mode encrypt s_port ports with
  | error r =>
    rw [hst] at hn
    simp only []
    constructor
    · intro h; exact absurd h hn.2.2.2
    · intro h; exact absurd h.1 hn.1
  | ok st1 =>
    rw [hst] at hn
    simp only []
    have hs := ssl_step_spec se mode st1 hn.2.2.2.1 hn.2.2.2.2
    cases hst2 : ssl_step se mode st1 with
    | error r =>
      rw [hst2] at hs
      simp only []
      constructor
      · intro _; exact hn.1.mp hs.1
      · intro _; exact hs.2.2.2.2
    | ok st2 =>
      rw [hst2] at hs
      simp only []
      rw [← hn.1, ← hs.1]
      unfold ssl2_step
      split
      · simp only [List.mem_append]
        constructor
        · intro h
          rcases h with h | h
          · exact h
          · exact absurd rfl (ssl_init2_loop_events se _ _ _ _ h)
        · intro h; exact Or.inl h
      · rfl

theorem init_ssl_intent_iff (k : Consts) (se : SecurityEnv) (mode : ExeMode)
    (encrypt s_port : Int) :
    init_ssl_intent k se mode encrypt s_port = true ↔
      se.config_get_security ≠ 0 ∧
        ((mode = SLAPD_EXEMODE_SLAPD ∧ s_port ≠ 0 ∧ s_port ≤ k.LDAP_PORT_MAX) ∨
          (mode ≠ SLAPD_EXEMODE_SLAPD ∧ encrypt ≠ 0)) := by
  unfold init_ssl_intent
  by_cases hm : mode = SLAPD_EXEMODE_SLAPD
  · simp [hm, and_assoc]
  · simp [hm]

/-- C14, as stated, fails: in Server mode with security on and the secure port
-1, which is not between 1 and `LDAP_PORT_MAX`, `slapd_ssl_init` is called. -/
theorem ssl_init_on_negative_port :
    Event.call "slapd_ssl_init" ∈
      (slapd_do_all_nss_ssl_init exampleConsts secureEnv SLAPD_EXEMODE_SLAPD 0 (-1)
        examplePorts).trace ∧
    ¬ (1 ≤ (-1 : Int) ∧ (-1 : Int) ≤ exampleConsts.LDAP_PORT_MAX) := by
  decide

/-- C14, amended. `slapd_ssl_init` is called only if the security flag is set
and, in Server mode, the secure port is non-zero and at most `LDAP_PORT_MAX`,
or, in any other mode, import/export encryption was requested; when NSS
initialisation succeeded it is called exactly in those cases; and for a secure
port that is not negative the port test says that it lies between 1 and
`LDAP_PORT_MAX`. -/
theorem ssl_init_decision (k : Consts) (se : SecurityEnv) (mode : ExeMode)
    (encrypt s_port : Int) (ports : daemon_ports_t) :
    (Event.call "slapd_ssl_init" ∈
        (slapd_do_all_nss_ssl_init k se mode encrypt s_port ports).trace →
      se.config_get_security ≠ 0 ∧
        ((mode = SLAPD_EXEMODE_SLAPD ∧ s_port ≠ 0 ∧ s_port ≤ k.LDAP_PORT_MAX) ∨
          (mode ≠ SLAPD_EXEMODE_SLAPD ∧ encrypt ≠ 0))) ∧
    (se.slapd_nss_init = 0 →
      (Event.call "slapd_ssl_init" ∈
          (slapd_do_all_nss_ssl_init k se mode encrypt s_port ports).trace ↔
        se.config_get_security ≠ 0 ∧
          ((mode = SLAPD_EXEMODE_SLAPD ∧ s_port ≠ 0 ∧ s_port ≤ k.LDAP_PORT_MAX) ∨
            (mode ≠ SLAPD_EXEMODE_SLAPD ∧ encrypt ≠ 0)))) ∧
    (0 ≤ s_port → mode = SLAPD_EXEMODE_SLAPD →
      Event.call "slapd_ssl_init" ∈
        (slapd_do_all_nss_ssl_init k se mode encrypt s_port ports).trace →
      1 ≤ s_port ∧ s_port ≤ k.LDAP_PORT_MAX) := by
  have h := ssl_init_attempted k se mode encrypt s_port ports
  have hi := init_ssl_intent_iff k se mode encrypt s_port
  refine ⟨?_, ?_, ?_⟩
  · intro hmem
    exact hi.mp (h.mp hmem).2
  · intro hn
    rw [h, hi]
    simp [hn]
  · intro hpos hm hmem
    have hc := hi.mp (h.mp hmem).2
    rcases hc.2 with ⟨_, hne, hle⟩ | ⟨hne, _⟩
    · exact ⟨by omega, hle⟩
    · exact absurd hm hne

/-- Witness of C14 amended: Server mode, security on, secure port 636, NSS
initialisation successful: `slapd_ssl_init` is called and 636 lies between 1
and `LDAP_PORT_MAX`; with the secure port 0 it is not called. -/
theorem ssl_init_decision_witness :
    secureEnv.slapd_nss_init = 0 ∧ (0 : Int) ≤ 636 ∧
    Event.call "slapd_ssl_init" ∈
      (slapd_do_all_nss_ssl_init exampleConsts secureEnv SLAPD_EXEMODE_SLAPD 0 636
        examplePorts).trace ∧
    ((1 : Int) ≤ 636 ∧ (636 : Int) ≤ exampleConsts.LDAP_PORT_MAX) ∧
    Event.call "slapd_ssl_init" ∉
      (slapd_do_all_nss_ssl_init exampleConsts secureEnv SLAPD_EXEMODE_SLAPD 0 0
        examplePorts).trace := by
  have h := ssl_init_decision exampleConsts secureEnv SLAPD_EXEMODE_SLAPD 0 636 examplePorts
  have h0 := ssl_init_decision exampleConsts secureEnv SLAPD_EXEMODE_SLAPD 0 0 examplePorts
  have hmem := (h.2.1 rfl).mpr (by decide)
  refine ⟨rfl, by decide, hmem, h.2.2 (by decide) rfl hmem, ?_⟩
  intro hin
  have := h0.1 hin
  revert this
  decide

theorem quiet_detach_task (k : Consts) (q : Int) (d : Nat) :
    (quiet_detach k q d).2.all is_task_event = true := by
  unfold quiet_detach
  simp only []
  split_ifs <;> rfl

theorem single_instance_task (w : TaskWorld) (g : Globals) (fn multi : String) :
    (single_instance_from_suffixes w g fn multi).2.all is_task_event = true := by
  unfold single_instance_from_suffixes
  simp only []
  split
  · rfl
  · split <;> simp [is_task_event]

theorem db2ldif_targets_task (w : TaskWorld) (g : Globals) :
    (db2ldif_targets w g).2.all is_task_event = true := by
  unfold db2ldif_targets
  split
  · rfl
  · simp only []
    split
    · rfl
    · split <;> simp [is_task_event]

theorem db2ldif_loop_task (k : Consts) (w : TaskWorld) (g : Globals) :
    ∀ (names : List String) (first : Bool) (debug printkey : Nat) (rv : Int) (tr : List Event),
      tr.all is_task_event = true →
      (db2ldif_loop k w g names first debug printkey rv tr).2.all is_task_event = true := by
  intro names
  induction names with
  | nil =>
    intro first debug printkey rv tr htr
    unfold db2ldif_loop
    split_ifs <;> simp [htr, is_task_event]
  | cons inst rest ih =>
    intro first debug printkey rv tr htr
    have hq := quiet_detach_task k g.is_quiet debug
    unfold db2ldif_loop
    split
    · simp [htr, is_task_event]
    · simp only []
      split_ifs
      · simp [htr, is_task_event]
      · simp [htr, is_task_event]
      · simp [htr, is_task_event]
      all_goals
        apply ih
        simp only [List.all_append, htr, hq, Bool.and_true, Bool.true_and]
        cases g.archive_name <;> simp [is_task_event, start_replication_subset]

theorem archive_task_events (k : Consts) (w : TaskWorld) (g : Globals) (fn : String)
    (cap : Capability) (instance_name : Option String) :
    (archive_task k w g fn cap instance_name).2.all is_task_event = true := by
  have hq := quiet_detach_task k g.is_quiet g.slapd_ldap_debug
  unfold archive_task
  split
  · rfl
  · split
    · rfl
    · simp only []
      split_ifs <;> simp [hq, is_task_event]

/-- Every call recorded by a task function is a call that a task function can
make: none is an operation on the worker pool or the entry into the daemon
loop. -/
theorem task_vocabulary (k : Consts) (w : TaskWorld) (g : Globals) :
    (slapd_exemode_ldif2db k w g).2.all is_task_event = true ∧
    (slapd_exemode_db2ldif k w g).2.all is_task_event = true ∧
    (slapd_exemode_db2index w g).2.all is_task_event = true ∧
    (slapd_exemode_archive2db k w g).2.all is_task_event = true ∧
    (slapd_exemode_db2archive k w g).2.all is_task_event = true ∧
    (slapd_exemode_suffix2instance w g).2.all is_task_event = true ∧
    (slapd_exemode_upgradedb w g).2.all is_task_event = true ∧
    (slapd_exemode_upgradednformat k w g).2.all is_task_event = true ∧
    (slapd_exemode_dbverify w g).2.all is_task_event = true := by
  have hq := quiet_detach_task k g.is_quiet g.slapd_ldap_debug
  have hs := single_instance_task w g
  refine ⟨?_, ?_, ?_, archive_task_events _ _ _ _ _ _, archive_task_events _ _ _ _ _ _,
    ?_, ?_, ?_, ?_⟩
  · unfold slapd_exemode_ldif2db
    split_ifs
    · rfl
    · simp only []
      have hres : (match g.cmd_line_instance_name with
          | some n => ((some n, []) : Option String × List Event)
          | none => single_instance_from_suffixes w g "slapd_exemode_ldif2db"
              "     : %s\n").2.all is_task_event = true := by
        cases g.cmd_line_instance_name
        · exact hs _ _
        · rfl
      split
      · simp [hres, is_task_event]
      · split
        · simp [hres, is_task_event]
        · split_ifs <;> simp [hres, hq, is_task_event]
  · unfold slapd_exemode_db2ldif
    simp only []
    have ht := db2ldif_targets_task w g
    split
    · simp [ht, is_task_event]
    · apply db2ldif_loop_task
      simp [ht, is_task_event]
  · unfold slapd_exemode_db2index
    simp only []
    have hres : (match g.cmd_line_instance_name with
        | some n => ((some n, []) : Option String × List Event)
        | none => single_instance_from_suffixes w g "slapd_exemode_db2index"
            "slapd_exemode_db2index").2.all is_task_event = true := by
      cases g.cmd_line_instance_name
      · exact hs _ _
      · rfl
    split
    · simp [hres, is_task_event]
    · split
      · simp [hres, is_task_event]
      · split_ifs <;> simp [hres, is_task_event]
  · unfold slapd_exemode_suffix2instance
    simp only [List.all_cons, List.all_eq_true, List.mem_flatMap, Bool.and_eq_true]
    refine ⟨rfl, ?_⟩
    rintro e ⟨p, _, he⟩
    split_ifs at he
    · simp at he
    · simp only [List.mem_cons, List.not_mem_nil, or_false] at he
      rcases he with h | h <;> subst h <;> rfl
    · simp only [List.mem_cons, List.mem_map] at he
      rcases he with h | ⟨_, _, h⟩ <;> subst h <;> rfl
  · unfold slapd_exemode_upgradedb
    split
    · rfl
    · split
      · rfl
      · simp only []
        split_ifs <;> simp [is_task_event]
  · unfold slapd_exemode_upgradednformat
    split
    · rfl
    · split
      · rfl
      · simp only []
        split_ifs <;> simp [is_task_event]
  · unfold slapd_exemode_dbverify
    simp only []
    split
    · rfl
    · split_ifs <;> simp [is_task_event]

/-- A split of a list around an element satisfying `p`, when the list starts
with a part that has no such element, splits what follows that part. -/
theorem split_after_part {α : Type} (p : α → Bool) :
    ∀ (P S a b : List α) (x : α), (∀ y ∈ P, p y = false) → p x = true →
      P ++ S = a ++ x :: b → ∃ c, a = P ++ c ∧ S = c ++ x :: b := by
  intro P
  induction P with
  | nil =>
    intro S a b x _ _ h
    exact ⟨a, rfl, by simpa using h⟩
  | cons z P1 ih =>
    intro S a b x hP hx h
    cases a with
    | nil =>
      simp only [List.nil_append, List.cons_append, List.cons.injEq] at h
      have := hP z (List.mem_cons_self _ _)
      rw [h.1, hx] at this
      exact absurd this (by simp)
    | cons y a1 =>
      simp only [List.cons_append, List.cons.injEq] at h
      obtain ⟨c, hc1, hc2⟩ := ih S a1 b x (fun w hw => hP w (List.mem_cons_of_mem _ hw)) hx h.2
      exact ⟨c, by rw [hc1, h.1]; rfl, hc2⟩

theorem startup_unguarded (e : Event) (h : is_startup_event e = true) :
    is_guard_call e = false ∧ is_daemon_call e = false ∧ is_pool_event e = false ∧
      e ≠ Event.call "main_create_ns" := by
  cases e
  case call f =>
    refine ⟨rfl, rfl, rfl, ?_⟩
    intro hf
    rw [hf] at h
    exact absurd h (by decide)
  all_goals first
    | exact ⟨rfl, rfl, rfl, Event.noConfusion⟩
    | exact absurd h (by simp [is_startup_event])

theorem task_event_respects_pool (tp : Bool) (e : Event) (h : is_task_event e = true) :
    respects_pool tp e = true := by
  cases e <;> first
    | (cases tp <;> rfl)
    | exact absurd h (by simp [is_task_event])

theorem main_prologue_startup (env : MainEnv) :
    (main_prologue env).all is_startup_event = true := by
  unfold main_prologue
  split <;> rfl

theorem main_load_config_startup (k : Consts) (env : MainEnv) (g : Globals) :
    (main_load_config k env g).2.all is_startup_event = true := by
  unfold main_load_config
  simp only []
  split_ifs <;> rfl

theorem main_bind_startup (env : MainEnv) (g : Globals) :
    (main_bind env g).2.all is_startup_event = true := by
  unfold main_bind
  simp only []
  split_ifs <;> rfl

theorem main_bind_proceed (env : MainEnv) (g : Globals) (i : Int)
    (hm : g.slapd_exemode = SLAPD_EXEMODE_SLAPD ∨ g.slapd_exemode = SLAPD_EXEMODE_REFERRAL)
    (hb : (main_bind env g).1 = .proceed i) :
    Event.daemon_pre_setuid_init 0 ∈ (main_bind env g).2 := by
  rcases main_bind_shape env g hm with ⟨h1, _⟩ | ⟨h1, _⟩ | ⟨_, _, N, _, h2⟩
  · rw [h1] at hb
    exact absurd hb (by simp)
  · rw [h1] at hb
    exact absurd hb (by simp)
  · rw [h2]
    simp

theorem main_setuid_startup (k : Consts) (os : Os) (cfg : FrontendConfig)
    (username : Option String) :
    ∀ e ∈ (main_setuid k os cfg username).trace, is_startup_event e = true := by
  intro e he
  have hf : ∀ x ∈ (fix_ownership k os cfg).2, is_startup_event x = true := by
    intro x hx
    have := fix_ownership_vocabulary k os cfg x hx
    cases x <;> first | rfl | simp [is_ownership_event] at this
  unfold main_setuid at he
  cases username with
  | none => simp at he
  | some name =>
    simp only [] at he
    split at he
    · simp only [List.mem_append, List.mem_cons, List.mem_singleton, List.not_mem_nil,
        or_false] at he
      rcases he with h | h | h
      · exact hf e h
      · subst h; rfl
      · subst h; rfl
    · split_ifs at he <;>
        simp only [List.mem_append, List.mem_cons, List.mem_singleton, List.not_mem_nil,
          or_false] at he
      · rcases he with (h | h) | h | h
        · exact hf e h
        all_goals subst h; rfl
      · rcases he with (h | h) | h | h | h
        · exact hf e h
        all_goals subst h; rfl
      · rcases he with (h | h) | h | h
        · exact hf e h
        all_goals subst h; rfl

/-- How `main` proceeds up to the call of `detach`: it ends there, with
`exit(1)` or `return 1`, having recorded startup events only; or it continues
with `main_run`, with the local-socket flag that the binding block left, after
startup events that include the call of `main_setuid` and, in Server and
Referral mode, a binding step that returned 0. -/
theorem main_cases_bind (k : Consts) (env : MainEnv) (g : Globals)
    (hg : env.process_command_line = some g) :
    (((main k env).1 = .exit 1 ∨ (main k env).1 = .ret 1) ∧
      ∀ e ∈ (main k env).2, is_startup_event e = true) ∨
    (∃ E i, (∀ e ∈ E, is_startup_event e = true) ∧ Event.call "main_setuid" ∈ E ∧
      ((g.slapd_exemode = SLAPD_EXEMODE_SLAPD ∨ g.slapd_exemode = SLAPD_EXEMODE_REFERRAL) →
        Event.daemon_pre_setuid_init 0 ∈ E) ∧
      main k env = after E (main_run k env g i E) ∧ (main_bind env g).1 = .proceed i) := by
  have hpro := List.all_eq_true.mp (main_prologue_startup env)
  have hcfg := List.all_eq_true.mp (main_load_config_startup k env g)
  have hbind := List.all_eq_true.mp (main_bind_startup env g)
  have hsu := main_setuid_startup k env.os env.cfg env.cfg.localuser
  unfold main
  simp only [hg]
  cases hdir : env.cfg.configdir with
  | none =>
    left
    refine ⟨Or.inl rfl, ?_⟩
    intro e he
    simp only [List.mem_append, List.mem_singleton] at he
    rcases he with h | h
    · exact hpro e h
    · subst h; rfl
  | some dir =>
    simp only []
    by_cases hc : (main_load_config k env g).1 = true
    · simp only [hc, Bool.not_true, Bool.false_eq_true, if_false]
      have hpre : ∀ e ∈ main_prologue env ++ (main_load_config k env g).2 ++
          [Event.call "raise_process_limits", Event.call "set_entry_points"] ++
          (main_bind env g).2, is_startup_event e = true := by
        intro e he
        simp only [List.mem_append, List.mem_cons, List.mem_singleton, List.not_mem_nil,
          or_false] at he
        rcases he with ((h | h) | h | h) | h
        · exact hpro e h
        · exact hcfg e h
        · subst h; rfl
        · subst h; rfl
        · exact hbind e h
      cases hb : (main_bind env g).1 with
      | returned => exact Or.inl ⟨Or.inr rfl, hpre⟩
      | exited => exact Or.inl ⟨Or.inl rfl, hpre⟩
      | proceed i =>
        simp only []
        by_cases hrc : (main_setuid k env.os env.cfg env.cfg.localuser).rc = 0
        · right
          simp only [hrc, bne_self_eq_false, Bool.false_eq_true, if_false]
          refine ⟨_, i, ?_, ?_, ?_, rfl, rfl⟩
          · intro e he
            rcases List.mem_append.mp he with h | h
            · exact hpre e h
            · rcases List.mem_cons.mp h with h | h
              · subst h; rfl
              · exact hsu e h
          · simp
          · intro hm
            have := main_bind_proceed env g i hm hb
            simp [this]
        · left
          have hrc2 : ((main_setuid k env.os env.cfg env.cfg.localuser).rc != 0) = true := by
            simpa using hrc
          simp only [hrc2, if_true]
          refine ⟨Or.inl (by trivial), ?_⟩
          intro e he
          rcases List.mem_append.mp he with h | h
          · rcases List.mem_append.mp h with h | h
            · exact hpre e h
            · rcases List.mem_cons.mp h with h | h
              · subst h; rfl
              · exact hsu e h
          · simp only [List.mem_singleton] at h
            subst h; rfl
    · left
      have hc2 : (main_load_config k env g).1 = false := by simpa using hc
      simp only [hc2, Bool.not_false, if_true]
      refine ⟨Or.inl (by trivial), ?_⟩
      intro e he
      rcases List.mem_append.mp he with h | h
      · exact hpro e h
      · exact hcfg e h

/-- How `main` proceeds up to the call of `detach`: it ends there, with
`exit(1)` or `return 1`, having recorded startup events only; or it continues
with `main_run`, after startup events that include the call of `main_setuid`
and, in Server and Referral mode, a binding step that returned 0. -/
theorem main_cases (k : Consts) (env : MainEnv) (g : Globals)
    (hg : env.process_command_line = some g) :
    (((main k env).1 = .exit 1 ∨ (main k env).1 = .ret 1) ∧
      ∀ e ∈ (main k env).2, is_startup_event e = true) ∨
    (∃ E i, (∀ e ∈ E, is_startup_event e = true) ∧ Event.call "main_setuid" ∈ E ∧
      ((g.slapd_exemode = SLAPD_EXEMODE_SLAPD ∨ g.slapd_exemode = SLAPD_EXEMODE_REFERRAL) →
        Event.daemon_pre_setuid_init 0 ∈ E) ∧
      main k env = after E (main_run k env g i E)) := by
  rcases main_cases_bind k env g hg with h | ⟨E, i, h1, h2, h3, h4, _⟩
  · exact Or.inl h
  · exact Or.inr ⟨E, i, h1, h2, h3, h4⟩

theorem main_cleanup_respects (tp : Bool) (rv : Int) :
    (main_cleanup tp rv).2.all (respects_pool tp) = true := by
  cases tp <;> rfl

theorem main_start_plugins_respects (env : MainEnv) (i_port : Int) (tp : Bool) :
    (main_start_plugins env i_port).2.all (respects_pool tp) = true := by
  unfold main_start_plugins
  simp only []
  split_ifs <;> cases tp <;> rfl

theorem main_server_respects (env : MainEnv) (g : Globals) (i_port : Int) (tp : Bool)
    (hist : List Event) :
    (main_server env g i_port tp hist).2.all (respects_pool tp) = true := by
  have hc := main_cleanup_respects tp
  have hp := main_start_plugins_respects env i_port tp
  unfold main_server
  simp only []
  split_ifs <;> simp only [List.all_append, hc, hp, Bool.and_true, Bool.true_and] <;>
    cases tp <;> rfl

theorem main_task_respects (tp : Bool) (fn : String) (r : Outcome × List Event)
    (hr : r.2.all is_task_event = true) :
    (main_task tp fn r).2.all (respects_pool tp) = true := by
  have hc := main_cleanup_respects tp
  have hr2 : r.2.all (respects_pool tp) = true := by
    rw [List.all_eq_true] at hr ⊢
    exact fun e he => task_event_respects_pool tp e (hr e he)
  unfold main_task
  split <;> simp only [List.all_append, hc, hr2, Bool.and_true, Bool.true_and] <;>
    cases tp <;> rfl

/-- When `detach` fails, `main` goes to `cleanup` with the pool pointer NULL. -/
theorem main_run_no_detach (k : Consts) (env : MainEnv) (g : Globals) (i_port : Int)
    (hist : List Event) (hd : env.detach ≠ 0) :
    main_run k env g i_port hist =
      (.ret 1, Event.detach env.detach :: (main_cleanup false 1).2) := by
  have hd2 : (env.detach != 0) = true := by simpa using hd
  unfold main_run
  simp only [hd2, if_true, after]
  rfl

/-- When `detach` succeeds, `main` calls `main_create_ns`, and every call made
after that agrees with the pool pointer that `main_create_ns` left. -/
theorem main_run_prefix (k : Consts) (env : MainEnv) (g : Globals) (i_port : Int)
    (hist : List Event) (hd : env.detach = 0) :
    ∃ R, (main_run k env g i_port hist).2 =
        Event.detach 0 :: Event.call "main_create_ns" ::
          (main_create_ns env.enable_nunc_stans env.ns_thrpool_new_ok false).2.2 ++ R ∧
      R.all (respects_pool
        (main_create_ns env.enable_nunc_stans env.ns_thrpool_new_ok false).2.1) = true := by
  have hv := task_vocabulary k env.w g
  have hc := main_cleanup_respects
    (main_create_ns env.enable_nunc_stans env.ns_thrpool_new_ok false).2.1
  have hs := main_server_respects env g i_port
    (main_create_ns env.enable_nunc_stans env.ns_thrpool_new_ok false).2.1
  have ht := fun fn r hr => main_task_respects
    (main_create_ns env.enable_nunc_stans env.ns_thrpool_new_ok false).2.1 fn r hr
  unfold main_run
  simp only [hd, bne_self_eq_false, Bool.false_eq_true, if_false, after]
  generalize (main_create_ns env.enable_nunc_stans env.ns_thrpool_new_ok false).2.1 = tp
    at hc hs ht ⊢
  generalize (main_create_ns env.enable_nunc_stans env.ns_thrpool_new_ok false).2.2 = cs
  cases hmode : g.slapd_exemode <;> simp only []
  case SLAPD_EXEMODE_LDIF2DB =>
    refine ⟨_, ?_, ht "slapd_exemode_ldif2db" _ hv.1⟩
    simp
  case SLAPD_EXEMODE_DB2LDIF =>
    refine ⟨_, ?_, ht "slapd_exemode_db2ldif" _ hv.2.1⟩
    simp
  case SLAPD_EXEMODE_DB2INDEX =>
    refine ⟨_, ?_, ht "slapd_exemode_db2index" _ hv.2.2.1⟩
    simp
  case SLAPD_EXEMODE_ARCHIVE2DB =>
    refine ⟨_, ?_, ht "slapd_exemode_archive2db" _ hv.2.2.2.1⟩
    simp
  case SLAPD_EXEMODE_DB2ARCHIVE =>
    refine ⟨_, ?_, ht "slapd_exemode_db2archive" _ hv.2.2.2.2.1⟩
    simp
  case SLAPD_EXEMODE_SUFFIX2INSTANCE =>
    refine ⟨_, ?_, ht "slapd_exemode_suffix2instance" _ hv.2.2.2.2.2.1⟩
    simp
  case SLAPD_EXEMODE_UPGRADEDB =>
    refine ⟨_, ?_, ht "slapd_exemode_upgradedb" _ hv.2.2.2.2.2.2.1⟩
    simp
  case SLAPD_EXEMODE_UPGRADEDNFORMAT =>
    refine ⟨_, ?_, ht "slapd_exemode_upgradednformat" _ hv.2.2.2.2.2.2.2.1⟩
    simp
  case SLAPD_EXEMODE_DBVERIFY =>
    refine ⟨_, ?_, ht "slapd_exemode_dbverify" _ hv.2.2.2.2.2.2.2.2⟩
    simp
  case SLAPD_EXEMODE_PRINTVERSION =>
    refine ⟨Event.call "slapd_print_version" :: (main_cleanup tp 1).2, by simp, ?_⟩
    simp only [List.all_cons, hc, Bool.and_true]
    cases tp <;> rfl
  case SLAPD_EXEMODE_REFERRAL =>
    split_ifs
    · refine ⟨[Event.call "config_check_referral_mode",
        Event.slapi_log_err SLAPI_LOG_ALERT "main", Event.usage], by simp, ?_⟩
      cases tp <;> rfl
    · refine ⟨Event.call "config_check_referral_mode" ::
        (main_server env g i_port tp
          (hist ++ Event.detach 0 :: Event.call "main_create_ns" ::
            (cs ++ [Event.call "config_check_referral_mode"]))).2, by simp, ?_⟩
      simp only [List.all_cons, hs, Bool.and_true]
      cases tp <;> rfl
  all_goals
    split_ifs
    · refine ⟨[Event.call "config_get_rundir", Event.call "access",
        Event.slapi_log_err SLAPI_LOG_EMERG "main", Event.slapi_log_err SLAPI_LOG_EMERG "main",
        Event.slapi_log_err SLAPI_LOG_EMERG "main"] ++ (main_cleanup tp 1).2, by simp, ?_⟩
      simp only [List.all_append, hc, Bool.and_true]
      cases tp <;> rfl
    · refine ⟨[Event.call "config_get_rundir", Event.call "access"] ++
        (main_server env g i_port tp
          (hist ++ Event.detach 0 :: Event.call "main_create_ns" ::
            (cs ++ [Event.call "config_get_rundir", Event.call "access"]))).2, by simp, ?_⟩
      simp only [List.all_append, hs, Bool.and_true]
      cases tp <;> rfl

theorem respects_pool_null (e : Event) (h : respects_pool false e = true) :
    is_pool_event e = false := by
  cases e <;> first | rfl | exact absurd h (by simp [respects_pool, is_pool_event])

theorem respects_pool_daemon (tp t : Bool) (h : respects_pool tp (Event.slapd_daemon t) = true) :
    t = tp := by
  simpa [respects_pool] using h

/-! ## Theorems: worker pool and conflict guard in `main` -/

/-- C16, as stated, fails: `main` in each of the nine offline modes, with the
worker pool enabled in the configuration, calls `ns_thrpool_new` (in db2index,
for one, `main_stop_ns` then tears the pool down); and `main` in Server mode,
with the worker pool disabled in the configuration, enters the daemon loop
without having created a pool. -/
theorem offline_mode_creates_pool :
    (modeSettings SLAPD_EXEMODE_DB2INDEX).slapd_exemode = SLAPD_EXEMODE_DB2INDEX ∧
    Event.ns_thrpool_new true ∈ (main exampleConsts (serverEnv SLAPD_EXEMODE_DB2INDEX)).2 ∧
    Event.ns_thrpool_destroy ∈ (main exampleConsts (serverEnv SLAPD_EXEMODE_DB2INDEX)).2 ∧
    Event.slapd_daemon false ∈
      (main exampleConsts
        { serverEnv SLAPD_EXEMODE_SLAPD with enable_nunc_stans := false }).2 ∧
    (∀ e ∈ (main exampleConsts
        { serverEnv SLAPD_EXEMODE_SLAPD with enable_nunc_stans := false }).2,
      is_pool_event e = false) ∧
    (∀ mode ∈ [SLAPD_EXEMODE_LDIF2DB, SLAPD_EXEMODE_DB2LDIF, SLAPD_EXEMODE_DB2INDEX,
        SLAPD_EXEMODE_ARCHIVE2DB, SLAPD_EXEMODE_DB2ARCHIVE, SLAPD_EXEMODE_UPGRADEDB,
        SLAPD_EXEMODE_UPGRADEDNFORMAT, SLAPD_EXEMODE_DBVERIFY, SLAPD_EXEMODE_SUFFIX2INSTANCE],
      (modeSettings mode).slapd_exemode = mode ∧
      Event.ns_thrpool_new true ∈ (main exampleConsts (serverEnv mode)).2) := by
  decide

/-- Whether `main` creates the worker pool depends on the configuration
switch `config_get_enable_nunc_stans` only. With the switch off no operation
on a worker pool is made and the daemon loop is entered with a NULL pool
pointer; with the switch on, an execution that reaches the call of
`main_create_ns` calls `ns_thrpool_new`, and wherever the daemon loop is
entered, `ns_thrpool_new` was called before and its result is the pool pointer
passed to the daemon loop. -/
theorem pool_follows_switch (k : Consts) (env : MainEnv) (g : Globals)
    (hg : env.process_command_line = some g) :
    (env.enable_nunc_stans = false →
      (∀ e ∈ (main k env).2, is_pool_event e = false) ∧
      (∀ tp, Event.slapd_daemon tp ∈ (main k env).2 → tp = false)) ∧
    (env.enable_nunc_stans = true →
      (Event.call "main_create_ns" ∈ (main k env).2 →
        Event.ns_thrpool_new env.ns_thrpool_new_ok ∈ (main k env).2) ∧
      (∀ a b tp, (main k env).2 = a ++ Event.slapd_daemon tp :: b →
        tp = env.ns_thrpool_new_ok ∧ Event.ns_thrpool_new tp ∈ a)) := by
  rcases main_cases k env g hg with ⟨_, hT⟩ | ⟨E, i, hE, _, _, hmain⟩
  · -- main ends before detach
    have hT2 := fun e he => startup_unguarded e (hT e he)
    refine ⟨fun _ => ⟨fun e he => (hT2 e he).2.2.1, ?_⟩, fun _ => ⟨?_, ?_⟩⟩
    · intro tp hin
      exact absurd (hT2 _ hin).2.1 (by simp [is_daemon_call])
    · intro hin
      exact absurd rfl (hT2 _ hin).2.2.2
    · intro a b tp hab
      have hin : Event.slapd_daemon tp ∈ (main k env).2 := by rw [hab]; simp
      exact absurd (hT2 _ hin).2.1 (by simp [is_daemon_call])
  · have hE2 := fun e he => startup_unguarded e (hE e he)
    rw [hmain]
    simp only [after]
    by_cases hd : env.detach = 0
    · obtain ⟨R, hR, hall⟩ := main_run_prefix k env g i E hd
      rw [hR]
      rw [List.all_eq_true] at hall
      constructor
      · intro hen
        have hcs : main_create_ns env.enable_nunc_stans env.ns_thrpool_new_ok false =
            (1, false, []) := by
          simp [main_create_ns, hen]
        rw [hcs] at hall ⊢
        simp only [List.nil_append]
        constructor
        · intro e he
          rcases List.mem_append.mp he with h | h
          · exact (hE2 e h).2.2.1
          · rcases List.mem_cons.mp h with h | h
            · subst h; rfl
            · rcases List.mem_cons.mp h with h | h
              · subst h; rfl
              · exact respects_pool_null e (hall e h)
        · intro tp he
          rcases List.mem_append.mp he with h | h
          · exact absurd (hE2 _ h).2.1 (by simp [is_daemon_call])
          · rcases List.mem_cons.mp h with h | h
            · exact absurd h (by simp)
            · rcases List.mem_cons.mp h with h | h
              · exact absurd h (by simp)
              · exact respects_pool_daemon false tp (hall _ h)
      · intro hen
        have hcs : main_create_ns env.enable_nunc_stans env.ns_thrpool_new_ok false =
            (0, env.ns_thrpool_new_ok,
              [ Event.call "ns_thrpool_config_init",
                Event.ns_thrpool_new env.ns_thrpool_new_ok,
                Event.ns_add_signal_job .SIGINT true .set_shutdown 0,
                Event.ns_add_signal_job .SIGTERM true .set_shutdown 1,
                Event.ns_add_signal_job .SIGTSTP true .set_shutdown 3,
                Event.ns_add_signal_job .SIGHUP true .set_user 2,
                Event.ns_add_signal_job .SIGUSR1 true .set_user 4,
                Event.ns_add_signal_job .SIGUSR2 true .set_user 5 ]) := by
          simp [main_create_ns, hen]
        rw [hcs] at hall ⊢
        simp only [] at hall ⊢
        constructor
        · intro _
          simp
        · intro a b tp hab
          have hsplit := split_after_part is_daemon_call
            (E ++ [ Event.detach 0, Event.call "main_create_ns",
                Event.call "ns_thrpool_config_init",
                Event.ns_thrpool_new env.ns_thrpool_new_ok,
                Event.ns_add_signal_job .SIGINT true .set_shutdown 0,
                Event.ns_add_signal_job .SIGTERM true .set_shutdown 1,
                Event.ns_add_signal_job .SIGTSTP true .set_shutdown 3,
                Event.ns_add_signal_job .SIGHUP true .set_user 2,
                Event.ns_add_signal_job .SIGUSR1 true .set_user 4,
                Event.ns_add_signal_job .SIGUSR2 true .set_user 5 ]) R a b
            (Event.slapd_daemon tp)
            (by
              intro y hy
              rcases List.mem_append.mp hy with h | h
              · exact (hE2 y h).2.1
              · simp only [List.mem_cons, List.not_mem_nil, or_false] at h
                rcases h with h | h | h | h | h | h | h | h | h | h <;> subst h <;> rfl)
            rfl (by rw [← hab]; simp)
          obtain ⟨c, hc1, hc2⟩ := hsplit
          have htp : tp = env.ns_thrpool_new_ok :=
            respects_pool_daemon _ _ (hall _ (by rw [hc2]; simp))
          refine ⟨htp, ?_⟩
          rw [hc1, htp]
          simp
    · rw [main_run_no_detach k env g i E hd]
      have hcl : ∀ e ∈ Event.detach env.detach :: (main_cleanup false 1).2,
          is_pool_event e = false ∧ is_daemon_call e = false ∧
            e ≠ Event.call "main_create_ns" := by
        intro e he
        simp only [main_cleanup, main_stop_ns, List.mem_cons, List.mem_append,
          List.not_mem_nil, or_false, false_or, Bool.not_false, if_true, or_assoc] at he
        rcases he with h | h | h | h | h | h | h | h <;> subst h <;>
          exact ⟨rfl, rfl, by simp⟩
      have hall : ∀ e ∈ E ++ Event.detach env.detach :: (main_cleanup false 1).2,
          is_pool_event e = false ∧ is_daemon_call e = false ∧
            e ≠ Event.call "main_create_ns" := by
        intro e he
        rcases List.mem_append.mp he with h | h
        · exact ⟨(hE2 e h).2.2.1, (hE2 e h).2.1, (hE2 e h).2.2.2⟩
        · exact hcl e h
      refine ⟨fun _ => ⟨fun e he => (hall e he).1, ?_⟩, fun _ => ⟨?_, ?_⟩⟩
      · intro tp hin
        exact absurd (hall _ hin).2.1 (by simp [is_daemon_call])
      · intro hin
        exact absurd rfl (hall _ hin).2.2
      · intro a b tp hab
        have hin : Event.slapd_daemon tp ∈
            E ++ Event.detach env.detach :: (main_cleanup false 1).2 := by rw [hab]; simp
        exact absurd (hall _ hin).2.1 (by simp [is_daemon_call])

/-- When the configuration directory is set, the configuration loads, the
binding block lets `main` proceed and `main_setuid` returns 0, `main` calls
`detach`. -/
theorem main_reaches_detach (k : Consts) (env : MainEnv) (g : Globals) (dir : String) (i : Int)
    (hg : env.process_command_line = some g) (hdir : env.cfg.configdir = some dir)
    (hc : (main_load_config k env g).1 = true) (hb : (main_bind env g).1 = .proceed i)
    (hrc : (main_setuid k env.os env.cfg env.cfg.localuser).rc = 0) :
    Event.detach env.detach ∈ (main k env).2 := by
  unfold main
  simp only [hg, hdir, hc, hb, hrc, Bool.not_true, Bool.false_eq_true, if_false,
    bne_self_eq_false, after]
  apply List.mem_append_right
  by_cases hd : env.detach = 0
  · obtain ⟨R, hR, _⟩ := main_run_prefix k env g i
      (main_prologue env ++ (main_load_config k env g).2 ++
        [Event.call "raise_process_limits", Event.call "set_entry_points"] ++
        (main_bind env g).2 ++
        Event.call "main_setuid" :: (main_setuid k env.os env.cfg env.cfg.localuser).trace) hd
    rw [hR, hd]
    simp
  · rw [main_run_no_detach k env g i _ hd]
    simp

/-- When `detach` has returned 0, the calls before it are start-up calls and
the call after it is that of `main_create_ns`. -/
theorem main_after_detach (k : Consts) (env : MainEnv) (g : Globals)
    (hg : env.process_command_line = some g) (hin : Event.detach 0 ∈ (main k env).2) :
    ∃ E R, (main k env).2 =
        E ++ Event.detach 0 :: Event.call "main_create_ns" ::
          (main_create_ns env.enable_nunc_stans env.ns_thrpool_new_ok false).2.2 ++ R ∧
      (∀ e ∈ E, is_startup_event e = true) := by
  rcases main_cases k env g hg with ⟨_, hT⟩ | ⟨E, i, hE, _, _, hmain⟩
  · exact absurd (hT _ hin) (by simp [is_startup_event])
  · rw [hmain] at hin ⊢
    simp only [after] at hin ⊢
    by_cases hd : env.detach = 0
    · obtain ⟨R, hR, _⟩ := main_run_prefix k env g i E hd
      exact ⟨E, R, by rw [hR]; simp, hE⟩
    · rw [main_run_no_detach k env g i E hd] at hin
      rcases List.mem_append.mp hin with h | h
      · exact absurd (hE _ h) (by simp [is_startup_event])
      · simp only [main_cleanup, main_stop_ns, List.mem_cons, List.mem_append,
          List.not_mem_nil, or_false, false_or, Bool.not_false, if_true, or_assoc] at h
        rcases h with h | h | h | h | h | h | h | h
        · exact absurd (Event.detach.inj h).symm hd
        all_goals exact absurd h (by simp)

/-- In the modes other than Server and Referral the binding block is skipped. -/
theorem main_bind_offline (env : MainEnv) (g : Globals)
    (h1 : g.slapd_exemode ≠ SLAPD_EXEMODE_SLAPD) (h2 : g.slapd_exemode ≠ SLAPD_EXEMODE_REFERRAL) :
    main_bind env g = (.proceed 0, []) := by
  simp [main_bind, h1, h2]

/-- C16, amended. Once `detach` has returned 0, `main` in every mode calls
`main_create_ns` next, before anything the mode does: the calls before
`detach` are start-up calls only. `detach` is reached in every mode when the
configuration directory is set, the configuration loads, the binding block
lets `main` proceed (which it does without a call in the offline modes) and
`main_setuid` returns 0. Whether `main_create_ns` creates the worker pool
depends on the configuration switch `config_get_enable_nunc_stans`, not on the
mode. With the switch off, no execution of `main`, in any mode, performs an
operation on a worker pool, and the daemon loop is entered with a NULL pool
pointer. With the switch on, in every mode, an execution on which `detach`
returned 0 calls `ns_thrpool_new`, as does every execution that reaches the
call of `main_create_ns`, and wherever the daemon loop is entered,
`ns_thrpool_new` was called before and its result is the pool pointer passed
to the daemon loop. -/
theorem pool_follows_configuration (k : Consts) (env : MainEnv) (g : Globals)
    (hg : env.process_command_line = some g) :
    (Event.detach 0 ∈ (main k env).2 →
      ∃ E R, (main k env).2 =
          E ++ Event.detach 0 :: Event.call "main_create_ns" ::
            (main_create_ns env.enable_nunc_stans env.ns_thrpool_new_ok false).2.2 ++ R ∧
        (∀ e ∈ E, is_startup_event e = true)) ∧
    (∀ dir i, env.cfg.configdir = some dir → (main_load_config k env g).1 = true →
      (main_bind env g).1 = .proceed i →
      (main_setuid k env.os env.cfg env.cfg.localuser).rc = 0 →
      Event.detach env.detach ∈ (main k env).2) ∧
    (g.slapd_exemode ≠ SLAPD_EXEMODE_SLAPD → g.slapd_exemode ≠ SLAPD_EXEMODE_REFERRAL →
      main_bind env g = (.proceed 0, [])) ∧
    (env.enable_nunc_stans = false →
      (∀ e ∈ (main k env).2, is_pool_event e = false) ∧
      (∀ tp, Event.slapd_daemon tp ∈ (main k env).2 → tp = false)) ∧
    (env.enable_nunc_stans = true →
      (Event.detach 0 ∈ (main k env).2 →
        Event.ns_thrpool_new env.ns_thrpool_new_ok ∈ (main k env).2) ∧
      (Event.call "main_create_ns" ∈ (main k env).2 →
        Event.ns_thrpool_new env.ns_thrpool_new_ok ∈ (main k env).2) ∧
      (∀ a b tp, (main k env).2 = a ++ Event.slapd_daemon tp :: b →
        tp = env.ns_thrpool_new_ok ∧ Event.ns_thrpool_new tp ∈ a)) := by
  have hsw := pool_follows_switch k env g hg
  refine ⟨main_after_detach k env g hg,
    fun dir i hdir hc hb hrc => main_reaches_detach k env g dir i hg hdir hc hb hrc,
    main_bind_offline env g, hsw.1, fun hen => ⟨?_, (hsw.2 hen).1, (hsw.2 hen).2⟩⟩
  intro hin
  obtain ⟨E, R, hT, _⟩ := main_after_detach k env g hg hin
  rw [hT]
  simp [main_create_ns, hen]

/-- Witness of C16 amended: with everything before `detach` succeeding and the
pool enabled, `main` in each of the nine offline modes, in Server mode and in
Referral mode reaches `detach`, which returns 0, and calls `ns_thrpool_new`;
in Server mode the daemon loop is entered after `ns_thrpool_new`, with the
pool it returned; with the pool disabled no operation on a pool is made. -/
theorem pool_follows_configuration_witness :
    (∀ mode ∈ [SLAPD_EXEMODE_LDIF2DB, SLAPD_EXEMODE_DB2LDIF, SLAPD_EXEMODE_DB2INDEX,
        SLAPD_EXEMODE_ARCHIVE2DB, SLAPD_EXEMODE_DB2ARCHIVE, SLAPD_EXEMODE_UPGRADEDB,
        SLAPD_EXEMODE_UPGRADEDNFORMAT, SLAPD_EXEMODE_DBVERIFY, SLAPD_EXEMODE_SUFFIX2INSTANCE,
        SLAPD_EXEMODE_SLAPD, SLAPD_EXEMODE_REFERRAL],
      (serverEnv mode).process_command_line = some (modeSettings mode) ∧
      (serverEnv mode).enable_nunc_stans = true ∧
      Event.detach 0 ∈ (main exampleConsts (serverEnv mode)).2 ∧
      Event.ns_thrpool_new true ∈ (main exampleConsts (serverEnv mode)).2) ∧
    Event.call "main_create_ns" ∈ (main exampleConsts (serverEnv SLAPD_EXEMODE_DB2INDEX)).2 ∧
    Event.slapd_daemon true ∈ (main exampleConsts (serverEnv SLAPD_EXEMODE_SLAPD)).2 ∧
    (∀ a b tp, (main exampleConsts (serverEnv SLAPD_EXEMODE_SLAPD)).2 =
        a ++ Event.slapd_daemon tp :: b →
      tp = true ∧ Event.ns_thrpool_new tp ∈ a) ∧
    (∀ e ∈ (main exampleConsts
        { serverEnv SLAPD_EXEMODE_DBVERIFY with enable_nunc_stans := false }).2,
      is_pool_event e = false) := by
  have h2 := pool_follows_configuration exampleConsts (serverEnv SLAPD_EXEMODE_SLAPD)
    (modeSettings SLAPD_EXEMODE_SLAPD) rfl
  have h3 := pool_follows_configuration exampleConsts
    { serverEnv SLAPD_EXEMODE_DBVERIFY with enable_nunc_stans := false }
    (modeSettings SLAPD_EXEMODE_DBVERIFY) rfl
  refine ⟨?_, by decide, by decide, (h2.2.2.2.2 rfl).2.2, (h3.2.2.2.1 rfl).1⟩
  intro mode hm
  have h1 := pool_follows_configuration exampleConsts (serverEnv mode) (modeSettings mode) rfl
  simp only [List.mem_cons, List.mem_singleton, List.not_mem_nil, or_false] at hm
  rcases hm with h | h | h | h | h | h | h | h | h | h | h <;> subst h <;>
    exact ⟨rfl, rfl, by decide, (h1.2.2.2.2 rfl).1 (by decide)⟩

theorem main_cleanup_quiet (tp : Bool) (rv : Int) :
    (main_cleanup tp rv).2.all
      (fun e => !is_guard_call e && !is_daemon_call e && !is_bind_call e) = true := by
  cases tp <;> rfl

theorem main_start_plugins_quiet (env : MainEnv) (i_port : Int) :
    (main_start_plugins env i_port).2.all
      (fun e => !is_guard_call e && !is_daemon_call e && !is_bind_call e) = true := by
  unfold main_start_plugins
  simp only []
  split_ifs <;> rfl

/-- The statements of `main` after the `switch`, outside Referral mode: three
calls, then the call of the process registry, then calls none of which is a
call of the process registry or a binding step; when the registry refuses,
the result is 1 and the daemon loop is not entered. -/
theorem main_server_guarded (env : MainEnv) (g : Globals) (i_port : Int) (tp : Bool)
    (hist : List Event) (hm : g.slapd_exemode ≠ SLAPD_EXEMODE_REFERRAL) :
    ∃ B a,
      (main_server env g i_port tp hist).2 =
        [Event.call "ndn_cache_init", Event.call "global_backend_lock_init",
          Event.call "write_start_pid_file"] ++
        Event.add_new_slapd_process g.slapd_exemode g.db2ldif_dump_replica
          g.skip_db_protect_check a :: B ∧
      (∀ e ∈ B, is_guard_call e = false ∧ is_bind_call e = false) ∧
      (a = -1 → (main_server env g i_port tp hist).1 = .ret 1 ∧
        ∀ e ∈ B, is_daemon_call e = false) := by
  have hc := main_cleanup_quiet tp
  have hp := main_start_plugins_quiet env i_port
  have key : ∀ (B : List Event),
      B.all (fun e => !is_guard_call e && !is_daemon_call e && !is_bind_call e) = true →
      ∀ e ∈ B, is_guard_call e = false ∧ is_bind_call e = false ∧ is_daemon_call e = false := by
    intro B hB e he
    have := List.all_eq_true.mp hB e he
    simp only [Bool.and_eq_true, Bool.not_eq_true'] at this
    exact ⟨this.1.1, this.2, this.1.2⟩
  have key2 : ∀ (B : List Event),
      B.all (fun e => !is_guard_call e && !is_bind_call e) = true →
      ∀ e ∈ B, is_guard_call e = false ∧ is_bind_call e = false := by
    intro B hB e he
    have := List.all_eq_true.mp hB e he
    simp only [Bool.and_eq_true, Bool.not_eq_true'] at this
    exact this
  unfold main_server
  simp only [hm, ne_eq, not_false_eq_true, if_true]
  generalize env.w.add_new_slapd_process _ g.slapd_exemode g.db2ldif_dump_replica
    g.skip_db_protect_check = a
  by_cases ha : a = -1
  · subst ha
    refine ⟨Event.slapi_log_err SLAPI_LOG_CRIT "main" :: (main_cleanup tp 1).2, -1, by simp,
      ?_, fun _ => ⟨by simp, ?_⟩⟩
    · intro e he
      have := key (Event.slapi_log_err SLAPI_LOG_CRIT "main" :: (main_cleanup tp 1).2)
        (by simp only [List.all_cons, hc]; rfl) e he
      exact ⟨this.1, this.2.1⟩
    · intro e he
      exact (key (Event.slapi_log_err SLAPI_LOG_CRIT "main" :: (main_cleanup tp 1).2)
        (by simp only [List.all_cons, hc]; rfl) e he).2.2
  · have ha2 : (a == -1) = false := by simpa using ha
    simp only [ha2, Bool.false_eq_true, if_false]
    have hc2 : ∀ rv, (main_cleanup tp rv).2.all
        (fun e => !is_guard_call e && !is_bind_call e) = true := by
      intro rv
      cases tp <;> rfl
    have hp2 : (main_start_plugins env i_port).2.all
        (fun e => !is_guard_call e && !is_bind_call e) = true := by
      rw [List.all_eq_true]
      intro e he
      have := key _ hp e he
      simp [this.1, this.2.1]
    split_ifs
    all_goals
      refine ⟨_, a, by simp only [List.append_assoc, List.cons_append, List.nil_append,
        List.singleton_append]; rfl, ?_, fun h => absurd h ha⟩
      apply key2
      simp only [List.all_append, List.all_cons, hc2, hp2, Bool.and_true, Bool.true_and]
      rfl

/-- In Server mode, the statements of `main` from the call of `detach` either
end with the result 1 without a call of the process registry or an entry into
the daemon loop, or continue with the statements after the `switch`, before
which neither is recorded. -/
theorem main_run_server (k : Consts) (env : MainEnv) (g : Globals) (i_port : Int)
    (hist : List Event) (hm : g.slapd_exemode = SLAPD_EXEMODE_SLAPD) :
    ((main_run k env g i_port hist).1 = .ret 1 ∧
      ∀ e ∈ (main_run k env g i_port hist).2,
        is_guard_call e = false ∧ is_daemon_call e = false) ∨
    (∃ P tp, (∀ e ∈ P, is_guard_call e = false ∧ is_daemon_call e = false) ∧
      main_run k env g i_port hist = after P (main_server env g i_port tp (hist ++ P))) := by
  have hq : ∀ (l : List Event), l.all (fun e => !is_guard_call e && !is_daemon_call e) = true →
      ∀ e ∈ l, is_guard_call e = false ∧ is_daemon_call e = false := by
    intro l hl e he
    have := List.all_eq_true.mp hl e he
    simpa only [Bool.and_eq_true, Bool.not_eq_true'] using this
  have hc : ∀ tp rv, (main_cleanup tp rv).2.all
      (fun e => !is_guard_call e && !is_daemon_call e) = true := by
    intro tp rv
    cases tp <;> rfl
  have hn : (main_create_ns env.enable_nunc_stans env.ns_thrpool_new_ok false).2.2.all
      (fun e => !is_guard_call e && !is_daemon_call e) = true := by
    unfold main_create_ns
    split <;> rfl
  by_cases hd : env.detach = 0
  · unfold main_run
    simp only [hd, bne_self_eq_false, Bool.false_eq_true, if_false, hm]
    by_cases hr : env.access_rundir = 0
    · right
      simp only [hr, bne_self_eq_false, Bool.false_eq_true, if_false]
      refine ⟨_, _, ?_, rfl⟩
      apply hq
      simp only [List.all_append, hn, Bool.and_true, Bool.true_and]
      rfl
    · left
      have hr2 : (env.access_rundir != 0) = true := by simpa using hr
      simp only [hr2, if_true, after]
      refine ⟨rfl, ?_⟩
      apply hq
      simp only [List.all_append, hn, hc, Bool.and_true, Bool.true_and]
      rfl
  · left
    rw [main_run_no_detach k env g i_port hist hd]
    refine ⟨rfl, ?_⟩
    apply hq
    simp only [List.all_cons, hc, Bool.and_true]
    rfl

/-- The course of `main` in Server mode, as far as the process registry is
concerned: the registry is not called and the daemon loop not entered; or the
trace is made of calls that include a binding step that returned 0 and the
call of `main_setuid`, then the one call of the process registry, then calls
none of which is a binding step. -/
theorem main_server_mode_shape (k : Consts) (env : MainEnv) (g : Globals)
    (hg : env.process_command_line = some g) (hm : g.slapd_exemode = SLAPD_EXEMODE_SLAPD) :
    (∀ e ∈ (main k env).2, is_guard_call e = false ∧ is_daemon_call e = false) ∨
    (∃ Q B r,
      (main k env).2 = Q ++ Event.add_new_slapd_process SLAPD_EXEMODE_SLAPD
        g.db2ldif_dump_replica g.skip_db_protect_check r :: B ∧
      (∀ e ∈ Q, is_guard_call e = false ∧ is_daemon_call e = false) ∧
      Event.daemon_pre_setuid_init 0 ∈ Q ∧ Event.call "main_setuid" ∈ Q ∧
      (∀ e ∈ B, is_guard_call e = false ∧ is_bind_call e = false) ∧
      (r = -1 → (main k env).1 = .ret 1 ∧ ∀ e ∈ B, is_daemon_call e = false)) := by
  rcases main_cases k env g hg with ⟨_, hT⟩ | ⟨E, i, hE, hsu, hbind, hmain⟩
  · left
    intro e he
    have := startup_unguarded e (hT e he)
    exact ⟨this.1, this.2.1⟩
  · have hE2 : ∀ e ∈ E, is_guard_call e = false ∧ is_daemon_call e = false := by
      intro e he
      have := startup_unguarded e (hE e he)
      exact ⟨this.1, this.2.1⟩
    rw [hmain]
    rcases main_run_server k env g i E hm with ⟨_, hR⟩ | ⟨P, tp, hP, hrun⟩
    · left
      intro e he
      simp only [after] at he
      rcases List.mem_append.mp he with h | h
      · exact hE2 e h
      · exact hR e h
    · right
      rw [hrun]
      have hne : g.slapd_exemode ≠ SLAPD_EXEMODE_REFERRAL := by
        rw [hm]
        decide
      obtain ⟨B, r, hS, hB, href⟩ := main_server_guarded env g i tp (E ++ P) hne
      rw [hm] at hS
      refine ⟨E ++ P ++ [Event.call "ndn_cache_init", Event.call "global_backend_lock_init",
        Event.call "write_start_pid_file"], B, r, ?_, ?_, ?_, ?_, hB, ?_⟩
      · simp only [after, hS, List.append_assoc]
      · intro e he
        rcases List.mem_append.mp he with h | h
        · rcases List.mem_append.mp h with h | h
          · exact hE2 e h
          · exact hP e h
        · simp only [List.mem_cons, List.not_mem_nil, or_false] at h
          rcases h with h | h | h <;> subst h <;> exact ⟨rfl, rfl⟩
      · have := hbind (Or.inl hm)
        simp [this]
      · simp [hsu]
      · intro hr
        exact ⟨(href hr).1, (href hr).2⟩

/-- C12, as stated, fails: in Server mode with a registry that refuses, the one
call of `add_new_slapd_process` comes after the binding step
`daemon_pre_setuid_init` has returned 0, so that `main` returns 1 with the
listeners bound; and when the run directory cannot be accessed `main` returns
without having called `add_new_slapd_process` at all. -/
theorem guard_follows_binding :
    (∃ a b, (main exampleConsts conflictEnv).2 =
        a ++ Event.add_new_slapd_process SLAPD_EXEMODE_SLAPD 0 0 (-1) :: b ∧
      Event.daemon_pre_setuid_init 0 ∈ a ∧
      (∀ e ∈ a, is_guard_call e = false) ∧ (∀ e ∈ b, is_bind_call e = false)) ∧
    (main exampleConsts conflictEnv).1 = .ret 1 ∧
    (main exampleConsts noRundirEnv).2.filter is_guard_call = [] ∧
    (main exampleConsts noRundirEnv).1 = .ret 1 := by
  refine ⟨⟨(main exampleConsts conflictEnv).2.takeWhile (fun e => !is_guard_call e),
    ((main exampleConsts conflictEnv).2.dropWhile (fun e => !is_guard_call e)).tail,
    by decide, by decide, by decide, by decide⟩, by decide, by decide, by decide⟩

/-- C12, amended. On every execution of `main` in Server mode:
`add_new_slapd_process` is called at most once; wherever it is called, the
binding step `daemon_pre_setuid_init` has returned 0 and `main_setuid` has been
called before, and no binding step follows; when it refuses (-1), `main`
returns 1 and the daemon loop is not entered; and wherever the daemon loop is
entered, a call of `add_new_slapd_process` with the mode and the settings of
the command line that did not refuse precedes. -/
theorem guard_after_binding (k : Consts) (env : MainEnv) (g : Globals)
    (hg : env.process_command_line = some g) (hm : g.slapd_exemode = SLAPD_EXEMODE_SLAPD) :
    ((main k env).2.filter is_guard_call).length ≤ 1 ∧
    (∀ a b e, is_guard_call e = true → (main k env).2 = a ++ e :: b →
      Event.daemon_pre_setuid_init 0 ∈ a ∧ Event.call "main_setuid" ∈ a ∧
        ∀ x ∈ b, is_bind_call x = false) ∧
    (∀ m d s, Event.add_new_slapd_process m d s (-1) ∈ (main k env).2 →
      (main k env).1 = .ret 1 ∧ ∀ e ∈ (main k env).2, is_daemon_call e = false) ∧
    (∀ a b tp, (main k env).2 = a ++ Event.slapd_daemon tp :: b →
      ∃ r, r ≠ -1 ∧ Event.add_new_slapd_process SLAPD_EXEMODE_SLAPD g.db2ldif_dump_replica
        g.skip_db_protect_check r ∈ a) := by
  rcases main_server_mode_shape k env g hg hm with hN | ⟨Q, B, r, hT, hQ, hbind, hsu, hB, href⟩
  · -- neither the registry nor the daemon loop is reached
    refine ⟨?_, ?_, ?_, ?_⟩
    · have : (main k env).2.filter is_guard_call = [] := by
        rw [List.filter_eq_nil_iff]
        intro e he
        simp [(hN e he).1]
      simp [this]
    · intro a b e he hab
      have := (hN e (by rw [hab]; simp)).1
      rw [he] at this
      exact absurd this (by simp)
    · intro m d s hin
      exact absurd (hN _ hin).1 (by simp [is_guard_call])
    · intro a b tp hab
      exact absurd (hN (Event.slapd_daemon tp) (by rw [hab]; simp)).2 (by simp [is_daemon_call])
  · have hQg : Q.filter is_guard_call = [] := by
      rw [List.filter_eq_nil_iff]
      intro e he
      simp [(hQ e he).1]
    have hBg : B.filter is_guard_call = [] := by
      rw [List.filter_eq_nil_iff]
      intro e he
      simp [(hB e he).1]
    rw [hT]
    refine ⟨?_, ?_, ?_, ?_⟩
    · simp [List.filter_append, List.filter_cons, hQg, hBg, is_guard_call]
    · intro a b e he hab
      obtain ⟨c, hc1, hc2⟩ := split_after_part is_guard_call Q _ a b e
        (fun y hy => (hQ y hy).1) he hab
      cases c with
      | nil =>
        simp only [List.nil_append, List.cons.injEq] at hc2
        rw [hc1, ← hc2.2]
        exact ⟨by simp [hbind], by simp [hsu], fun x hx => (hB x hx).2⟩
      | cons y c1 =>
        simp only [List.cons_append, List.cons.injEq] at hc2
        have := (hB e (by rw [hc2.2]; simp)).1
        rw [he] at this
        exact absurd this (by simp)
    · intro m d s hin
      have hr : r = -1 := by
        rcases List.mem_append.mp hin with h | h
        · exact absurd (hQ _ h).1 (by simp [is_guard_call])
        · rcases List.mem_cons.mp h with h | h
          · simp only [Event.add_new_slapd_process.injEq] at h
            exact h.2.2.2.symm
          · exact absurd (hB _ h).1 (by simp [is_guard_call])
      refine ⟨(href hr).1, ?_⟩
      intro e he
      rcases List.mem_append.mp he with h | h
      · exact (hQ e h).2
      · rcases List.mem_cons.mp h with h | h
        · subst h; rfl
        · exact (href hr).2 e h
    · intro a b tp hab
      obtain ⟨c, hc1, hc2⟩ := split_after_part is_daemon_call Q _ a b (Event.slapd_daemon tp)
        (fun y hy => (hQ y hy).2) rfl hab
      cases c with
      | nil =>
        simp only [List.nil_append, List.cons.injEq] at hc2
        exact absurd hc2.1 (by simp)
      | cons y c1 =>
        simp only [List.cons_append, List.cons.injEq] at hc2
        refine ⟨r, ?_, ?_⟩
        · intro hr
          have := (href hr).2 (Event.slapd_daemon tp) (by rw [hc2.2]; simp)
          exact absurd this (by simp [is_daemon_call])
        · rw [hc1, ← hc2.1]
          simp

/-- Witness of C12 amended: in the server environment of Server mode the
daemon loop is entered after a call of `add_new_slapd_process` that returned
0, itself made after the binding step; with a registry that refuses, `main`
returns 1 and does not enter the daemon loop. -/
theorem guard_after_binding_witness :
    (serverEnv SLAPD_EXEMODE_SLAPD).process_command_line =
      some (modeSettings SLAPD_EXEMODE_SLAPD) ∧
    (modeSettings SLAPD_EXEMODE_SLAPD).slapd_exemode = SLAPD_EXEMODE_SLAPD ∧
    ((main exampleConsts (serverEnv SLAPD_EXEMODE_SLAPD)).2.filter is_guard_call).length ≤ 1 ∧
    Event.slapd_daemon true ∈ (main exampleConsts (serverEnv SLAPD_EXEMODE_SLAPD)).2 ∧
    (∀ a b e, is_guard_call e = true →
      (main exampleConsts (serverEnv SLAPD_EXEMODE_SLAPD)).2 = a ++ e :: b →
      Event.daemon_pre_setuid_init 0 ∈ a ∧ Event.call "main_setuid" ∈ a ∧
        ∀ x ∈ b, is_bind_call x = false) ∧
    Event.add_new_slapd_process SLAPD_EXEMODE_SLAPD 0 0 (-1) ∈ (main exampleConsts conflictEnv).2 ∧
    (main exampleConsts conflictEnv).1 = .ret 1 ∧
    (∀ e ∈ (main exampleConsts conflictEnv).2, is_daemon_call e = false) := by
  have h1 := guard_after_binding exampleConsts (serverEnv SLAPD_EXEMODE_SLAPD)
    (modeSettings SLAPD_EXEMODE_SLAPD) rfl rfl
  have h2 := guard_after_binding exampleConsts conflictEnv
    (modeSettings SLAPD_EXEMODE_SLAPD) rfl rfl
  have hin : Event.add_new_slapd_process SLAPD_EXEMODE_SLAPD 0 0 (-1) ∈
      (main exampleConsts conflictEnv).2 := by decide
  exact ⟨rfl, rfl, h1.1, by decide, h1.2.1, hin, (h2.2.2.1 _ _ _ hin).1,
    (h2.2.2.1 _ _ _ hin).2⟩
/-! ## Theorems: mode vocabulary, identity drop, resolver (continued) -/

/-- C22 (mode vocabulary). `name2exemode` maps the eleven tokens to eleven
modes that are pairwise distinct and none of which is
`SLAPD_EXEMODE_UNKNOWN`, printing nothing; for every other string it prints
the usage line and exits with code 1 when `exit_if_unknown` is non-zero, and
returns `SLAPD_EXEMODE_UNKNOWN` when it is zero. -/
theorem name2exemode_vocabulary (progname : String) (exit_if_unknown : Int) :
    mode_tokens.map (fun s => name2exemode progname s exit_if_unknown) =
      [ (.returned SLAPD_EXEMODE_LDIF2DB, []), (.returned SLAPD_EXEMODE_DB2LDIF, []),
        (.returned SLAPD_EXEMODE_ARCHIVE2DB, []), (.returned SLAPD_EXEMODE_DB2ARCHIVE, []),
        (.returned SLAPD_EXEMODE_SLAPD, []), (.returned SLAPD_EXEMODE_DB2INDEX, []),
        (.returned SLAPD_EXEMODE_REFERRAL, []), (.returned SLAPD_EXEMODE_SUFFIX2INSTANCE, []),
        (.returned SLAPD_EXEMODE_UPGRADEDB, []), (.returned SLAPD_EXEMODE_UPGRADEDNFORMAT, []),
        (.returned SLAPD_EXEMODE_DBVERIFY, []) ] ∧
    (mode_tokens.map (fun s => (name2exemode progname s exit_if_unknown).1)).Nodup ∧
    ModeResult.returned SLAPD_EXEMODE_UNKNOWN ∉
      mode_tokens.map (fun s => (name2exemode progname s exit_if_unknown).1) ∧
    (∀ s, s ∉ mode_tokens →
      (exit_if_unknown ≠ 0 →
        (name2exemode progname s exit_if_unknown).1 = .exited 1 ∧
        ∃ text, (name2exemode progname s exit_if_unknown).2 = [Event.fprintf_stderr text]) ∧
      (exit_if_unknown = 0 →
        name2exemode progname s exit_if_unknown = (.returned SLAPD_EXEMODE_UNKNOWN, []))) := by
  have hmap : mode_tokens.map (fun s => name2exemode progname s exit_if_unknown) =
      [ (.returned SLAPD_EXEMODE_LDIF2DB, []), (.returned SLAPD_EXEMODE_DB2LDIF, []),
        (.returned SLAPD_EXEMODE_ARCHIVE2DB, []), (.returned SLAPD_EXEMODE_DB2ARCHIVE, []),
        (.returned SLAPD_EXEMODE_SLAPD, []), (.returned SLAPD_EXEMODE_DB2INDEX, []),
        (.returned SLAPD_EXEMODE_REFERRAL, []), (.returned SLAPD_EXEMODE_SUFFIX2INSTANCE, []),
        (.returned SLAPD_EXEMODE_UPGRADEDB, []), (.returned SLAPD_EXEMODE_UPGRADEDNFORMAT, []),
        (.returned SLAPD_EXEMODE_DBVERIFY, []) ] := rfl
  have hfst : mode_tokens.map (fun s => (name2exemode progname s exit_if_unknown).1) =
      [ .returned SLAPD_EXEMODE_LDIF2DB, .returned SLAPD_EXEMODE_DB2LDIF,
        .returned SLAPD_EXEMODE_ARCHIVE2DB, .returned SLAPD_EXEMODE_DB2ARCHIVE,
        .returned SLAPD_EXEMODE_SLAPD, .returned SLAPD_EXEMODE_DB2INDEX,
        .returned SLAPD_EXEMODE_REFERRAL, .returned SLAPD_EXEMODE_SUFFIX2INSTANCE,
        .returned SLAPD_EXEMODE_UPGRADEDB, .returned SLAPD_EXEMODE_UPGRADEDNFORMAT,
        .returned SLAPD_EXEMODE_DBVERIFY ] := rfl
  refine ⟨hmap, ?_, ?_, ?_⟩
  · rw [hfst]
    decide
  · rw [hfst]
    decide
  · intro s hs
    simp only [mode_tokens, List.mem_cons, List.not_mem_nil, or_false, not_or] at hs
    obtain ⟨h1, h2, h3, h4, h5, h6, h7, h8, h9, h10, h11⟩ := hs
    constructor
    · intro he
      have he2 : (exit_if_unknown != 0) = true := by simpa using he
      simp only [name2exemode, h1, h2, h3, h4, h5, h6, h7, h8, h9, h10, h11, if_false, he2,
        if_true]
      exact ⟨trivial, _, rfl⟩
    · intro he
      simp [name2exemode, h1, h2, h3, h4, h5, h6, h7, h8, h9, h10, h11, he]

/-- Witness of C22: the match is exact and case-sensitive, so `Server` and
`db2ldif ` are not tokens: with `exit_if_unknown` set the process exits with
code 1, without it the result is `SLAPD_EXEMODE_UNKNOWN`. -/
theorem name2exemode_vocabulary_witness :
    "Server" ∉ mode_tokens ∧ (1 : Int) ≠ 0 ∧
    (name2exemode "ns-slapd" "Server" 1).1 = .exited 1 ∧
    name2exemode "ns-slapd" "ns-slapd" 0 = (.returned SLAPD_EXEMODE_UNKNOWN, []) ∧
    name2exemode "ns-slapd" "db2ldif " 0 = (.returned SLAPD_EXEMODE_UNKNOWN, []) := by
  have h := name2exemode_vocabulary "ns-slapd" 1
  have h0 := name2exemode_vocabulary "ns-slapd" 0
  exact ⟨by decide, by decide, ((h.2.2.2 "Server" (by decide)).1 (by decide)).1,
    (h0.2.2.2 "ns-slapd" (by decide)).2 rfl, (h0.2.2.2 "db2ldif " (by decide)).2 rfl⟩

/-- C25 (null username). `main_setuid` called with a NULL user name returns 0,
leaves the configuration as it is and makes no call at all: no ownership
change, no account lookup, no `setgid`, no `setuid`. -/
theorem main_setuid_null_username (k : Consts) (os : Os) (cfg : FrontendConfig) :
    (main_setuid k os cfg none).rc = 0 ∧
    (main_setuid k os cfg none).cfg = cfg ∧
    (main_setuid k os cfg none).trace = [] :=
  ⟨rfl, rfl, rfl⟩

theorem comma_tails_length (l : List Char) : (comma_tails l).length = l.count ',' := by
  induction l with
  | nil => rfl
  | cons c cs ih =>
    by_cases h : c = ','
    · subst h
      simp [comma_tails, ih]
    · have hne : (c == ',') = false := by simpa using h
      simp [comma_tails, h, ih, List.count_cons, hne]

/-- The walk searches at most one string more than `suffixp` has commas, and
every string it searched before the last one answered with success and no
entry. -/
theorem hierarchy_walk_bound (mt : MappingTree) :
    ∀ (fuel : Nat) (s : String) (rv : Int) (es : List Slapi_Entry),
      (hierarchy_walk mt fuel (some s) rv es).2.length ≤ s.toList.count ',' + 1 ∧
      (∀ x ∈ (hierarchy_walk mt fuel (some s) rv es).2.dropLast,
        ∃ q, mt.slapi_filter_sprintf false x = some q ∧
          (mt.slapi_search_internal q).rc = LDAP_SUCCESS ∧
          (mt.slapi_search_internal q).entries = []) ∧
      (∀ x ∈ (hierarchy_walk mt fuel (some s) rv es).2, x.length ≤ s.length ∧ x.length ≠ 0) ∧
      (hierarchy_walk mt fuel (some s) rv es).2 <+: ancestors s := by
  intro fuel
  induction fuel with
  | zero =>
    intro s rv es
    simp [hierarchy_walk]
  | succ n ih =>
    intro s rv es
    simp only [hierarchy_walk]
    by_cases h0 : s.length = 0
    · simp [h0]
    · simp only [h0, if_false]
      have hanc := ancestors_unfold s
      rw [if_neg h0] at hanc
      cases hq : mt.slapi_filter_sprintf false s with
      | none => simp
      | some q =>
        simp only []
        by_cases hrc : (mt.slapi_search_internal q).rc = LDAP_SUCCESS
        · simp only [hrc, bne_self_eq_false, Bool.false_eq_true, if_false]
          by_cases he : (mt.slapi_search_internal q).entries.isEmpty = true
          · simp only [he, if_true]
            have he2 : (mt.slapi_search_internal q).entries = [] := by simpa using he
            cases hp : parent_dn s with
            | none =>
              rw [hierarchy_walk_none]
              simp [h0, hanc, hp]
            | some p =>
              have hps := parent_dn_some hp
              have hcount : p.toList.count ',' + 1 = s.toList.count ',' := by
                rw [← comma_tails_length, ← comma_tails_length, hps.1]
                simp
              obtain ⟨ih1, ih2, ih3, ih4⟩ :=
                ih p LDAP_SUCCESS (mt.slapi_search_internal q).entries
              refine ⟨?_, ?_, ?_, ?_⟩
              · simp only [List.length_cons]
                omega
              · intro x hx
                cases hrest : (hierarchy_walk mt n (some p) LDAP_SUCCESS
                    (mt.slapi_search_internal q).entries).2 with
                | nil =>
                  rw [hrest] at hx
                  simp at hx
                | cons y ys =>
                  rw [hrest] at hx ih2
                  rw [List.dropLast_cons₂] at hx
                  rcases List.mem_cons.mp hx with h | h
                  · subst h
                    exact ⟨q, hq, hrc, he2⟩
                  · exact ih2 x h
              · intro x hx
                rcases List.mem_cons.mp hx with h | h
                · subst h
                  exact ⟨le_refl _, h0⟩
                · have := ih3 x h
                  exact ⟨by omega, this.2⟩
              · rw [hanc, hp]
                exact (List.prefix_cons_inj s).mpr ih4
          · simp only [he, if_false]
            simp [h0, hanc]
        · have hrc2 : ((mt.slapi_search_internal q).rc != LDAP_SUCCESS) = true := by
            simpa using hrc
          simp only [hrc2, if_true]
          simp [h0, hanc]

/-- C28 (the hierarchy walk terminates). For every suffix and every
configuration: the loop model gives the same result for every bound above the
length of the suffix, so it never stops for lack of iterations; it issues at
most one search more than the suffix has commas; the searched strings are, in
order, the suffix and its successive texts after a comma, each non-empty and
no longer than the suffix; every search before the last one succeeded without
finding an entry; and when the loop ends without entries, the function returns
0 and adds no instance. -/
theorem hierarchy_walk_terminates (mt : MappingTree) (suffix : String)
    (suffixes : Option (List (Option String))) (instances : List String) :
    (∀ fuel, suffix.length < fuel →
      hierarchy_walk mt fuel (some suffix) (-1) [] = search_part mt suffix false) ∧
    (search_part mt suffix false).2.length ≤ suffix.toList.count ',' + 1 ∧
    (search_part mt suffix false).2 <+: ancestors suffix ∧
    (∀ x ∈ (search_part mt suffix false).2, x.length ≤ suffix.length ∧ x.length ≠ 0) ∧
    (∀ x ∈ (search_part mt suffix false).2.dropLast,
      ∃ q, mt.slapi_filter_sprintf false x = some q ∧
        (mt.slapi_search_internal q).rc = LDAP_SUCCESS ∧
        (mt.slapi_search_internal q).entries = []) ∧
    ((search_part mt suffix false).1 = .fallThrough [] →
      lookup_instance_name_by_suffix mt suffix suffixes instances false =
        { rval := 0, suffixes := suffixes, instances := instances }) := by
  have hb := hierarchy_walk_bound mt (suffix.length + 1) suffix (-1) []
  refine ⟨?_, ?_, ?_, ?_, ?_, ?_⟩
  · intro fuel hf
    simp only [search_part, Bool.false_eq_true, if_false]
    exact hierarchy_walk_fuel mt fuel (suffix.length + 1) suffix (-1) [] hf (by omega)
  · simpa [search_part] using hb.1
  · simpa [search_part] using hb.2.2.2
  · simpa [search_part] using hb.2.2.1
  · simpa [search_part] using hb.2.1
  · intro h
    simp [lookup_instance_name_by_suffix, h, collect_backends]

/-- Witness of C28: in the example configuration the walk for `o=none,o=top`,
which has one comma and no mapping entry, issues two searches and ends without
entries; the lookup returns 0 and leaves the instance array as it was. -/
theorem hierarchy_walk_terminates_witness :
    (search_part exampleTree "o=none,o=top" false).1 = .fallThrough [] ∧
    (search_part exampleTree "o=none,o=top" false).2 = ["o=none,o=top", "o=top"] ∧
    lookup_instance_name_by_suffix exampleTree "o=none,o=top" none ["userRoot"] false =
      { rval := 0, suffixes := none, instances := ["userRoot"] } := by
  have h := hierarchy_walk_terminates exampleTree "o=none,o=top" none ["userRoot"]
  have h1 : (search_part exampleTree "o=none,o=top" false).1 = .fallThrough [] := by decide
  exact ⟨h1, by decide, h.2.2.2.2.2 h1⟩

/-! ## Theorems: ownership fixing -/

theorem strrchr_split_some {s : String} {c : Char} {d b : String}
    (h : strrchr_split s c = some (d, b)) :
    s = d ++ String.singleton c ++ b ∧ c ∉ b.toList := by
  unfold strrchr_split at h
  have hsplit := List.takeWhile_append_dropWhile (fun x => x != c) s.toList.reverse
  split at h
  · simp at h
  · next x before heq =>
    simp only [Option.some.injEq, Prod.mk.injEq] at h
    obtain ⟨hd, hb⟩ := h
    have hx : x = c := by
      have := List.head_dropWhile_not (fun x => x != c) s.toList.reverse
        (by rw [heq]; simp)
      simp only [heq, List.head_cons] at this
      simpa using this
    subst hx
    rw [heq] at hsplit
    constructor
    · apply String.ext
      have : s.data =
          (List.takeWhile (fun y => y != x) s.toList.reverse ++ x :: before).reverse := by
        rw [hsplit]; simp
      rw [this, ← hd, ← hb]
      simp [String.data_append]
    · rw [← hb]
      simp only [String.toList]
      intro hmem
      have := List.mem_takeWhile_imp (List.mem_reverse.mp hmem)
      simp at this

theorem strrchr_split_none {s : String} {c : Char} (h : c ∉ s.toList) :
    strrchr_split s c = none := by
  unfold strrchr_split
  have : s.toList.reverse.dropWhile (fun x => x != c) = [] := by
    rw [List.dropWhile_eq_nil_iff]
    intro x hx
    have hx2 : x ∈ s.toList := List.mem_reverse.mp hx
    have : x ≠ c := fun hxc => h (hxc ▸ hx2)
    simpa using this
  rw [this]

theorem strrchr_split_append (d b : String) (c : Char) (h : c ∉ b.toList) :
    strrchr_split (d ++ String.singleton c ++ b) c = some (d, b) := by
  unfold strrchr_split
  have hrev : (d ++ String.singleton c ++ b).toList.reverse =
      b.toList.reverse ++ c :: d.toList.reverse := by
    simp [String.toList, String.data_append]
  have hb : ∀ x ∈ b.toList.reverse, (fun x => x != c) x = true := by
    intro x hx
    have hx2 : x ∈ b.toList := List.mem_reverse.mp hx
    have : x ≠ c := fun hxc => h (hxc ▸ hx2)
    simpa using this
  rw [hrev, List.dropWhile_append_of_pos hb, List.takeWhile_append_of_pos hb]
  simp [List.dropWhile, List.takeWhile]

theorem chown_and_log_attempts (os : Os) (file : String) (uid gid : Int) :
    chown_attempts (chown_and_log os file uid gid) = [(file, uid, gid)] ∧
    opened_dirs (chown_and_log os file uid gid) = [] := by
  unfold chown_and_log
  simp only []
  split_ifs <;> exact ⟨rfl, rfl⟩

theorem chown_attempts_append (a b : List Event) :
    chown_attempts (a ++ b) = chown_attempts a ++ chown_attempts b := by
  simp [chown_attempts, List.filterMap_append]

theorem opened_dirs_append (a b : List Event) :
    opened_dirs (a ++ b) = opened_dirs a ++ opened_dirs b := by
  simp [opened_dirs, List.filterMap_append]

theorem scan_entries_attempts (os : Os) (f : String → String) (uid gid : Int) :
    ∀ entries : List String,
      chown_attempts (entries.flatMap (fun entry => chown_and_log os (f entry) uid gid)) =
        entries.map (fun entry => (f entry, uid, gid)) ∧
      opened_dirs (entries.flatMap (fun entry => chown_and_log os (f entry) uid gid)) = [] := by
  intro entries
  induction entries with
  | nil => exact ⟨rfl, rfl⟩
  | cons e es ih =>
    have h := chown_and_log_attempts os (f e) uid gid
    simp only [List.flatMap_cons, chown_attempts_append, opened_dirs_append, h.1, h.2, ih.1,
      ih.2, List.map_cons]
    exact ⟨rfl, rfl⟩

/-- The directory scan that ends `chown_dir_files`, after the calls `pre`
(which open no directory): it opens `log` and attempts every entry. -/
theorem chown_scan_attempts (k : Consts) (os : Os) (log : String) (pw : passwd) (both : Bool)
    (pre : List Event) (hpre : opened_dirs pre = []) (hpre2 : chown_attempts pre = []) :
    chown_attempts
        (match os.PR_OpenDir log with
        | none => pre ++ [Event.PR_OpenDir log false]
        | some entries =>
          pre ++ [Event.PR_OpenDir log true] ++
            entries.flatMap (fun entry =>
              chown_and_log os ((log ++ "/" ++ entry).take k.MAXPATHLEN) pw.pw_uid
                (if both then pw.pw_gid else -1)) ++
            [Event.PR_CloseDir]) = scan_attempts k os log pw both ∧
    opened_dirs
        (match os.PR_OpenDir log with
        | none => pre ++ [Event.PR_OpenDir log false]
        | some entries =>
          pre ++ [Event.PR_OpenDir log true] ++
            entries.flatMap (fun entry =>
              chown_and_log os ((log ++ "/" ++ entry).take k.MAXPATHLEN) pw.pw_uid
                (if both then pw.pw_gid else -1)) ++
            [Event.PR_CloseDir]) = [log] := by
  unfold scan_attempts
  cases os.PR_OpenDir log with
  | none =>
    simp only [chown_attempts_append, opened_dirs_append, hpre, hpre2]
    exact ⟨rfl, rfl⟩
  | some entries =>
    have h := scan_entries_attempts os (fun entry => (log ++ "/" ++ entry).take k.MAXPATHLEN)
      pw.pw_uid (if both then pw.pw_gid else -1) entries
    simp only [chown_attempts_append, opened_dirs_append, hpre, hpre2, h.1, h.2]
    exact ⟨by simp [chown_attempts], by simp [opened_dirs]⟩

/-- What `chown_dir_files` attempts and which directory it opens, as a
function of the path alone: the results of the ownership changes play no
part. -/
theorem chown_dir_files_attempts (k : Consts) (os : Os) (name : String) (pw : passwd)
    (strip_fn both : Bool) :
    chown_attempts (chown_dir_files k os name pw strip_fn both) =
      path_attempts k os (some name) pw strip_fn both ∧
    opened_dirs (chown_dir_files k os name pw strip_fn both) =
      (if strip_fn then
        match strrchr_split name '/' with
        | none => []
        | some (dir, _) => [if dir.length = 0 then "/" else dir]
      else [name]) := by
  unfold chown_dir_files path_attempts
  cases strip_fn with
  | false =>
    simp only [Bool.false_eq_true, if_false]
    exact chown_scan_attempts k os name pw both [] rfl rfl
  | true =>
    simp only [if_true]
    cases hs : strrchr_split name '/' with
    | none =>
      have h := chown_and_log_attempts os name pw.pw_uid (-1)
      simp only [if_true]
      constructor
      · show chown_attempts ([Event.slapi_log_err SLAPI_LOG_ERR "chown_dir_files"] ++
          chown_and_log os name pw.pw_uid (-1)) = _
        rw [chown_attempts_append, h.1]
        rfl
      · show opened_dirs ([Event.slapi_log_err SLAPI_LOG_ERR "chown_dir_files"] ++
          chown_and_log os name pw.pw_uid (-1)) = _
        rw [opened_dirs_append, h.2]
        rfl
    | some db =>
      obtain ⟨dir, base⟩ := db
      simp only []
      by_cases hd : dir.length = 0
      · simp only [hd, if_true, Bool.false_eq_true, if_false]
        exact chown_scan_attempts k os "/" pw both
          [Event.slapi_log_err SLAPI_LOG_ERR "chown_dir_files"] rfl rfl
      · simp only [hd, if_false, Bool.false_eq_true]
        exact chown_scan_attempts k os dir pw both [] rfl rfl

/-- C27 (the four path cases of `chown_dir_files`). Without `strip_fn` the
directory opened is the path itself. With `strip_fn`: for a path `dir/base`
whose last `/` is not its first character the directory opened is `dir`; for a
path `/base` it is `/`; for a path without `/` no directory is opened and the
one ownership change attempted is that of the named file, with the user id
and the group id -1. In a directory that is opened, every entry has its owner
changed, with the group id of the account exactly when `both` is set, and -1
otherwise. -/
theorem chown_dir_files_four_cases (k : Consts) (os : Os) (pw : passwd) (both : Bool)
    (dir base : String) (hbase : '/' ∉ base.toList) (hdir : dir ≠ "") :
    (opened_dirs (chown_dir_files k os (dir ++ "/" ++ base) pw false both) =
        [dir ++ "/" ++ base] ∧
      chown_attempts (chown_dir_files k os (dir ++ "/" ++ base) pw false both) =
        scan_attempts k os (dir ++ "/" ++ base) pw both) ∧
    (opened_dirs (chown_dir_files k os (dir ++ "/" ++ base) pw true both) = [dir] ∧
      chown_attempts (chown_dir_files k os (dir ++ "/" ++ base) pw true both) =
        scan_attempts k os dir pw both) ∧
    (opened_dirs (chown_dir_files k os ("/" ++ base) pw true both) = ["/"] ∧
      chown_attempts (chown_dir_files k os ("/" ++ base) pw true both) =
        scan_attempts k os "/" pw both) ∧
    (opened_dirs (chown_dir_files k os base pw true both) = [] ∧
      chown_attempts (chown_dir_files k os base pw true both) = [(base, pw.pw_uid, -1)]) ∧
    (∀ log entries, os.PR_OpenDir log = some entries →
      scan_attempts k os log pw both =
        entries.map (fun entry =>
          ((log ++ "/" ++ entry).take k.MAXPATHLEN, pw.pw_uid,
            if both then pw.pw_gid else -1))) := by
  have h1 := chown_dir_files_attempts k os (dir ++ "/" ++ base) pw false both
  have h2 := chown_dir_files_attempts k os (dir ++ "/" ++ base) pw true both
  have h3 := chown_dir_files_attempts k os ("/" ++ base) pw true both
  have h4 := chown_dir_files_attempts k os base pw true both
  have hs2 : strrchr_split (dir ++ "/" ++ base) '/' = some (dir, base) :=
    strrchr_split_append dir base '/' hbase
  have hs3 : strrchr_split ("/" ++ base) '/' = some ("", base) := by
    have := strrchr_split_append "" base '/' hbase
    simpa using this
  have hs4 : strrchr_split base '/' = none := strrchr_split_none hbase
  have hlen : dir.length ≠ 0 := by
    intro h
    apply hdir
    apply String.ext
    exact List.length_eq_zero.mp h
  refine ⟨⟨?_, ?_⟩, ⟨?_, ?_⟩, ⟨?_, ?_⟩, ⟨?_, ?_⟩, ?_⟩
  · simpa using h1.2
  · simpa [path_attempts] using h1.1
  · simpa [hs2, hlen] using h2.2
  · simpa [path_attempts, hs2, hlen] using h2.1
  · simpa [hs3] using h3.2
  · simpa [path_attempts, hs3] using h3.1
  · simpa [hs4] using h4.2
  · simpa [path_attempts, hs4] using h4.1
  · intro log entries h
    simp [scan_attempts, h]

/-- Witness of C27: the log path `/var/log/dirsrv/access` in a system where
`/var/log/dirsrv` holds three files; the directory opened is
`/var/log/dirsrv` and, `both` being set, each of the three files has user and
group changed; for the path `access` only that file is changed, user only. -/
theorem chown_dir_files_four_cases_witness :
    '/' ∉ "access".toList ∧ "/var/log/dirsrv" ≠ "" ∧
    opened_dirs (chown_dir_files exampleConsts failingChownOs "/var/log/dirsrv/access"
      { pw_name := "dirsrv", pw_uid := 389, pw_gid := 389 } true true) = ["/var/log/dirsrv"] ∧
    chown_attempts (chown_dir_files exampleConsts failingChownOs "/var/log/dirsrv/access"
      { pw_name := "dirsrv", pw_uid := 389, pw_gid := 389 } true true) =
      scan_attempts exampleConsts failingChownOs "/var/log/dirsrv"
        { pw_name := "dirsrv", pw_uid := 389, pw_gid := 389 } true ∧
    (scan_attempts exampleConsts failingChownOs "/var/log/dirsrv"
        { pw_name := "dirsrv", pw_uid := 389, pw_gid := 389 } true).map (fun a => a.2) =
      [(389, 389), (389, 389), (389, 389)] ∧
    chown_attempts (chown_dir_files exampleConsts failingChownOs "access"
      { pw_name := "dirsrv", pw_uid := 389, pw_gid := 389 } true true) =
      [("access", 389, -1)] := by
  have h := chown_dir_files_four_cases exampleConsts failingChownOs
    { pw_name := "dirsrv", pw_uid := 389, pw_gid := 389 } true "/var/log/dirsrv" "access"
    (by decide) (by decide)
  refine ⟨by decide, by decide, h.2.1.1, h.2.1.2, ?_, h.2.2.2.1.2⟩
  rw [h.2.2.2.2 "/var/log/dirsrv" ["access", "audit", "errors"] rfl]
  rfl

theorem chown_opt_attempts (k : Consts) (os : Os) (path : Option String) (pw : passwd)
    (strip_fn both : Bool) :
    chown_attempts (chown_opt k os path pw strip_fn both) =
      path_attempts k os path pw strip_fn both := by
  cases path with
  | none => rfl
  | some name => exact (chown_dir_files_attempts k os name pw strip_fn both).1

theorem fix_ownership_attempts (k : Consts) (os : Os) (cfg : FrontendConfig) :
    chown_attempts (fix_ownership k os cfg).2 = ownership_attempts k os cfg := by
  unfold fix_ownership ownership_attempts
  cases cfg.localuser with
  | none => rfl
  | some localuser =>
    simp only []
    cases cfg.localuserinfo with
    | some pw =>
      simp only [chown_attempts_append, chown_opt_attempts]
      rfl
    | none =>
      simp only []
      cases os.getpwnam localuser with
      | none => rfl
      | some pw =>
        simp only [chown_attempts_append, chown_opt_attempts]
        rfl

theorem main_setuid_rc (k : Consts) (os : Os) (cfg : FrontendConfig)
    (username : Option String) :
    (main_setuid k os cfg username).rc =
      match username with
      | none => 0
      | some name =>
        match os.getpwnam name with
        | none => 0
        | some pw =>
          if os.setgid pw.pw_gid != 0 then -1
          else if os.setuid pw.pw_uid != 0 then -1 else 0 := by
  unfold main_setuid
  cases username with
  | none => rfl
  | some name =>
    simp only []
    cases os.getpwnam name with
    | none => rfl
    | some pw =>
      simp only []
      split_ifs <;> rfl

/-- C24 (ownership fixing is best-effort). Whatever the ownership changes
return: `chown_dir_files` attempts the changes that the path alone determines,
one for every entry of the directory it opens; `fix_ownership` attempts those
of the configuration directory and then of the access, audit and error log
paths; and `main_setuid` returns what it returns when the ownership changes
return anything else, for instance 0 every time. -/
theorem ownership_fixing_best_effort (k : Consts) (os : Os)
    (chown : String → Int → Int → Int) (name : String) (pw : passwd) (strip_fn both : Bool)
    (cfg : FrontendConfig) (username : Option String) :
    chown_attempts (chown_dir_files k os name pw strip_fn both) =
      path_attempts k os (some name) pw strip_fn both ∧
    chown_attempts (chown_dir_files k (with_chown os chown) name pw strip_fn both) =
      chown_attempts (chown_dir_files k os name pw strip_fn both) ∧
    opened_dirs (chown_dir_files k (with_chown os chown) name pw strip_fn both) =
      opened_dirs (chown_dir_files k os name pw strip_fn both) ∧
    chown_attempts (fix_ownership k os cfg).2 = ownership_attempts k os cfg ∧
    chown_attempts (fix_ownership k (with_chown os chown) cfg).2 =
      chown_attempts (fix_ownership k os cfg).2 ∧
    (main_setuid k (with_chown os chown) cfg username).rc =
      (main_setuid k os cfg username).rc ∧
    identity_calls (main_setuid k (with_chown os chown) cfg username).trace =
      identity_calls (main_setuid k os cfg username).trace := by
  have h1 := chown_dir_files_attempts k os name pw strip_fn both
  have h2 := chown_dir_files_attempts k (with_chown os chown) name pw strip_fn both
  refine ⟨h1.1, ?_, ?_, fix_ownership_attempts k os cfg, ?_, ?_, ?_⟩
  · rw [h1.1, h2.1]
    rfl
  · rw [h1.2, h2.2]
  · rw [fix_ownership_attempts, fix_ownership_attempts]
    rfl
  · rw [main_setuid_rc, main_setuid_rc]
    rfl
  · have hf : ∀ o : Os, identity_calls (fix_ownership k o cfg).2 = [] :=
      fun o => fix_ownership_not_identity k o cfg
    unfold main_setuid
    cases username with
    | none => rfl
    | some uname =>
      simp only []
      show identity_calls (match os.getpwnam uname with
        | none => _
        | some pw => _ : SetuidResult).trace = _
      cases os.getpwnam uname with
      | none =>
        simp only [identity_calls, List.filter_append] at hf ⊢
        rw [hf, hf]
        try rfl
      | some p =>
        simp only []
        show identity_calls (if os.setgid p.pw_gid != 0 then _ else _ : SetuidResult).trace = _
        split_ifs <;> simp only [identity_calls, List.filter_append] at hf ⊢ <;>
          rw [hf, hf] <;> rfl

/-- Witness of C24: in a system where every ownership change fails, the nine
changes of the three log paths are attempted all the same, as they are when
every change succeeds, and `main_setuid` returns 0 in both systems. -/
theorem ownership_fixing_best_effort_witness :
    (chown_attempts (fix_ownership exampleConsts failingChownOs logsConfig).2).length = 9 ∧
    chown_attempts
        (fix_ownership exampleConsts (with_chown failingChownOs (fun _ _ _ => 0)) logsConfig).2 =
      chown_attempts (fix_ownership exampleConsts failingChownOs logsConfig).2 ∧
    (main_setuid exampleConsts failingChownOs logsConfig (some "dirsrv")).rc = 0 ∧
    (main_setuid exampleConsts (with_chown failingChownOs (fun _ _ _ => 0)) logsConfig
      (some "dirsrv")).rc = 0 := by
  have h := ownership_fixing_best_effort exampleConsts failingChownOs (fun _ _ _ => 0)
    "/var/log/dirsrv/access" { pw_name := "dirsrv", pw_uid := 389, pw_gid := 389 } true true
    logsConfig (some "dirsrv")
  have hrc : (main_setuid exampleConsts failingChownOs logsConfig (some "dirsrv")).rc = 0 := by
    decide
  exact ⟨by decide, h.2.2.2.2.1, hrc, h.2.2.2.2.2.1.trans hrc⟩

/-! ## Theorems: export file name -/

theorem exported_files_append (a b : List Event) :
    exported_files (a ++ b) = exported_files a ++ exported_files b := by
  simp [exported_files, List.filterMap_append]

theorem quiet_detach_no_file (k : Consts) (q : Int) (d : Nat) :
    exported_files (quiet_detach k q d).2 = [] := by
  unfold quiet_detach
  simp only []
  split_ifs <;> rfl

/-- Outside append mode the file name does not depend on the position of the
instance in the list, and the print key is left as it is. -/
theorem db2ldif_file_plain (k : Consts) (A I : String) (first : Bool) (printkey : Nat)
    (happ : printkey &&& k.EXPORT_APPENDMODE = 0) :
    db2ldif_file k A I first printkey = db2ldif_file k A I true printkey ∧
    (db2ldif_file k A I first printkey).2 = printkey := by
  unfold db2ldif_file
  simp only [happ, bne_self_eq_false, Bool.false_eq_true, if_false]
  constructor
  · trivial
  · split_ifs
    · split <;> rfl
    · rfl

/-- When no process conflicts, every remaining instance has a V2 plugin that
defines the export function, an output name is given and append mode is off,
the export loop passes to the backend, for each remaining instance in turn,
the file name made from the output name and that instance. -/
theorem db2ldif_loop_files (k : Consts) (w : TaskWorld) (g : Globals) (A : String)
    (harch : g.archive_name = some A)
    (ha : ∀ tr m d s, w.add_new_slapd_process tr m d s ≠ -1) :
    ∀ (names : List String),
      (∀ n ∈ names, ∃ p, lookup_plugin_by_instance_name w.pr n = some p ∧
        p.capabilities.contains Capability.plg_db2ldif = true ∧ p.is_v2 = true) →
      ∀ (first : Bool) (dbg pk : Nat) (rv : Int) (tr : List Event),
        pk &&& k.EXPORT_APPENDMODE = 0 →
        exported_files (db2ldif_loop k w g names first dbg pk rv tr).2 =
          exported_files tr ++ names.map (fun I => some (db2ldif_file k A I true pk).1) := by
  intro names
  induction names with
  | nil =>
    intro _ first dbg pk rv tr _
    simp only [db2ldif_loop]
    split <;> simp [exported_files_append, exported_files]
  | cons inst rest ih =>
    intro hp first dbg pk rv tr happ
    obtain ⟨p, hl, hc, hv⟩ := hp inst (List.mem_cons_self _ _)
    have hrest : ∀ n ∈ rest, ∃ p, lookup_plugin_by_instance_name w.pr n = some p ∧
        p.capabilities.contains Capability.plg_db2ldif = true ∧ p.is_v2 = true :=
      fun n hn => hp n (List.mem_cons_of_mem _ hn)
    have hqd := quiet_detach_no_file k g.is_quiet dbg
    have hf := db2ldif_file_plain k A inst first pk happ
    simp only [db2ldif_loop, hl, hc, hv, Bool.not_true, Bool.false_eq_true, if_false,
      beq_iff_eq, ha, harch, hf.2]
    generalize quiet_detach k g.is_quiet dbg = qd at hqd ⊢
    rw [ih hrest _ _ _ _ _ happ]
    rw [hf.1]
    split_ifs <;>
      simp only [exported_files_append, hqd, List.append_nil, List.nil_append,
        List.append_assoc, List.map_cons] <;>
      simp [exported_files, start_replication_subset]

theorem db2ldif_targets_no_file (w : TaskWorld) (g : Globals) :
    exported_files (db2ldif_targets w g).2 = [] := by
  unfold exported_files
  rw [List.filterMap_eq_nil_iff]
  intro e he
  unfold db2ldif_targets at he
  split at he
  · simp at he
  · simp only [] at he
    split at he
    · simp at he; subst he; rfl
    · split at he
      · simp at he; subst he; rfl
      · simp at he; subst he; rfl
      · simp only [List.mem_cons, List.mem_map] at he
        rcases he with h | ⟨_, _, h⟩
        · subst h; rfl
        · subst h; rfl

/-- C30 (per-instance export file name). With append mode off and an output
name `A` other than `-`, the file name made for the instance `I` is
`I_A` when `A` has no `/`, and `dir/I_base` when `A` is `dir/base` with no `/`
in `base`; its length is `len(A) + len(I) + 1`, which with the terminator fits
the `len(A) + len(I) + 2` bytes allocated. With append mode on, or for `A`
equal to `-`, the name is `A` itself. And `A` is the same for every instance:
when no process conflicts and every target instance has a V2 plugin that
defines the export function, `slapd_exemode_db2ldif`, with append mode off,
passes to the backend, for each target instance in turn, the name made from
`A` and that instance. -/
theorem export_file_name (k : Consts) (A I : String) (first : Bool) (printkey : Nat) :
    (printkey &&& k.EXPORT_APPENDMODE = 0 → A ≠ "-" →
      ('/' ∉ A.toList → (db2ldif_file k A I first printkey).1 = I ++ "_" ++ A) ∧
      (∀ dir base, A = dir ++ "/" ++ base → '/' ∉ base.toList →
        (db2ldif_file k A I first printkey).1 = dir ++ "/" ++ I ++ "_" ++ base) ∧
      (db2ldif_file k A I first printkey).1.length = A.length + I.length + 1 ∧
      (db2ldif_file k A I first printkey).1.length + 1 ≤ A.length + I.length + 2) ∧
    (printkey &&& k.EXPORT_APPENDMODE ≠ 0 ∨ A = "-" →
      (db2ldif_file k A I first printkey).1 = A) ∧
    (∀ (w : TaskWorld) (g : Globals) (names : List String),
      g.archive_name = some A → g.ldif_printkey = printkey →
      printkey &&& k.EXPORT_APPENDMODE = 0 →
      (db2ldif_targets w g).1 = some names →
      (∀ tr m d s, w.add_new_slapd_process tr m d s ≠ -1) →
      (∀ n ∈ names, ∃ p, lookup_plugin_by_instance_name w.pr n = some p ∧
        p.capabilities.contains Capability.plg_db2ldif = true ∧ p.is_v2 = true) →
      exported_files (slapd_exemode_db2ldif k w g).2 =
        names.map (fun J => some (db2ldif_file k A J true printkey).1)) := by
  refine ⟨?_, ?_, ?_⟩
  · intro happ hA
    have hA2 : (A != "-") = true := by simpa using hA
    have hname : (db2ldif_file k A I first printkey).1 =
        match strrchr_split A '/' with
        | none => I ++ "_" ++ A
        | some (dir, q) => dir ++ "/" ++ I ++ "_" ++ q := by
      unfold db2ldif_file
      simp only [happ, bne_self_eq_false, Bool.false_eq_true, if_false, hA2, if_true]
      split <;> rfl
    have hlen : (db2ldif_file k A I first printkey).1.length = A.length + I.length + 1 := by
      rw [hname]
      cases hs : strrchr_split A '/' with
      | none =>
        simp only [String.length_append]
        have : "_".length = 1 := rfl
        omega
      | some db =>
        obtain ⟨dir, q⟩ := db
        have hsome := (strrchr_split_some hs).1
        have hAlen : A.length = dir.length + 1 + q.length := by
          rw [hsome]
          simp only [String.length_append]
          rfl
        simp only [String.length_append]
        have h1 : "_".length = 1 := rfl
        have h2 : "/".length = 1 := rfl
        omega
    refine ⟨?_, ?_, hlen, by omega⟩
    · intro hno
      rw [hname, strrchr_split_none hno]
    · intro dir base hAeq hbase
      have hs : strrchr_split (dir ++ "/" ++ base) '/' = some (dir, base) :=
        strrchr_split_append dir base '/' hbase
      rw [hname, hAeq, hs]
  · intro h
    unfold db2ldif_file
    rcases h with h | h
    · have h2 : (printkey &&& k.EXPORT_APPENDMODE != 0) = true := by simpa using h
      simp only [h2, if_true]
      split <;> rfl
    · subst h
      split_ifs <;> first | rfl | simp_all
  · intro w g names harch hpk happ ht ha hp
    have h := db2ldif_loop_files k w g A harch ha names hp true g.slapd_ldap_debug
      g.ldif_printkey 0 ([Event.call "mapping_tree_init"] ++ (db2ldif_targets w g).2)
      (by rw [hpk]; exact happ)
    simp only [slapd_exemode_db2ldif, ht]
    rw [h, exported_files_append, db2ldif_targets_no_file, hpk]
    rfl

/-- Witness of C30: `db2ldif -n first -n second -a /tmp/out.ldif`: the names
passed to the backend are `/tmp/first_out.ldif` and `/tmp/second_out.ldif`,
each one character longer than the output name and the instance name together;
the output name `out.ldif` gives `first_out.ldif`, and `-` is passed as it
is. -/
theorem export_file_name_witness :
    (1 : Nat) &&& exampleConsts.EXPORT_APPENDMODE = 0 ∧ "/tmp/out.ldif" ≠ "-" ∧
    exported_files (slapd_exemode_db2ldif exampleConsts (worldOf ldbmPlugin) namedExport).2 =
      [some "/tmp/first_out.ldif", some "/tmp/second_out.ldif"] ∧
    (db2ldif_file exampleConsts "/tmp/out.ldif" "first" true 1).1.length =
      "/tmp/out.ldif".length + "first".length + 1 ∧
    (db2ldif_file exampleConsts "out.ldif" "first" true 1).1 = "first_out.ldif" ∧
    (db2ldif_file exampleConsts "-" "first" true 1).1 = "-" := by
  have h := export_file_name exampleConsts "/tmp/out.ldif" "first" true 1
  have h2 := export_file_name exampleConsts "out.ldif" "first" true 1
  have h3 := export_file_name exampleConsts "-" "first" true 1
  have happ : (1 : Nat) &&& exampleConsts.EXPORT_APPENDMODE = 0 := by decide
  refine ⟨happ, by decide, ?_, (h.1 happ (by decide)).2.2.1, ?_, h3.2.1 (Or.inr rfl)⟩
  · rw [h.2.2 (worldOf ldbmPlugin) namedExport ["first", "second"] rfl rfl happ rfl
      (by intro _ _ _ _; exact (by decide : (0 : Int) ≠ -1)) (by decide)]
    decide
  · rw [(h2.1 happ (by decide)).1 (by decide)]
    decide

/-! ## Theorems: results of the task functions -/

theorem ldif2db_codes (k : Consts) (w : TaskWorld) (g : Globals) :
    ((slapd_exemode_ldif2db k w g).1 = .ret 0 →
      ∃ pb, Event.backend Capability.plg_ldif2db pb 0 ∈ (slapd_exemode_ldif2db k w g).2) ∧
    ((∀ e ∈ (slapd_exemode_ldif2db k w g).2, is_backend_call e = false) →
      (slapd_exemode_ldif2db k w g).1 = .ret 1 ∨
      ((slapd_exemode_ldif2db k w g).1 = .ret (-1) ∧
        ∃ inst p, lookup_plugin_by_instance_name w.pr inst = some p ∧
          p.capabilities.contains Capability.plg_ldif2db = false)) := by
  unfold slapd_exemode_ldif2db
  split_ifs
  · simp
  · simp only []
    generalize (match g.cmd_line_instance_name with
      | some n => ((some n, []) : Option String × List Event)
      | none => single_instance_from_suffixes w g "slapd_exemode_ldif2db"
          "     : %s\n") = res
    cases hres : res.1 with
    | none => simp
    | some inst =>
      simp only []
      cases hp : lookup_plugin_by_instance_name w.pr inst with
      | none => simp
      | some p =>
        simp only []
        split_ifs with h1 h2 h3
        · simp
        · simp
        · constructor
          · intro h
            simp only [Outcome.ret.injEq] at h
            rw [h]
            exact ⟨_, List.mem_append_right _ (List.mem_singleton_self _)⟩
          · intro h
            have := h _ (List.mem_append_right _ (List.mem_singleton_self _))
            simp [is_backend_call] at this
        · constructor
          · intro h
            simp at h
          · intro _
            right
            exact ⟨rfl, inst, p, hp, by simpa using h3⟩

theorem upgradedb_codes (w : TaskWorld) (g : Globals) :
    ((slapd_exemode_upgradedb w g).1 = .ret 0 →
      ∃ pb, Event.backend Capability.plg_upgradedb pb 0 ∈ (slapd_exemode_upgradedb w g).2) ∧
    ((∀ e ∈ (slapd_exemode_upgradedb w g).2, is_backend_call e = false) →
      (slapd_exemode_upgradedb w g).1 = .ret 1 ∨
      ((slapd_exemode_upgradedb w g).1 = .ret (-1) ∧
        ∃ p, w.pr.plugin_get_by_name (some "ldbm database") = some p ∧
          p.capabilities.contains Capability.plg_upgradedb = false)) := by
  unfold slapd_exemode_upgradedb
  cases g.archive_name with
  | none => simp
  | some archive =>
    simp only []
    cases hp : w.pr.plugin_get_by_name (some "ldbm database") with
    | none => simp
    | some p =>
      simp only []
      split_ifs with h1 h2 h3
      · simp
      · simp
      · constructor
        · intro h
          simp only [Outcome.ret.injEq] at h
          rw [h]
          exact ⟨_, List.mem_append_right _ (List.mem_singleton_self _)⟩
        · intro h
          have := h _ (List.mem_append_right _ (List.mem_singleton_self _))
          simp [is_backend_call] at this
      · constructor
        · intro h
          simp at h
        · intro _
          right
          exact ⟨rfl, by simpa using h3⟩

theorem dbverify_codes (w : TaskWorld) (g : Globals) :
    ((slapd_exemode_dbverify w g).1 = .ret 0 →
      ∃ pb, Event.backend Capability.plg_dbverify pb 0 ∈ (slapd_exemode_dbverify w g).2) ∧
    ((∀ e ∈ (slapd_exemode_dbverify w g).2, is_backend_call e = false) →
      (slapd_exemode_dbverify w g).1 = .ret 1 ∨
      ((slapd_exemode_dbverify w g).1 = .ret (-1) ∧
        ∃ p, w.pr.plugin_get_by_name (some "ldbm database") = some p ∧
          p.capabilities.contains Capability.plg_dbverify = false)) := by
  unfold slapd_exemode_dbverify
  simp only []
  cases hp : w.pr.plugin_get_by_name (some "ldbm database") with
  | none => simp
  | some p =>
    simp only []
    split_ifs with h2 h3
    · simp
    · constructor
      · intro h
        simp only [Outcome.ret.injEq] at h
        rw [h]
        exact ⟨_, List.mem_append_right _ (List.mem_singleton_self _)⟩
      · intro h
        have := h _ (List.mem_append_right _ (List.mem_singleton_self _))
        simp [is_backend_call] at this
    · constructor
      · intro h
        simp at h
      · intro _
        right
        exact ⟨rfl, by simpa using h3⟩

theorem upgradednformat_codes (k : Consts) (w : TaskWorld) (g : Globals) :
    ((slapd_exemode_upgradednformat k w g).1 = .ret 0 →
      ∃ pb, Event.backend Capability.plg_upgradednformat pb 0 ∈
        (slapd_exemode_upgradednformat k w g).2) ∧
    ((∀ e ∈ (slapd_exemode_upgradednformat k w g).2, is_backend_call e = false) →
      (slapd_exemode_upgradednformat k w g).1 = .ret (-1)) := by
  unfold slapd_exemode_upgradednformat
  cases g.archive_name with
  | none => simp
  | some archive =>
    simp only []
    cases hp : w.pr.plugin_get_by_name (some "ldbm database") with
    | none => simp
    | some p =>
      simp only []
      split_ifs
      all_goals first
        | (simp; done)
        | (constructor
           · intro h
             simp only [Outcome.ret.injEq] at h
             rw [h]
             exact ⟨_, List.mem_append_right _ (List.mem_singleton_self _)⟩
           · intro h
             have := h _ (List.mem_append_right _ (List.mem_singleton_self _))
             simp [is_backend_call] at this)

theorem db2index_codes (w : TaskWorld) (g : Globals) :
    ((slapd_exemode_db2index w g).1 = .ret 0 →
      ∃ pb, Event.backend Capability.plg_db2index pb 0 ∈ (slapd_exemode_db2index w g).2) ∧
    ((∀ e ∈ (slapd_exemode_db2index w g).2, is_backend_call e = false) →
      (slapd_exemode_db2index w g).1 ≠ .crash → (slapd_exemode_db2index w g).1 = .ret 1) := by
  unfold slapd_exemode_db2index
  simp only []
  generalize (match g.cmd_line_instance_name with
    | some n => ((some n, []) : Option String × List Event)
    | none => single_instance_from_suffixes w g "slapd_exemode_db2index"
        "slapd_exemode_db2index") = res
  cases hres : res.1 with
  | none => simp
  | some inst =>
    simp only []
    cases hp : lookup_plugin_by_instance_name w.pr inst with
    | none => simp
    | some p =>
      simp only []
      split_ifs with h1 h2 h3
      · simp
      · simp
      · constructor
        · intro h
          simp only [Outcome.ret.injEq] at h
          rw [h]
          exact ⟨_, List.mem_append_right _ (List.mem_singleton_self _)⟩
        · intro h
          have := h _ (List.mem_append_right _ (List.mem_singleton_self _))
          simp [is_backend_call] at this
      · simp

theorem archive_task_codes (k : Consts) (w : TaskWorld) (g : Globals) (fn : String)
    (cap : Capability) (instance_name : Option String) :
    ((archive_task k w g fn cap instance_name).1 = .ret 0 →
      ∃ pb, Event.backend cap pb 0 ∈ (archive_task k w g fn cap instance_name).2) ∧
    ((∀ e ∈ (archive_task k w g fn cap instance_name).2, is_backend_call e = false) →
      (archive_task k w g fn cap instance_name).1 ≠ .crash →
      (archive_task k w g fn cap instance_name).1 = .ret 1) := by
  unfold archive_task
  cases hp : w.pr.plugin_get_by_name (some "ldbm database") with
  | none => simp
  | some p =>
    simp only []
    cases g.archive_name with
    | none => simp
    | some archive =>
      simp only []
      split_ifs with h1 h3
      · simp
      · constructor
        · intro h
          simp only [Outcome.ret.injEq] at h
          rw [h]
          exact ⟨_, List.mem_append_right _ (List.mem_singleton_self _)⟩
        · intro h
          have := h _ (List.mem_append_right _ (List.mem_singleton_self _))
          simp [is_backend_call] at this
      · simp

/-- The export loop keeps the calls made before it. -/
theorem db2ldif_loop_keeps (k : Consts) (w : TaskWorld) (g : Globals) :
    ∀ (names : List String) (first : Bool) (dbg pk : Nat) (rv : Int) (tr : List Event),
      ∀ e ∈ tr, e ∈ (db2ldif_loop k w g names first dbg pk rv tr).2 := by
  intro names
  induction names with
  | nil =>
    intro first dbg pk rv tr e he
    simp only [db2ldif_loop]
    split <;> simp [he]
  | cons inst rest ih =>
    intro first dbg pk rv tr e he
    simp only [db2ldif_loop]
    split
    · simp [he]
    · split_ifs
      · simp [he]
      · simp [he]
      · simp [he]
      all_goals
        apply ih
        simp [he]

/-- One iteration of the export loop: it returns 1 at once, or it calls the
backend and goes on with the remaining instances. -/
theorem db2ldif_loop_step (k : Consts) (w : TaskWorld) (g : Globals)
    (inst : String) (rest : List String) (first : Bool) (dbg pk : Nat) (rv : Int)
    (tr : List Event) :
    (∃ ev, db2ldif_loop k w g (inst :: rest) first dbg pk rv tr = (.ret 1, tr ++ ev)) ∨
    (∃ dbg1 pk1 pb rv1 tr1,
      db2ldif_loop k w g (inst :: rest) first dbg pk rv tr =
        db2ldif_loop k w g rest false dbg1 pk1 rv1
          (tr1 ++ [Event.backend Capability.plg_db2ldif pb rv1])) := by
  cases hp : lookup_plugin_by_instance_name w.pr inst with
  | none =>
    left
    exact ⟨_, by simp only [db2ldif_loop, hp]; rfl⟩
  | some p =>
    by_cases hc : p.capabilities.contains Capability.plg_db2ldif = true
    · by_cases ha : w.add_new_slapd_process tr g.slapd_exemode g.db2ldif_dump_replica
          g.skip_db_protect_check = -1
      · left
        exact ⟨_, by simp only [db2ldif_loop, hp, hc, ha, Bool.not_true, Bool.false_eq_true,
          if_false, beq_self_eq_true, if_true, List.append_assoc]; rfl⟩
      · have ha2 : (w.add_new_slapd_process tr g.slapd_exemode g.db2ldif_dump_replica
            g.skip_db_protect_check == -1) = false := by simpa using ha
        by_cases hv : p.is_v2 = true
        · right
          exact ⟨_, _, _, _, _, by simp only [db2ldif_loop, hp, hc, ha2, hv, Bool.not_true,
            Bool.false_eq_true, if_false]; rfl⟩
        · left
          have hv2 : p.is_v2 = false := by simpa using hv
          exact ⟨_, by simp only [db2ldif_loop, hp, hc, ha2, hv2, Bool.not_true, Bool.not_false,
            Bool.false_eq_true, if_false, if_true, List.append_assoc]; rfl⟩
    · left
      have hc2 : p.capabilities.contains Capability.plg_db2ldif = false := by simpa using hc
      exact ⟨_, by simp only [db2ldif_loop, hp, hc2, Bool.not_false, if_true]; rfl⟩

/-- The export loop returns 0 only after an export that returned 0, unless
no instance remains and the result so far is 0. -/
theorem db2ldif_loop_zero (k : Consts) (w : TaskWorld) (g : Globals) :
    ∀ (names : List String) (first : Bool) (dbg pk : Nat) (rv : Int) (tr : List Event),
      (db2ldif_loop k w g names first dbg pk rv tr).1 = .ret 0 →
      (names = [] ∧ rv = 0) ∨
        ∃ pb, Event.backend Capability.plg_db2ldif pb 0 ∈
          (db2ldif_loop k w g names first dbg pk rv tr).2 := by
  intro names
  induction names with
  | nil =>
    intro first dbg pk rv tr h
    left
    simp only [db2ldif_loop] at h
    split at h <;> simpa using h
  | cons inst rest ih =>
    intro first dbg pk rv tr h
    right
    rcases db2ldif_loop_step k w g inst rest first dbg pk rv tr with ⟨ev, hev⟩ |
      ⟨dbg1, pk1, pb, rv1, tr1, hstep⟩
    · rw [hev] at h
      simp at h
    · rw [hstep] at h ⊢
      rcases ih _ _ _ _ _ h with ⟨hnil, hrv⟩ | hex
      · refine ⟨pb, db2ldif_loop_keeps k w g rest _ _ _ _ _ _ ?_⟩
        rw [hrv]
        exact List.mem_append_right _ (List.mem_singleton_self _)
      · exact hex

/-- An export loop that has an instance to process and calls no backend
returns 1. -/
theorem db2ldif_loop_no_backend (k : Consts) (w : TaskWorld) (g : Globals)
    (inst : String) (rest : List String) (first : Bool) (dbg pk : Nat) (rv : Int)
    (tr : List Event)
    (h : ∀ e ∈ (db2ldif_loop k w g (inst :: rest) first dbg pk rv tr).2,
      is_backend_call e = false) :
    (db2ldif_loop k w g (inst :: rest) first dbg pk rv tr).1 = .ret 1 := by
  rcases db2ldif_loop_step k w g inst rest first dbg pk rv tr with ⟨ev, hev⟩ |
    ⟨dbg1, pk1, pb, rv1, tr1, hstep⟩
  · rw [hev]
  · exfalso
    rw [hstep] at h
    have := h _ (db2ldif_loop_keeps k w g rest _ _ _ _ _ _
      (List.mem_append_right _ (List.mem_singleton_self _)))
    simp [is_backend_call] at this

theorem db2ldif_codes (k : Consts) (w : TaskWorld) (g : Globals) :
    ((slapd_exemode_db2ldif k w g).1 = .ret 0 →
      ∃ pb, Event.backend Capability.plg_db2ldif pb 0 ∈ (slapd_exemode_db2ldif k w g).2) ∧
    ((∀ e ∈ (slapd_exemode_db2ldif k w g).2, is_backend_call e = false) →
      (slapd_exemode_db2ldif k w g).1 = .ret 1) := by
  have hne : ∀ names, (db2ldif_targets w g).1 = some names → names ≠ [] := by
    intro names h
    unfold db2ldif_targets at h
    split at h
    · simp only [Option.some.injEq] at h
      rw [← h]
      simp
    · simp only [] at h
      split at h
      · simp at h
      · split at h
        · simp at h
        · simp at h
        · simp only [Option.some.injEq] at h
          rw [← h]
          simp
  unfold slapd_exemode_db2ldif
  simp only []
  cases ht : (db2ldif_targets w g).1 with
  | none => simp
  | some names =>
    simp only []
    cases names with
    | nil => exact absurd rfl (hne [] ht)
    | cons inst rest =>
      constructor
      · intro h
        rcases db2ldif_loop_zero k w g _ _ _ _ _ _ h with ⟨hnil, _⟩ | hex
        · simp at hnil
        · exact hex
      · intro h
        exact db2ldif_loop_no_backend k w g inst rest _ _ _ _ _ h

/-- C23, as stated, fails: `slapd_exemode_upgradednformat` without the `-a`
path returns -1, and `slapd_exemode_ldif2db`, `slapd_exemode_upgradedb` and
`slapd_exemode_dbverify` return -1 when the plugin does not define the
capability function; in none of these runs is the backend invoked. -/
theorem task_failure_minus_one :
    slapd_exemode_upgradednformat exampleConsts (worldOf ldbmPlugin)
        (modeSettings SLAPD_EXEMODE_UPGRADEDNFORMAT) =
      (.ret (-1),
        [Event.slapi_log_err SLAPI_LOG_ERR "slapd_exemode_upgradednformat", Event.usage]) ∧
    (slapd_exemode_ldif2db exampleConsts (worldOf bareV2Plugin) importSettings).1 = .ret (-1) ∧
    backend_calls (slapd_exemode_ldif2db exampleConsts (worldOf bareV2Plugin) importSettings).2
      = [] ∧
    (slapd_exemode_upgradedb (worldOf bareV2Plugin)
      (archiveSettings SLAPD_EXEMODE_UPGRADEDB)).1 = .ret (-1) ∧
    backend_calls (slapd_exemode_upgradedb (worldOf bareV2Plugin)
      (archiveSettings SLAPD_EXEMODE_UPGRADEDB)).2 = [] ∧
    (slapd_exemode_dbverify (worldOf bareV2Plugin)
      (modeSettings SLAPD_EXEMODE_DBVERIFY)).1 = .ret (-1) ∧
    backend_calls (slapd_exemode_dbverify (worldOf bareV2Plugin)
      (modeSettings SLAPD_EXEMODE_DBVERIFY)).2 = [] := by
  decide

/-- C23, amended. For each of the eight task functions and every input, the
result is 0 only when the backend capability was invoked and returned 0. When
the function ends without having invoked the backend, the result is 1 in
`slapd_exemode_db2ldif`; 1 in `slapd_exemode_db2index`,
`slapd_exemode_archive2db` and `slapd_exemode_db2archive` whenever they return;
1 or, when the plugin found does not define the capability function, -1 in
`slapd_exemode_ldif2db`, `slapd_exemode_upgradedb` and
`slapd_exemode_dbverify`; and -1 in `slapd_exemode_upgradednformat`. -/
theorem task_results (k : Consts) (w : TaskWorld) (g : Globals) :
    (((slapd_exemode_ldif2db k w g).1 = .ret 0 →
        ∃ pb, Event.backend Capability.plg_ldif2db pb 0 ∈ (slapd_exemode_ldif2db k w g).2) ∧
      ((∀ e ∈ (slapd_exemode_ldif2db k w g).2, is_backend_call e = false) →
        (slapd_exemode_ldif2db k w g).1 = .ret 1 ∨
        ((slapd_exemode_ldif2db k w g).1 = .ret (-1) ∧
          ∃ inst p, lookup_plugin_by_instance_name w.pr inst = some p ∧
            p.capabilities.contains Capability.plg_ldif2db = false))) ∧
    (((slapd_exemode_db2ldif k w g).1 = .ret 0 →
        ∃ pb, Event.backend Capability.plg_db2ldif pb 0 ∈ (slapd_exemode_db2ldif k w g).2) ∧
      ((∀ e ∈ (slapd_exemode_db2ldif k w g).2, is_backend_call e = false) →
        (slapd_exemode_db2ldif k w g).1 = .ret 1)) ∧
    (((slapd_exemode_db2index w g).1 = .ret 0 →
        ∃ pb, Event.backend Capability.plg_db2index pb 0 ∈ (slapd_exemode_db2index w g).2) ∧
      ((∀ e ∈ (slapd_exemode_db2index w g).2, is_backend_call e = false) →
        (slapd_exemode_db2index w g).1 ≠ .crash → (slapd_exemode_db2index w g).1 = .ret 1)) ∧
    (((slapd_exemode_archive2db k w g).1 = .ret 0 →
        ∃ pb, Event.backend Capability.plg_archive2db pb 0 ∈
          (slapd_exemode_archive2db k w g).2) ∧
      ((∀ e ∈ (slapd_exemode_archive2db k w g).2, is_backend_call e = false) →
        (slapd_exemode_archive2db k w g).1 ≠ .crash →
        (slapd_exemode_archive2db k w g).1 = .ret 1)) ∧
    (((slapd_exemode_db2archive k w g).1 = .ret 0 →
        ∃ pb, Event.backend Capability.plg_db2archive pb 0 ∈
          (slapd_exemode_db2archive k w g).2) ∧
      ((∀ e ∈ (slapd_exemode_db2archive k w g).2, is_backend_call e = false) →
        (slapd_exemode_db2archive k w g).1 ≠ .crash →
        (slapd_exemode_db2archive k w g).1 = .ret 1)) ∧
    (((slapd_exemode_upgradedb w g).1 = .ret 0 →
        ∃ pb, Event.backend Capability.plg_upgradedb pb 0 ∈ (slapd_exemode_upgradedb w g).2) ∧
      ((∀ e ∈ (slapd_exemode_upgradedb w g).2, is_backend_call e = false) →
        (slapd_exemode_upgradedb w g).1 = .ret 1 ∨
        ((slapd_exemode_upgradedb w g).1 = .ret (-1) ∧
          ∃ p, w.pr.plugin_get_by_name (some "ldbm database") = some p ∧
            p.capabilities.contains Capability.plg_upgradedb = false))) ∧
    (((slapd_exemode_upgradednformat k w g).1 = .ret 0 →
        ∃ pb, Event.backend Capability.plg_upgradednformat pb 0 ∈
          (slapd_exemode_upgradednformat k w g).2) ∧
      ((∀ e ∈ (slapd_exemode_upgradednformat k w g).2, is_backend_call e = false) →
        (slapd_exemode_upgradednformat k w g).1 = .ret (-1))) ∧
    (((slapd_exemode_dbverify w g).1 = .ret 0 →
        ∃ pb, Event.backend Capability.plg_dbverify pb 0 ∈ (slapd_exemode_dbverify w g).2) ∧
      ((∀ e ∈ (slapd_exemode_dbverify w g).2, is_backend_call e = false) →
        (slapd_exemode_dbverify w g).1 = .ret 1 ∨
        ((slapd_exemode_dbverify w g).1 = .ret (-1) ∧
          ∃ p, w.pr.plugin_get_by_name (some "ldbm database") = some p ∧
            p.capabilities.contains Capability.plg_dbverify = false))) :=
  ⟨ldif2db_codes k w g, db2ldif_codes k w g, db2index_codes w g,
    archive_task_codes k w g _ _ _, archive_task_codes k w g _ _ _, upgradedb_codes w g,
    upgradednformat_codes k w g, dbverify_codes w g⟩

/-- Witness of C23 amended: the upgrade with an archive path returns 0 after
a backend call that returned 0; with a registry that refuses it makes no
backend call and returns 1; the export of `first`, `second`, `third` returns
0 after an export that returned 0. -/
theorem task_results_witness :
    (slapd_exemode_upgradedb (worldOf ldbmPlugin)
      (archiveSettings SLAPD_EXEMODE_UPGRADEDB)).1 = .ret 0 ∧
    (∃ pb, Event.backend Capability.plg_upgradedb pb 0 ∈
      (slapd_exemode_upgradedb (worldOf ldbmPlugin)
        (archiveSettings SLAPD_EXEMODE_UPGRADEDB)).2) ∧
    (∀ e ∈ (slapd_exemode_upgradedb refusingWorld
      (archiveSettings SLAPD_EXEMODE_UPGRADEDB)).2, is_backend_call e = false) ∧
    (slapd_exemode_db2ldif exampleConsts refusingWorld batchExport).1 = .ret 1 ∧
    (∃ pb, Event.backend Capability.plg_db2ldif pb 0 ∈
      (slapd_exemode_db2ldif exampleConsts (worldOf ldbmPlugin) batchExport).2) := by
  have h1 := task_results exampleConsts (worldOf ldbmPlugin)
    (archiveSettings SLAPD_EXEMODE_UPGRADEDB)
  have h2 := task_results exampleConsts refusingWorld batchExport
  have h3 := task_results exampleConsts (worldOf ldbmPlugin) batchExport
  have hz : (slapd_exemode_upgradedb (worldOf ldbmPlugin)
      (archiveSettings SLAPD_EXEMODE_UPGRADEDB)).1 = .ret 0 := by decide
  exact ⟨hz, h1.2.2.2.2.2.1.1 hz, by decide, h2.2.1.2 (by decide), h3.2.1.1 (by decide)⟩

/-! ## Theorems: the ports check of `main` -/

theorem main_bind_ldapi (env : MainEnv) (g : Globals) (i : Int)
    (hm : g.slapd_exemode = SLAPD_EXEMODE_SLAPD ∨ g.slapd_exemode = SLAPD_EXEMODE_REFERRAL)
    (hb : (main_bind env g).1 = .proceed i) :
    i = if env.ldapi then 1 else 0 := by
  unfold main_bind at hb
  rw [if_pos hm] at hb
  simp only [] at hb
  split_ifs at hb <;> simp at hb <;> simp_all

theorem main_start_plugins_none_active (env : MainEnv)
    (hn : env.config_get_port = 0) (hs : env.config_get_security = 0) :
    (main_start_plugins env 0).1 = false := by
  unfold main_start_plugins
  simp only [hn, hs, bne_self_eq_false, Bool.false_eq_true, if_false]
  split_ifs <;> rfl

/-- Outside Referral mode, with no plain port, no local socket and the
security switch off, the statements of `main` after the `switch` end with the
result 1 and do not enter the daemon loop. -/
theorem main_server_none_active (env : MainEnv) (g : Globals) (tp : Bool) (hist : List Event)
    (hm : g.slapd_exemode ≠ SLAPD_EXEMODE_REFERRAL)
    (hn : env.config_get_port = 0) (hs : env.config_get_security = 0) :
    (main_server env g 0 tp hist).1 = .ret 1 ∧
    ∀ e ∈ (main_server env g 0 tp hist).2, is_daemon_call e = false := by
  have hc := main_cleanup_quiet tp 1
  have hp := main_start_plugins_quiet env 0
  have hf := main_start_plugins_none_active env hn hs
  have key : ∀ (B : List Event),
      B.all (fun e => !is_guard_call e && !is_daemon_call e && !is_bind_call e) = true →
      (B.all (fun e => !is_daemon_call e)) = true := by
    intro B hB
    rw [List.all_eq_true] at hB ⊢
    intro e he
    have := hB e he
    simp only [Bool.and_eq_true, Bool.not_eq_true'] at this
    simp [this.1.2]
  have hc2 := key _ hc
  have hp2 := key _ hp
  have hall : (main_server env g 0 tp hist).1 = .ret 1 ∧
      (main_server env g 0 tp hist).2.all (fun e => !is_daemon_call e) = true := by
    unfold main_server
    simp only [hm, ne_eq, not_false_eq_true, if_true, hf, Bool.not_false]
    split_ifs
    · refine ⟨rfl, ?_⟩
      simp only [List.all_append, hc2, Bool.and_true]
      rfl
    · refine ⟨rfl, ?_⟩
      simp only [List.all_append, hc2, hp2, Bool.and_true]
      rfl
  refine ⟨hall.1, ?_⟩
  intro e he
  have := List.all_eq_true.mp hall.2 e he
  simpa using this

/-- C21, as stated, fails: in Referral mode with no plain port, no local
socket, the security switch off and no secure port, `main` enters the daemon
loop and returns 0; and in Server mode with the security switch on but no
plain port, no local socket and no secure port, `main` enters the daemon loop
as well. -/
theorem referral_without_listener :
    (noListenerEnv SLAPD_EXEMODE_REFERRAL).config_get_port = 0 ∧
    (noListenerEnv SLAPD_EXEMODE_REFERRAL).ldapi = false ∧
    (noListenerEnv SLAPD_EXEMODE_REFERRAL).config_get_security = 0 ∧
    (noListenerEnv SLAPD_EXEMODE_REFERRAL).config_get_secureport = 0 ∧
    Event.slapd_daemon true ∈ (main exampleConsts (noListenerEnv SLAPD_EXEMODE_REFERRAL)).2 ∧
    (main exampleConsts (noListenerEnv SLAPD_EXEMODE_REFERRAL)).1 = .ret 0 ∧
    securityOnEnv.config_get_port = 0 ∧ securityOnEnv.ldapi = false ∧
    securityOnEnv.config_get_secureport = 0 ∧
    Event.slapd_daemon true ∈ (main exampleConsts securityOnEnv).2 := by
  decide

/-- C21, amended. On every execution of `main` in Server mode, the daemon loop
is entered only if the plain port is non-zero, or the local socket is enabled,
or the security switch `config_get_security` is on; if none of the three holds,
`main` ends with exit code 1 and never enters the daemon loop. -/
theorem listener_check_in_server_mode (k : Consts) (env : MainEnv) (g : Globals)
    (hg : env.process_command_line = some g) (hm : g.slapd_exemode = SLAPD_EXEMODE_SLAPD) :
    (∀ tp, Event.slapd_daemon tp ∈ (main k env).2 →
      env.config_get_port ≠ 0 ∨ env.ldapi = true ∨ env.config_get_security ≠ 0) ∧
    (env.config_get_port = 0 → env.ldapi = false → env.config_get_security = 0 →
      ((main k env).1 = .ret 1 ∨ (main k env).1 = .exit 1) ∧
      ∀ e ∈ (main k env).2, is_daemon_call e = false) := by
  have hsecond : env.config_get_port = 0 → env.ldapi = false → env.config_get_security = 0 →
      ((main k env).1 = .ret 1 ∨ (main k env).1 = .exit 1) ∧
      ∀ e ∈ (main k env).2, is_daemon_call e = false := by
    intro hn hl hs
    rcases main_cases_bind k env g hg with ⟨hout, hT⟩ | ⟨E, i, hE, _, _, hmain, hb⟩
    · exact ⟨hout.symm, fun e he => (startup_unguarded e (hT e he)).2.1⟩
    · have hi : i = 0 := by
        rw [main_bind_ldapi env g i (Or.inl hm) hb, hl]
        rfl
      subst hi
      have hE2 : ∀ e ∈ E, is_daemon_call e = false :=
        fun e he => (startup_unguarded e (hE e he)).2.1
      rw [hmain]
      rcases main_run_server k env g 0 E hm with ⟨hret, hR⟩ | ⟨P, tp, hP, hrun⟩
      · refine ⟨Or.inl hret, ?_⟩
        intro e he
        rcases List.mem_append.mp he with h | h
        · exact hE2 e h
        · exact (hR e h).2
      · rw [hrun]
        have hne : g.slapd_exemode ≠ SLAPD_EXEMODE_REFERRAL := by
          rw [hm]
          decide
        have hS := main_server_none_active env g tp (E ++ P) hne hn hs
        refine ⟨Or.inl hS.1, ?_⟩
        intro e he
        rcases List.mem_append.mp he with h | h
        · exact hE2 e h
        · rcases List.mem_append.mp h with h | h
          · exact (hP e h).2
          · exact hS.2 e h
  refine ⟨?_, hsecond⟩
  intro tp hin
  by_contra hcon
  simp only [not_or, not_not, Bool.not_eq_true] at hcon
  have := (hsecond hcon.1 hcon.2.1 hcon.2.2).2 _ hin
  simp [is_daemon_call] at this

/-- Witness of C21 amended: in Server mode with no plain port, no local
socket and the security switch off, `main` logs the fatal error, returns 1
and does not enter the daemon loop; in the server environment, whose plain
port is 389, the daemon loop is entered. -/
theorem listener_check_in_server_mode_witness :
    (noListenerEnv SLAPD_EXEMODE_SLAPD).process_command_line =
      some (modeSettings SLAPD_EXEMODE_SLAPD) ∧
    (modeSettings SLAPD_EXEMODE_SLAPD).slapd_exemode = SLAPD_EXEMODE_SLAPD ∧
    (main exampleConsts (noListenerEnv SLAPD_EXEMODE_SLAPD)).1 = .ret 1 ∧
    (∀ e ∈ (main exampleConsts (noListenerEnv SLAPD_EXEMODE_SLAPD)).2,
      is_daemon_call e = false) ∧
    Event.slapi_log_err SLAPI_LOG_EMERG "main" ∈
      (main exampleConsts (noListenerEnv SLAPD_EXEMODE_SLAPD)).2 ∧
    Event.slapd_daemon true ∈ (main exampleConsts (serverEnv SLAPD_EXEMODE_SLAPD)).2 ∧
    ((serverEnv SLAPD_EXEMODE_SLAPD).config_get_port ≠ 0 ∨
      (serverEnv SLAPD_EXEMODE_SLAPD).ldapi = true ∨
      (serverEnv SLAPD_EXEMODE_SLAPD).config_get_security ≠ 0) := by
  have h := listener_check_in_server_mode exampleConsts (noListenerEnv SLAPD_EXEMODE_SLAPD)
    (modeSettings SLAPD_EXEMODE_SLAPD) rfl rfl
  have h2 := listener_check_in_server_mode exampleConsts (serverEnv SLAPD_EXEMODE_SLAPD)
    (modeSettings SLAPD_EXEMODE_SLAPD) rfl rfl
  have hin : Event.slapd_daemon true ∈ (main exampleConsts (serverEnv SLAPD_EXEMODE_SLAPD)).2 := by
    decide
  exact ⟨rfl, rfl, by decide, (h.2 rfl rfl rfl).2, by decide, hin, h2.1 true hin⟩

/-! ## Theorems: debug level parsing -/

theorem plus_tokens_unfold (cur : List Char) :
    plus_tokens cur =
      cur.takeWhile (fun c => c != '+') ::
        (match cur.dropWhile (fun c => c != '+') with
         | [] => []
         | _ :: rest => plus_tokens rest) := by
  induction cur with
  | nil => rfl
  | cons c cs ih =>
    by_cases h : c = '+'
    · subst h
      simp [plus_tokens, List.takeWhile, List.dropWhile]
    · have hne : (c != '+') = true := by simpa using h
      simp only [plus_tokens, h, if_false, List.takeWhile, List.dropWhile, hne]
      rw [ih]

theorem digits_foldl (l : List Char) : ∀ a : Nat,
    l.foldl (fun n c => 10 * n + (c.toNat - 48)) a =
      Nat.ofDigits 10 ((l.map (fun c => c.toNat - '0'.toNat)).reverse) + 10 ^ l.length * a := by
  induction l with
  | nil => intro a; simp
  | cons c cs ih =>
    intro a
    simp only [List.foldl_cons, List.map_cons, List.reverse_cons, List.length_cons]
    rw [ih, Nat.ofDigits_append, Nat.ofDigits_singleton]
    simp only [List.length_reverse, List.length_map]
    have h0 : '0'.toNat = 48 := rfl
    rw [h0]
    ring

/-- The value that the digit loop of `atoi` computes is the decimal value of
the leading digits. -/
theorem digits_value_decimal (tok : List Char) : digits_value tok = decimal_value tok := by
  simp [digits_value, decimal_value, digits_foldl]

/-- The search of the table by `strcasecmp` finds the level listed for the
name in lower case. -/
theorem level_of_name_lookup (k : Consts) (tok : List Char) :
    level_of_name k tok = (level_names k).lookup (tok.map Char.toLower) := by
  unfold level_of_name level_names
  generalize slapd_debug_level_map k = l
  induction l with
  | nil => rfl
  | cons e es ih =>
    simp only [List.find?_cons, List.map_cons, List.lookup_cons, strcasecmp_eq]
    cases h : (tok.map Char.toLower == e.dle_string.toList.map Char.toLower)
    · simpa using ih
    · rfl

theorem lookup_of_mem {α β : Type} [BEq α] [LawfulBEq α] :
    ∀ (l : List (α × β)) (a : α) (b : β), (l.map Prod.fst).Nodup → (a, b) ∈ l →
      l.lookup a = some b := by
  intro l
  induction l with
  | nil => intro a b _ h; simp at h
  | cons x xs ih =>
    intro a b hnd hmem
    obtain ⟨x1, x2⟩ := x
    simp only [List.map_cons, List.nodup_cons] at hnd
    rcases List.mem_cons.mp hmem with h | h
    · simp only [Prod.mk.injEq] at h
      simp [List.lookup_cons, h.1, h.2]
    · have hne : a ≠ x1 := by
        intro heq
        apply hnd.1
        rw [← heq]
        exact List.mem_map.mpr ⟨(a, b), h, rfl⟩
      have hb : (a == x1) = false := by simpa using hne
      simp only [List.lookup_cons, hb]
      exact ih a b hnd.2 h

theorem level_names_nodup (k : Consts) :
    ((slapd_debug_level_map k).map (fun e => e.dle_string.toList.map Char.toLower)).Nodup := by
  have : (slapd_debug_level_map k).map (fun e => e.dle_string.toList.map Char.toLower) =
      (slapd_debug_level_map exampleConsts).map
        (fun e => e.dle_string.toList.map Char.toLower) := rfl
  rw [this]
  decide

/-- A token that does not start with a digit and equals the name of a table
entry without regard to case has the level of that entry. -/
theorem token_level_name (k : Consts) (e : slapd_debug_level_entry)
    (he : e ∈ slapd_debug_level_map k) (c : Char) (rest : List Char) (hc : c.isDigit = false)
    (heq : (c :: rest).map Char.toLower = e.dle_string.toList.map Char.toLower) :
    token_level k (c :: rest) = some e.dle_level := by
  simp only [token_level, hc, Bool.false_eq_true, if_false]
  apply lookup_of_mem
  · have h := level_names_nodup k
    simpa [level_names, Function.comp_def] using h
  · rw [heq]
    exact List.mem_map.mpr ⟨e, he, rfl⟩

theorem iteration_value_none (k : Consts) (tok : List Char) :
    iteration_value k tok = none ↔ token_level k tok = none := by
  cases tok with
  | nil =>
    have hn : level_of_name k [] = none := by
      simp only [level_of_name, slapd_debug_level_map]
      rfl
    simp [iteration_value, token_level, hn]
  | cons c rest =>
    by_cases hd : c.isDigit = true
    · simp [iteration_value, token_level, hd]
    · simp only [iteration_value, token_level, hd, Bool.false_eq_true, if_false,
        level_of_name_lookup]

theorem iteration_value_fits (k : Consts) (tok : List Char) (v : Nat)
    (hv : token_level k tok = some v) (hfit : token_fits k tok = true) :
    iteration_value k tok = some v ∧ v < 2 ^ 31 := by
  simp only [token_fits, hv, Option.getD_some, decide_eq_true_eq] at hfit
  refine ⟨?_, by omega⟩
  cases tok with
  | nil => simp [token_level] at hv
  | cons c rest =>
    by_cases hd : c.isDigit = true
    · simp only [token_level, hd, if_true, Option.some.injEq] at hv
      simp only [iteration_value, hd, if_true, atoi, digits_value_decimal, hv, LONG_MAX,
        Option.some.injEq]
      omega
    · simp only [token_level, hd, Bool.false_eq_true, if_false] at hv
      simp only [iteration_value, hd, Bool.false_eq_true, if_false, level_of_name_lookup, hv]

theorem int_of_bits_small (n : Nat) (h : n < 2 ^ 31) : int_of_bits n = (n : Int) := by
  have h1 : n % 2 ^ 32 = n := Nat.mod_eq_of_lt (by omega)
  simp only [int_of_bits, h1, INT_MAX]
  rw [if_pos (by omega)]

/-- One iteration of the parsing loop. -/
theorem string2level_step (k : Consts) (fuel : Nat) (cur : List Char) (level : Nat) :
    string2level_loop k (fuel + 1) cur level =
      match iteration_value k (cur.takeWhile (fun c => c != '+')) with
      | none =>
        (.ret (-1),
          [Event.fprintf_stderr
            ("Unrecognized debug level \"" ++
              String.mk (cur.takeWhile (fun c => c != '+')) ++ "\"\n")])
      | some v =>
        match cur.dropWhile (fun c => c != '+') with
        | [] => (.ret (int_of_bits (level ||| v)), [])
        | _ :: rest => string2level_loop k fuel rest (level ||| v) := by
  simp only [string2level_loop]
  cases iteration_value k (cur.takeWhile (fun c => c != '+')) with
  | none => rfl
  | some v => cases cur.dropWhile (fun c => c != '+') <;> rfl

/-- With enough iterations for the length of the string, and when every token
is recognised and has a value that fits an `int`, the loop returns the OR of
`level` and the token values. -/
theorem string2level_loop_recognised (k : Consts) :
    ∀ (fuel : Nat) (cur : List Char) (level : Nat), cur.length < fuel → level < 2 ^ 31 →
      (∀ tok ∈ plus_tokens cur, (token_level k tok).isSome = true ∧ token_fits k tok = true) →
      string2level_loop k fuel cur level =
        (.ret (((plus_tokens cur).foldl
          (fun l tok => l ||| (token_level k tok).getD 0) level : Nat) : Int), []) := by
  intro fuel
  induction fuel with
  | zero => intro cur level h; omega
  | succ n ih =>
    intro cur level hlen hlev htok
    rw [plus_tokens_unfold] at htok ⊢
    have h0 := htok _ (List.mem_cons_self _ _)
    obtain ⟨v, hv⟩ := Option.isSome_iff_exists.mp h0.1
    have hit := iteration_value_fits k _ v hv h0.2
    rw [string2level_step k n cur level, hit.1]
    have hor : level ||| v < 2 ^ 31 := Nat.or_lt_two_pow hlev hit.2
    have hdl := length_dropWhile_le_self (fun c => c != '+') cur
    simp only [hv, List.foldl_cons, Option.getD_some]
    cases hd : cur.dropWhile (fun c => c != '+') with
    | nil =>
      simp only [List.foldl_nil]
      rw [int_of_bits_small _ hor]
    | cons x rest =>
      rw [hd] at htok hdl
      simp only [List.length_cons] at hdl
      simp only []
      exact ih rest (level ||| v) (by omega) hor
        (fun tok ht => htok tok (List.mem_cons_of_mem _ ht))

/-- With enough iterations for the length of the string, and when some token
is not recognised, the loop returns -1. -/
theorem string2level_loop_unrecognised (k : Consts) :
    ∀ (fuel : Nat) (cur : List Char) (level : Nat), cur.length < fuel →
      (∃ tok ∈ plus_tokens cur, token_level k tok = none) →
      (string2level_loop k fuel cur level).1 = .ret (-1) := by
  intro fuel
  induction fuel with
  | zero => intro cur level h; omega
  | succ n ih =>
    intro cur level hlen hex
    rw [plus_tokens_unfold] at hex
    rw [string2level_step k n cur level]
    have hdl := length_dropWhile_le_self (fun c => c != '+') cur
    cases hv : iteration_value k (cur.takeWhile (fun c => c != '+')) with
    | none => rfl
    | some v =>
      simp only []
      obtain ⟨tok, hmem, hnone⟩ := hex
      rcases List.mem_cons.mp hmem with h | h
      · rw [h, ← iteration_value_none, hv] at hnone
        exact absurd hnone (by simp)
      · cases hd : cur.dropWhile (fun c => c != '+') with
        | nil =>
          rw [hd] at h
          simp at h
        | cons x rest =>
          rw [hd] at h hdl
          simp only [List.length_cons] at hdl
          simp only []
          exact ih rest (level ||| v) (by omega) ⟨tok, h, hnone⟩

/-- C26, as stated, fails: the only token of `2147483648` starts with a digit
and has the decimal value 2147483648, which does not fit an `int`, and
`slapd_debug_level_string2level` returns -2147483648, not the OR of the token
values; likewise `8+2147483648` gives -2147483640, not 2147483656. -/
theorem debug_level_beyond_int :
    plus_tokens "2147483648".toList = ["2147483648".toList] ∧
    token_level exampleConsts "2147483648".toList = some 2147483648 ∧
    or_of_tokens exampleConsts (plus_tokens "2147483648".toList) = 2147483648 ∧
    slapd_debug_level_string2level exampleConsts "2147483648" = (.ret (-2147483648), []) ∧
    (∀ tok ∈ plus_tokens "8+2147483648".toList,
      (token_level exampleConsts tok).isSome = true) ∧
    or_of_tokens exampleConsts (plus_tokens "8+2147483648".toList) = 2147483656 ∧
    slapd_debug_level_string2level exampleConsts "8+2147483648" = (.ret (-2147483640), []) := by
  decide
theorem lookup_mem {α β : Type} [BEq α] [LawfulBEq α] :
    ∀ (l : List (α × β)) (a : α) (b : β), l.lookup a = some b → (a, b) ∈ l := by
  intro l
  induction l with
  | nil => intro a b h; simp at h
  | cons x xs ih =>
    intro a b h
    obtain ⟨x1, x2⟩ := x
    simp only [List.lookup_cons] at h
    cases hb : (a == x1) with
    | true =>
      rw [hb] at h
      simp only [Option.some.injEq] at h
      have : a = x1 := by simpa using hb
      rw [this, h]
      exact List.mem_cons_self _ _
    | false =>
      rw [hb] at h
      exact List.mem_cons_of_mem _ (ih a b h)

/-- A token that starts with a digit has the decimal value of its leading
digits. -/
theorem token_level_digit (k : Consts) (c : Char) (rest : List Char) (hc : c.isDigit = true) :
    token_level k (c :: rest) =
      some (Nat.ofDigits 10
        ((((c :: rest).takeWhile Char.isDigit).map (fun d => d.toNat - '0'.toNat)).reverse)) := by
  simp only [token_level, hc, if_true, decimal_value]

/-- C26, amended (debug-level parsing). For every string: when every token
between `+` characters is recognised and has a value that fits an `int` (at
most 2147483647), `slapd_debug_level_string2level` returns the bitwise OR of
the token values, a token that starts with a digit having its decimal value
and any other token the level of the table entry whose name equals it without
regard to case (the names of the table are pairwise different in that sense);
when some token is neither, the empty token included, it returns -1. With the
levels 8 for `connections` and 32 for `filters`, the strings
`connections+filters`, `8+32` and `40` all give 40. -/
theorem debug_level_or_of_tokens (k : Consts) (s : String) :
    ((∀ tok ∈ plus_tokens s.toList,
        (token_level k tok).isSome = true ∧ token_fits k tok = true) →
      slapd_debug_level_string2level k s =
        (.ret ((or_of_tokens k (plus_tokens s.toList) : Nat) : Int), [])) ∧
    ((∃ tok ∈ plus_tokens s.toList, token_level k tok = none) →
      (slapd_debug_level_string2level k s).1 = .ret (-1)) ∧
    token_level k [] = none ∧
    (∀ (c : Char) (rest : List Char), c.isDigit = true →
      token_level k (c :: rest) =
        some (Nat.ofDigits 10
          ((((c :: rest).takeWhile Char.isDigit).map (fun d => d.toNat - '0'.toNat)).reverse))) ∧
    ((slapd_debug_level_map k).map (fun e => e.dle_string.toList.map Char.toLower)).Nodup ∧
    (∀ e ∈ slapd_debug_level_map k, ∀ (c : Char) (rest : List Char), c.isDigit = false →
      (c :: rest).map Char.toLower = e.dle_string.toList.map Char.toLower →
      token_level k (c :: rest) = some e.dle_level) ∧
    (∀ (c : Char) (rest : List Char), c.isDigit = false →
      (∀ e ∈ slapd_debug_level_map k,
        (c :: rest).map Char.toLower ≠ e.dle_string.toList.map Char.toLower) →
      token_level k (c :: rest) = none) ∧
    (k.LDAP_DEBUG_CONNS = 8 → k.LDAP_DEBUG_FILTER = 32 →
      slapd_debug_level_string2level k "connections+filters" = (.ret 40, []) ∧
      slapd_debug_level_string2level k "8+32" = (.ret 40, []) ∧
      slapd_debug_level_string2level k "40" = (.ret 40, [])) := by
  refine ⟨?_, ?_, rfl, ?_, level_names_nodup k, ?_, ?_, ?_⟩
  · intro hrec
    exact string2level_loop_recognised k (s.length + 1) s.toList 0 (Nat.lt_succ_self _)
      (by decide) hrec
  · intro hex
    exact string2level_loop_unrecognised k (s.length + 1) s.toList 0 (Nat.lt_succ_self _) hex
  · intro c rest hc
    exact token_level_digit k c rest hc
  · intro e he c rest hc heq
    exact token_level_name k e he c rest hc heq
  · intro c rest hc hno
    simp only [token_level, hc, Bool.false_eq_true, if_false]
    cases hl : (level_names k).lookup ((c :: rest).map Char.toLower) with
    | none => rfl
    | some l =>
      exfalso
      have hmem := lookup_mem (level_names k) _ l hl
      obtain ⟨e, he, heq⟩ := List.mem_map.mp hmem
      simp only [Prod.mk.injEq] at heq
      exact hno e he heq.1.symm
  · intro h1 h2
    have c : token_level k "connections".toList = some 8 := by
      rw [← h1]; rfl
    have f : token_level k "filters".toList = some 32 := by
      rw [← h2]; rfl
    have d8 : token_level k "8".toList = some 8 :=
      (token_level_digit k '8' [] (by decide)).trans (by decide)
    have d32 : token_level k "32".toList = some 32 :=
      (token_level_digit k '3' ['2'] (by decide)).trans (by decide)
    have d40 : token_level k "40".toList = some 40 :=
      (token_level_digit k '4' ['0'] (by decide)).trans (by decide)
    have hall : ∀ (toks : List (List Char)) (a b : List Char) (x y : Nat),
        token_level k a = some x → token_level k b = some y → x ≤ 40 → y ≤ 40 →
        toks = [a, b] ∨ toks = [a] →
        ∀ tok ∈ toks, (token_level k tok).isSome = true ∧ token_fits k tok = true := by
      intro toks a b x y ha hb hx hy ht tok htok
      have hfa : token_fits k a = true := by
        simp only [token_fits, ha, Option.getD_some, decide_eq_true_eq]; omega
      have hfb : token_fits k b = true := by
        simp only [token_fits, hb, Option.getD_some, decide_eq_true_eq]; omega
      rcases ht with ht | ht <;> subst ht <;>
        simp only [List.mem_cons, List.not_mem_nil, or_false] at htok
      · rcases htok with h | h <;> subst h
        · exact ⟨by rw [ha]; rfl, hfa⟩
        · exact ⟨by rw [hb]; rfl, hfb⟩
      · subst htok
        exact ⟨by rw [ha]; rfl, hfa⟩
    refine ⟨?_, ?_, ?_⟩
    · have ht : plus_tokens "connections+filters".toList =
          ["connections".toList, "filters".toList] := by decide
      have h := string2level_loop_recognised k ("connections+filters".length + 1)
        "connections+filters".toList 0 (Nat.lt_succ_self _) (by decide)
        (hall _ _ _ 8 32 c f (by omega) (by omega) (Or.inl ht))
      rw [ht] at h
      simp only [List.foldl_cons, List.foldl_nil, c, f, Option.getD_some] at h
      exact h
    · have ht : plus_tokens "8+32".toList = ["8".toList, "32".toList] := by decide
      have h := string2level_loop_recognised k ("8+32".length + 1) "8+32".toList 0
        (Nat.lt_succ_self _) (by decide)
        (hall _ _ _ 8 32 d8 d32 (by omega) (by omega) (Or.inl ht))
      rw [ht] at h
      simp only [List.foldl_cons, List.foldl_nil, d8, d32, Option.getD_some] at h
      exact h
    · have ht : plus_tokens "40".toList = ["40".toList] := by decide
      have h := string2level_loop_recognised k ("40".length + 1) "40".toList 0
        (Nat.lt_succ_self _) (by decide)
        (hall _ _ _ 40 40 d40 d40 (by omega) (by omega) (Or.inr ht))
      rw [ht] at h
      simp only [List.foldl_cons, List.foldl_nil, d40, Option.getD_some] at h
      exact h

/-- Witness of C26 amended: with the levels of `ldaplog.h`, the tokens of
`Connections+FILTERS` are recognised and fit an `int`, and the string gives
40, as do `connections+filters`, `8+32` and `40`; the names are matched
without regard to case; a string with an unknown or an empty token gives -1,
also after a token that does not fit an `int`. -/
theorem debug_level_or_of_tokens_witness :
    (∀ tok ∈ plus_tokens "Connections+FILTERS".toList,
      (token_level exampleConsts tok).isSome = true ∧ token_fits exampleConsts tok = true) ∧
    slapd_debug_level_string2level exampleConsts "Connections+FILTERS" = (.ret 40, []) ∧
    slapd_debug_level_string2level exampleConsts "connections+filters" = (.ret 40, []) ∧
    slapd_debug_level_string2level exampleConsts "8+32" = (.ret 40, []) ∧
    slapd_debug_level_string2level exampleConsts "40" = (.ret 40, []) ∧
    (slapd_debug_level_string2level exampleConsts "connections+bogus").1 = .ret (-1) ∧
    (slapd_debug_level_string2level exampleConsts "connections+").1 = .ret (-1) ∧
    (slapd_debug_level_string2level exampleConsts "2147483648+bogus").1 = .ret (-1) ∧
    token_level exampleConsts "CONNS".toList = some 8 ∧
    token_level exampleConsts "bogus".toList = none ∧
    token_level exampleConsts "32x".toList = some 32 := by
  have h := debug_level_or_of_tokens exampleConsts "Connections+FILTERS"
  have h2 := debug_level_or_of_tokens exampleConsts "connections+bogus"
  have h3 := debug_level_or_of_tokens exampleConsts "connections+"
  have h4 := debug_level_or_of_tokens exampleConsts "2147483648+bogus"
  have hx := h.2.2.2.2.2.2.2 rfl rfl
  refine ⟨by decide, ?_, hx.1, hx.2.1, hx.2.2, h2.2.1 ?_, h3.2.1 ?_, h4.2.1 ?_, ?_, ?_, ?_⟩
  · rw [h.1 (by decide)]
    decide
  · exact ⟨"bogus".toList, by decide, by decide⟩
  · exact ⟨[], by decide, rfl⟩
  · exact ⟨"bogus".toList, by decide, by decide⟩
  · exact h.2.2.2.2.2.1
      { dle_level := exampleConsts.LDAP_DEBUG_CONNS, dle_string := "conns", dle_hide := true }
      (by decide) 'C' "ONNS".toList (by decide) (by decide)
  · exact h.2.2.2.2.2.2.1 'b' "ogus".toList (by decide) (by decide)
  · exact (h.2.2.2.1 '3' "2x".toList (by decide)).trans (by decide)
end Slapd
